import Mathlib

/-!
# dps-transit: the arrivals board and the dispatcher panel of `html/js/app.js`

A shallow embedding of the update-coalescing, ETA-projection, empty-state and
held/caution code and of the dispatcher panel (selection, train list,
emergency stop, segment locks) of `html/js/app.js`, followed by theorems about
it.

Modelling conventions.
* A finite JavaScript number is an exact rational (`ℚ`); IEEE rounding is not
  modelled.  `Option ℚ` is a number-valued field that may be `undefined`
  (`none`), which reads as `NaN` in arithmetic and in comparisons.
* A string-valued field that may be missing is an `Option String`; the empty
  string is falsy, as in JavaScript.
* A plain object used as a dictionary is a `JsMap`: the insertion-ordered
  association list of its own properties (`Object.entries` visits the keys in
  list order).  The members a plain object inherits from `Object.prototype`
  are modelled where they change what the code does, in the reads of
  `hasSignificantETAChange` (`lookupETA`, `lookupPosition`); in the other
  reads the code treats an inherited member like a missing key.  A write under
  the key `__proto__`, which JavaScript hands to the accessor of
  `Object.prototype`, is kept in the list like any other write, and those two
  reads take it for what the accessor makes of it.
* Train and segment ids that the code puts into a CSS attribute selector are
  taken to need no escaping there.
* A snapshot is typed: `data.arrivals` is absent or an array of record
  objects, and the fields of a record have the types of the data model.
* `Date.now()` and `new Date().getHours()` are read once per handler call and
  passed in as a `Clock`.
* The host's timeout queue for the coalescing timer is part of the state
  (`timers`, `nextTimerId`); `renderLog` is a ghost trace of the calls of
  `updateArrivalsDOM`.
* A second layer (`RawSnapshot`) lets a record of a snapshot be `null` and a
  handler end with an exception.
* The dispatcher panel has its own state (`Dispatcher`): its module-level
  variables, the segment elements and the train list of the page as far as the
  script reads and writes them, and a ghost trace of the `emergencyStop`
  commands posted.  A handler of the panel may end with an exception
  (`DispatcherOutcome`).
-/

namespace DpsTransit

/-! ## Dictionaries -/

/-- A plain JavaScript object used as a dictionary. -/
abbrev JsMap (V : Type) := List (String × V)

namespace JsMap

/-- Property read `m[k]`; `none` is `undefined`. -/
def get {V : Type} (m : JsMap V) (k : String) : Option V :=
  match m with
  | [] => none
  | (k', v) :: rest => if k' = k then some v else get rest k

/-- Property write `m[k] = v`: an existing key keeps its place. -/
def set {V : Type} (m : JsMap V) (k : String) (v : V) : JsMap V :=
  match m with
  | [] => [(k, v)]
  | (k', v') :: rest => if k' = k then (k, v) :: rest else (k', v') :: set rest k v

/-- Property removal `delete m[k]`. -/
def delete {V : Type} (m : JsMap V) (k : String) : JsMap V :=
  m.filter (fun p => decide (p.1 ≠ k))

end JsMap

/-! ## Data model -/

/-- An incoming `arrival.position`: each coordinate may be missing. -/
structure Position where
  x : Option ℚ
  y : Option ℚ
  z : Option ℚ
deriving DecidableEq

/-- A position as stored in `lastTrainPositions` (coordinates defaulted to 0). -/
structure StoredPosition where
  x : ℚ
  y : ℚ
  z : ℚ
deriving DecidableEq

/-- One record of an arrivals snapshot. -/
structure Arrival where
  trainId : Option String
  destination : Option String
  eta : Option ℚ
  status : Option String
  type : Option String
  position : Option Position
deriving DecidableEq

/-- An exception raised by a handler: reading a property of `null` raises a
`TypeError`, exhausting the call stack raises a `RangeError`. -/
inductive JsError where
  | typeError
  | rangeError
deriving DecidableEq

/-- The value of `data.arrivals`: absent, or an array of records. -/
abbrev Snapshot := Option (List Arrival)

/-- JavaScript truthiness of a possibly missing string. -/
def truthy (s : Option String) : Bool :=
  match s with
  | none => false
  | some t => decide (t ≠ "")

/-- The property key a possibly missing string is coerced to. -/
def propKey (s : Option String) : String :=
  match s with
  | none => "undefined"
  | some t => t

/-- The identity key `arrival.trainId || arrival.destination`. -/
def keyOf (a : Arrival) : String :=
  if truthy a.trainId then propKey a.trainId else propKey a.destination

/-- `x || 0` on a coordinate. -/
def orZero (c : Option ℚ) : ℚ := c.getD 0

def THROTTLE_MS : Int := 15000
def ETA_CHANGE_THRESHOLD : ℚ := 30
def DISTANCE_DEADZONE : ℚ := 5

/-- `Math.abs(lastETA - currentETA) >= ETA_CHANGE_THRESHOLD`; a missing
`currentETA` makes the difference `NaN`, and the comparison false. -/
def etaJump (lastETA : ℚ) (currentETA : Option ℚ) : Bool :=
  match currentETA with
  | none => false
  | some c => decide (ETA_CHANGE_THRESHOLD ≤ |lastETA - c|)

/-- The squared length `dx * dx + dy * dy + dz * dz` between an incoming and a
stored position. -/
def distSq (p : Position) (lastPos : StoredPosition) : ℚ :=
  let dx := orZero p.x - lastPos.x
  let dy := orZero p.y - lastPos.y
  let dz := orZero p.z - lastPos.z
  dx * dx + dy * dy + dz * dz

/-- `Math.sqrt(dx*dx + dy*dy + dz*dz) >= DISTANCE_DEADZONE`, decided on the
squares. -/
def movedBeyondDeadzone (p : Position) (lastPos : StoredPosition) : Bool :=
  decide (DISTANCE_DEADZONE * DISTANCE_DEADZONE ≤ distSq p lastPos)

/-- The names of the properties every plain object inherits from
`Object.prototype`.  All of them are functions, except the accessor
`__proto__`, which reads as the prototype itself. -/
def inheritedKeys : List String :=
  ["constructor", "__defineGetter__", "__defineSetter__", "hasOwnProperty",
   "__lookupGetter__", "__lookupSetter__", "isPrototypeOf", "propertyIsEnumerable",
   "toString", "valueOf", "__proto__", "toLocaleString"]

/-- What the read `lastETAValues[key]` gives: `undefined`, a number, or an
object (a function or the prototype inherited from `Object.prototype`). -/
inductive ETASlot where
  | undefined
  | number (v : ℚ)
  | object
deriving DecidableEq

/-- The read `lastETAValues[key]` on the plain object `lastETAValues`.  An own
property reads as its value, a stored `undefined` included; a key with no own
property reads as the member of `Object.prototype` of that name, if there is
one, and as `undefined` otherwise.  The key `__proto__` always reads as the
prototype: the assignment `lastETAValues['__proto__'] = eta` of
`updateStoredETAs` goes to the accessor, which ignores a number, so it never
makes an own property. -/
def lookupETA (lastETAValues : JsMap (Option ℚ)) (key : String) : ETASlot :=
  if key = "__proto__" then ETASlot.object
  else
    match lastETAValues.get key with
    | some (some v) => ETASlot.number v
    | some none => ETASlot.undefined
    | none => if key ∈ inheritedKeys then ETASlot.object else ETASlot.undefined

/-- The number the read `lastETAValues[key]` gives, if it gives one: `none`
when it gives `undefined` or an inherited object, with which every arithmetic
comparison fails. -/
def readETA (lastETAValues : JsMap (Option ℚ)) (key : String) : Option ℚ :=
  match lookupETA lastETAValues key with
  | ETASlot.number v => some v
  | _ => none

/-- The read `lastTrainPositions[key]` when it is truthy, as the coordinates
`(lastPos.x || 0, lastPos.y || 0, lastPos.z || 0)` the distance test takes
from it; `none` when the read is falsy.  An own property is the stored
position; for the key `__proto__` that is the object `updateStoredETAs`
assigned, which the accessor has made the prototype.  With no own property,
a key that names a member of `Object.prototype` reads as that member, an
object with no coordinates; and when a position has been made the prototype,
the keys `x`, `y` and `z` read as its coordinates, numbers that are truthy
when they are not 0 and have no coordinates themselves. -/
def lookupPosition (lastTrainPositions : JsMap StoredPosition) (key : String) :
    Option StoredPosition :=
  match lastTrainPositions.get key with
  | some lastPos => some lastPos
  | none =>
    if key ∈ inheritedKeys then some ⟨0, 0, 0⟩
    else
      match lastTrainPositions.get "__proto__" with
      | none => none
      | some proto =>
        let inherited : ℚ :=
          if key = "x" then proto.x else if key = "y" then proto.y
          else if key = "z" then proto.z else 0
        if inherited ≠ 0 then some ⟨0, 0, 0⟩ else none

/-- The body of the `for` loop of `hasSignificantETAChange` for one record:
`true` when the loop returns `true` at this record.  With an inherited object
for `lastETA`, `lastETA === undefined` is false and
`Math.abs(lastETA - currentETA)` is `NaN`, so the first test fails. -/
def recordSignificant (lastETAValues : JsMap (Option ℚ))
    (lastTrainPositions : JsMap StoredPosition) (arrival : Arrival) : Bool :=
  let key := keyOf arrival
  let firstOrJump :=
    match lookupETA lastETAValues key with
    | ETASlot.undefined => true
    | ETASlot.number lastETA => etaJump lastETA arrival.eta
    | ETASlot.object => false
  if firstOrJump then true
  else
    match arrival.position, lookupPosition lastTrainPositions key with
    | some p, some lastPos => movedBeyondDeadzone p lastPos
    | some _, none => true
    | none, _ => false

/-- The `for` loop of `hasSignificantETAChange`: it returns `true` at the first
record that is significant and `false` when it runs off the end. -/
def significantLoop (lastETAValues : JsMap (Option ℚ))
    (lastTrainPositions : JsMap StoredPosition) : List Arrival → Bool
  | [] => false
  | arrival :: rest =>
    if recordSignificant lastETAValues lastTrainPositions arrival then true
    else significantLoop lastETAValues lastTrainPositions rest

/-- The function `hasSignificantETAChange` of app.js, reading the two stored
maps. -/
def hasSignificantETAChange (lastETAValues : JsMap (Option ℚ))
    (lastTrainPositions : JsMap StoredPosition) (arrivals : Snapshot) : Bool :=
  match arrivals with
  | none => true
  | some [] => true
  | some l => significantLoop lastETAValues lastTrainPositions l

/-- The object `{ x: position.x || 0, y: position.y || 0, z: position.z || 0 }`
that `updateStoredETAs` stores. -/
def storedPositionOf (p : Position) : StoredPosition :=
  ⟨orZero p.x, orZero p.y, orZero p.z⟩

/-- The two maps `updateStoredETAs` builds, threaded through its loop. -/
def storeLoop : JsMap (Option ℚ) × JsMap StoredPosition → List Arrival →
    JsMap (Option ℚ) × JsMap StoredPosition
  | maps, [] => maps
  | (etas, positions), arrival :: rest =>
    let key := keyOf arrival
    let etas1 := etas.set key arrival.eta
    let positions1 :=
      match arrival.position with
      | some p => positions.set key (storedPositionOf p)
      | none => positions
    storeLoop (etas1, positions1) rest

/-- The function `updateStoredETAs` of app.js: the new values of
`lastETAValues` and `lastTrainPositions`. -/
def updateStoredETAs (arrivals : Snapshot) : JsMap (Option ℚ) × JsMap StoredPosition :=
  match arrivals with
  | none => ([], [])
  | some l => storeLoop ([], []) l

/-! ## State -/

/-- An entry of `heldTrainStatus`. -/
structure HeldEntry where
  isHeld : Bool
  isCaution : Bool
  reason : String
  segmentName : Option String
  heldSince : Int
deriving DecidableEq

/-- A child of the `arrivals-list` element: an arrival row (its data
attribute and the texts and ETA class it is built from) or the empty-state
row.  HTML escaping and the class derived from the status text are markup and
are left out. -/
inductive DomRow where
  | arrival (trainId destination typeIcon etaClass etaDisplay displayStatus : String)
  | emptyState (icon message subMessage : String)
deriving DecidableEq

/-- The object `{ arrivals, servicePeriod }` kept in `pendingArrivalData`. -/
structure Pending where
  arrivals : Snapshot
  servicePeriod : Option String
deriving DecidableEq

/-- A timeout queued in the host by `setTimeout` for the coalescing callback. -/
structure Timer where
  id : Nat
  armedAt : Int
  delay : Int
deriving DecidableEq

/-- The instant a timer is due. -/
def Timer.deadline (t : Timer) : Int := t.armedAt + t.delay

/-- One call of `updateArrivalsDOM`, as recorded in the ghost trace. -/
structure RenderCall where
  time : Int
  arrivals : Snapshot
  servicePeriod : Option String
deriving DecidableEq

/-- The readings of the wall clock a handler takes. -/
structure Clock where
  now : Int
  hour : Nat
deriving DecidableEq

/-- The module-level variables of the arrivals board, the timeout queue of the
host (`timers`, `nextTimerId`) and the ghost trace `renderLog`. -/
structure State where
  lastArrivalUpdate : Int
  pendingArrivalData : Option Pending
  throttleTimeout : Option Nat
  lastETAValues : JsMap (Option ℚ)
  lastTrainPositions : JsMap StoredPosition
  currentServicePeriod : String
  validTrainIds : List String
  hasReceivedServerData : Bool
  lastDataReceiveTime : Int
  heldTrainStatus : JsMap HeldEntry
  arrivalsList : List DomRow
  timers : List Timer
  nextTimerId : Nat
  renderLog : List RenderCall
deriving DecidableEq

/-- The state when the script has just been loaded. -/
def initialState : State where
  lastArrivalUpdate := 0
  pendingArrivalData := none
  throttleTimeout := none
  lastETAValues := []
  lastTrainPositions := []
  currentServicePeriod := "offpeak"
  validTrainIds := []
  hasReceivedServerData := false
  lastDataReceiveTime := 0
  heldTrainStatus := []
  arrivalsList := []
  timers := []
  nextTimerId := 1
  renderLog := []

/-! ## Rendering of the arrivals list -/

/-- The method `toLowerCase` on the status text (ASCII letters; no other
character lower-cases to a letter of the three platform words). -/
def toLowerCase (s : String) : String := ⟨s.data.map Char.toLower⟩

/-- The function `formatETA` of app.js; `none` is `NaN`, on which both
comparisons fail.  The numeral is the decimal expansion, which is what
JavaScript prints for an integer below `10^21`. -/
def formatETA (seconds : Option ℚ) : String :=
  match seconds with
  | none => "NaN min"
  | some s =>
    if s < 60 then "NOW"
    else if s < 120 then "1 min"
    else toString ⌊s / 60⌋ ++ " min"

/-- The function `getAdjustedETA` of app.js. -/
def getAdjustedETA (heldTrainStatus : JsMap HeldEntry) (now : Int) (trainId : Option String)
    (originalEta : Option ℚ) : Option ℚ :=
  match heldTrainStatus.get (propKey trainId) with
  | none => originalEta
  | some held =>
    if held.isHeld then
      let heldDuration : Int := Int.fdiv (now - held.heldSince) 1000
      originalEta.map (fun e => e + (heldDuration : ℚ))
    else if held.isCaution then
      originalEta.map (fun e => ((⌊e * (17 / 10)⌋ : Int) : ℚ))
    else originalEta

/-- The predicate of `arrivals.filter` in `updateArrivalsDOM`: the ETA is a
number in `[0, 86400]` and the destination is not empty. -/
def isValidArrival (arrival : Arrival) : Bool :=
  match arrival.eta with
  | none => false
  | some eta =>
    if eta < 0 ∨ 86400 < eta then false
    else truthy arrival.destination

/-- A numeric comparison `a < b` whose left side may be `NaN`. -/
def numLt (a : Option ℚ) (b : ℚ) : Bool :=
  match a with
  | none => false
  | some x => decide (x < b)

/-- A numeric comparison `a > b` whose left side may be `NaN`. -/
def numGt (a : Option ℚ) (b : ℚ) : Bool :=
  match a with
  | none => false
  | some x => decide (b < x)

/-- The test `status === 'boarding' || status === 'approaching' ||
status === 'departing'` on the lower-cased status. -/
def isAtStation (arrival : Arrival) : Bool :=
  let status := if truthy arrival.status then toLowerCase (propKey arrival.status) else ""
  decide (status = "boarding") || decide (status = "approaching") ||
    decide (status = "departing")

/-- The test `held && held.isHeld` for the record's train. -/
def rowIsHeld (heldTrainStatus : JsMap HeldEntry) (arrival : Arrival) : Bool :=
  match heldTrainStatus.get (propKey arrival.trainId) with
  | none => false
  | some held => held.isHeld

/-- The test `held && held.isCaution` for the record's train. -/
def rowIsCaution (heldTrainStatus : JsMap HeldEntry) (arrival : Arrival) : Bool :=
  match heldTrainStatus.get (propKey arrival.trainId) with
  | none => false
  | some held => held.isCaution

/-- The frozen-ETA test `isStuckBetweenStations` of `updateArrivalsDOM`. -/
def isStuckBetweenStations (lastETAValues : JsMap (Option ℚ)) (lastDataReceiveTime now : Int)
    (arrival : Arrival) : Bool :=
  let etaUnchanged :=
    match readETA lastETAValues (propKey arrival.trainId), arrival.eta with
    | some lastETA, some eta => decide (|lastETA - eta| < 5)
    | _, _ => false
  let frozenTooLong := etaUnchanged && decide (now - lastDataReceiveTime > 30000)
  frozenTooLong && !isAtStation arrival && numGt arrival.eta 60

/-- The body of `validArrivals.forEach` in `updateArrivalsDOM`: the row built
for one record. -/
def renderRow (heldTrainStatus : JsMap HeldEntry) (lastETAValues : JsMap (Option ℚ))
    (lastDataReceiveTime now : Int) (arrival : Arrival) : DomRow :=
  let trainId := if truthy arrival.trainId then propKey arrival.trainId else ""
  let isHeld := rowIsHeld heldTrainStatus arrival
  let isCaution := rowIsCaution heldTrainStatus arrival
  let stuck := isStuckBetweenStations lastETAValues lastDataReceiveTime now arrival
  let status := if truthy arrival.status then propKey arrival.status else "On Time"
  let typeIcon := if arrival.type = some "freight" then "(Freight)" else ""
  let dest := propKey arrival.destination
  if isHeld || stuck then
    if isHeld then DomRow.arrival trainId dest typeIcon "eta-held" "HELD" "Signal Hold"
    else DomRow.arrival trainId dest typeIcon "eta-held" "DELAYED" "Signal Hold"
  else if isAtStation arrival then
    DomRow.arrival trainId dest typeIcon "arriving" "NOW" status
  else if isCaution then
    DomRow.arrival trainId dest typeIcon
      (if numLt arrival.eta 120 then "eta-caution" else "")
      (formatETA (getAdjustedETA heldTrainStatus now arrival.trainId arrival.eta)) status
  else
    DomRow.arrival trainId dest typeIcon
      (if numLt arrival.eta 60 then "arriving" else "")
      (formatETA arrival.eta) status

/-- The function `markDataReceived` of app.js. -/
def markDataReceived (st : State) (clock : Clock) : State :=
  { st with hasReceivedServerData := true, lastDataReceiveTime := clock.now }

/-- The row `showEmptyState` builds (icon name, message, sub-message). -/
def emptyStateRow (st : State) (clock : Clock) : DomRow :=
  let timeSinceData := clock.now - st.lastDataReceiveTime
  if !st.hasReceivedServerData then
    DomRow.emptyState "search" "Searching for Trains..." "Connecting to transit server"
  else if timeSinceData > 30000 then
    DomRow.emptyState "warning" "Connection Lost" "Attempting to reconnect..."
  else if st.currentServicePeriod = "night" ∨ (clock.hour ≥ 22 ∨ clock.hour < 6) then
    DomRow.emptyState "moon" "Limited Night Service" "Trains every 30 minutes"
  else if st.currentServicePeriod = "starting" then
    DomRow.emptyState "clock" "Service Starting" "First train departing soon"
  else if st.currentServicePeriod = "emergency" then
    DomRow.emptyState "warning" "Service Suspended" "Please follow station announcements"
  else if st.currentServicePeriod = "searching" then
    DomRow.emptyState "search" "Searching for Trains..." "Please wait"
  else
    DomRow.emptyState "train" "No trains scheduled" "Check back shortly"

/-- The function `showEmptyState` of app.js: it appends the empty-state row. -/
def showEmptyState (st : State) (clock : Clock) : State :=
  { st with arrivalsList := st.arrivalsList ++ [emptyStateRow st clock] }

/-- The method `validTrainIds.add`. -/
def setAdd (ids : List String) (trainId : String) : List String :=
  if trainId ∈ ids then ids else ids ++ [trainId]

/-- The side effect of the filter of `updateArrivalsDOM` on `validTrainIds`. -/
def trackValidIds (ids : List String) : List Arrival → List String
  | [] => ids
  | arrival :: rest =>
    if isValidArrival arrival && truthy arrival.trainId then
      trackValidIds (setAdd ids (propKey arrival.trainId)) rest
    else trackValidIds ids rest

/-- The function `updateArrivalsDOM` of app.js. -/
def updateArrivalsDOM (st : State) (clock : Clock) (arrivals : Snapshot)
    (servicePeriod : Option String) : State :=
  let st1 := { st with
    arrivalsList := [],
    renderLog := st.renderLog ++ [⟨clock.now, arrivals, servicePeriod⟩] }
  let st2 := markDataReceived st1 clock
  let st3 :=
    if truthy servicePeriod then { st2 with currentServicePeriod := propKey servicePeriod }
    else st2
  match arrivals with
  | none => showEmptyState st3 clock
  | some [] => showEmptyState st3 clock
  | some l =>
    let validArrivals := l.filter isValidArrival
    let st4 := { st3 with validTrainIds := trackValidIds st3.validTrainIds l }
    if validArrivals.length = 0 then showEmptyState st4 clock
    else
      let rows := validArrivals.map
        (renderRow st4.heldTrainStatus st4.lastETAValues st4.lastDataReceiveTime clock.now)
      { st4 with arrivalsList := st4.arrivalsList ++ rows }

/-! ## The update coalescer -/

/-- The host call `clearTimeout(id)`. -/
def clearTimeout (timers : List Timer) (id : Nat) : List Timer :=
  timers.filter (fun t => decide (t.id ≠ id))

/-- The rendering branch of `throttledUpdateArrivals`. -/
def renderNow (st : State) (clock : Clock) (arrivals : Snapshot)
    (servicePeriod : Option String) : State :=
  let st1 := updateArrivalsDOM st clock arrivals servicePeriod
  let stored := updateStoredETAs arrivals
  let st2 := { st1 with
    lastETAValues := stored.1,
    lastTrainPositions := stored.2,
    lastArrivalUpdate := clock.now,
    pendingArrivalData := none }
  match st2.throttleTimeout with
  | some id => { st2 with timers := clearTimeout st2.timers id, throttleTimeout := none }
  | none => st2

/-- The deferring branch of `throttledUpdateArrivals`. -/
def deferUpdate (st : State) (clock : Clock) (arrivals : Snapshot)
    (servicePeriod : Option String) : State :=
  let timeSinceLastUpdate := clock.now - st.lastArrivalUpdate
  let st1 := { st with pendingArrivalData := some ⟨arrivals, servicePeriod⟩ }
  match st1.throttleTimeout with
  | some _ => st1
  | none =>
    { st1 with
      timers := st1.timers ++ [⟨st1.nextTimerId, clock.now, THROTTLE_MS - timeSinceLastUpdate⟩],
      throttleTimeout := some st1.nextTimerId,
      nextTimerId := st1.nextTimerId + 1 }

/-- The function `throttledUpdateArrivals` of app.js. -/
def throttledUpdateArrivals (st : State) (clock : Clock) (arrivals : Snapshot)
    (servicePeriod : Option String) : State :=
  let timeSinceLastUpdate := clock.now - st.lastArrivalUpdate
  let hasChanges := hasSignificantETAChange st.lastETAValues st.lastTrainPositions arrivals
  if hasChanges || decide (timeSinceLastUpdate ≥ THROTTLE_MS) then
    renderNow st clock arrivals servicePeriod
  else
    deferUpdate st clock arrivals servicePeriod

/-- The callback `throttledUpdateArrivals` hands to `setTimeout`. -/
def throttleCallback (st : State) (clock : Clock) : State :=
  let st1 :=
    match st.pendingArrivalData with
    | some pending =>
      let st2 := updateArrivalsDOM st clock pending.arrivals pending.servicePeriod
      let stored := updateStoredETAs pending.arrivals
      { st2 with
        lastETAValues := stored.1,
        lastTrainPositions := stored.2,
        lastArrivalUpdate := clock.now,
        pendingArrivalData := none }
    | none => st
  { st1 with throttleTimeout := none }

/-- The host fires the queued timeout `id`: it leaves the queue and its
callback runs.  A timeout that is not queued cannot fire. -/
def fireTimer (st : State) (clock : Clock) (id : Nat) : State :=
  if st.timers.any (fun t => decide (t.id = id)) then
    throttleCallback { st with timers := clearTimeout st.timers id } clock
  else st

/-- The inbound events of the arrivals stream: an `updateArrivals` message and
the firing of a queued coalescing timeout. -/
inductive Event where
  | updateArrivals (clock : Clock) (arrivals : Snapshot)
  | timerFired (clock : Clock) (id : Nat)

/-- The effect of one event; the message listener calls
`throttledUpdateArrivals(data.arrivals)` with no service period. -/
def step (st : State) : Event → State
  | Event.updateArrivals clock arrivals => throttledUpdateArrivals st clock arrivals none
  | Event.timerFired clock id => fireTimer st clock id

/-- The state after a sequence of events. -/
def run (st : State) (events : List Event) : State := events.foldl step st

/-! ## Specification-side definitions

These follow the wording of the specification and are compared with the code
above by the theorems below. -/

/-- Spec wording of the per-record rule of the significance detector: no
stored ETA for the key, or an ETA jump of at least 30, or a first position, or
a Euclidean distance of at least 5 to the stored position. -/
def RecordSignificantSpec (lastETAValues : JsMap (Option ℚ))
    (lastTrainPositions : JsMap StoredPosition) (a : Arrival) : Prop :=
  readETA lastETAValues (keyOf a) = none ∨
  (∃ lastETA eta, readETA lastETAValues (keyOf a) = some lastETA ∧ a.eta = some eta ∧
      30 ≤ |lastETA - eta|) ∨
  (a.position ≠ none ∧ lastTrainPositions.get (keyOf a) = none) ∨
  (∃ p lastPos, a.position = some p ∧ lastTrainPositions.get (keyOf a) = some lastPos ∧
      (5 : ℝ) ≤ Real.sqrt (((distSq p lastPos : ℚ) : ℝ)))

/-- A key whose reads in the two stored maps find own properties only: it
names no member of `Object.prototype`, and it is none of `x`, `y`, `z` when a
position is stored under `__proto__`. -/
def PlainKey (lastTrainPositions : JsMap StoredPosition) (key : String) : Prop :=
  key ∉ inheritedKeys ∧
    (lastTrainPositions.get "__proto__" = none ∨ (key ≠ "x" ∧ key ≠ "y" ∧ key ≠ "z"))

/-- The records of a snapshot (none when it is absent). -/
def records (arrivals : Snapshot) : List Arrival := arrivals.getD []

/-- Spec wording of "the ETA of this snapshot for key `k`": that of the last
record carrying the key. -/
def snapshotETA (arrivals : Snapshot) (k : String) : Option (Option ℚ) :=
  ((records arrivals).reverse.find? (fun a => decide (keyOf a = k))).map (fun a => a.eta)

/-- Spec wording of "the position of this snapshot for key `k`": that of the
last record carrying the key and a position. -/
def snapshotPosition (arrivals : Snapshot) (k : String) : Option StoredPosition :=
  (records arrivals).reverse.findSome?
    (fun a => if keyOf a = k then a.position.map storedPositionOf else none)

/-- The coalescer invariant: the host queue holds the timeout named by
`throttleTimeout` and nothing else, and a payload is pending exactly when a
timeout is armed. -/
def CoalescerInv (st : State) : Prop :=
  (match st.throttleTimeout with
    | none => st.timers = []
    | some id => ∃ t, st.timers = [t] ∧ t.id = id) ∧
  (st.pendingArrivalData.isSome = st.throttleTimeout.isSome)

/-- The render condition of `throttledUpdateArrivals`. -/
def RendersNow (st : State) (clock : Clock) (arrivals : Snapshot) : Prop :=
  hasSignificantETAChange st.lastETAValues st.lastTrainPositions arrivals = true ∨
    clock.now - st.lastArrivalUpdate ≥ 15000

/-- The state right after the snapshot `arrivals` has been rendered at time
`t0`: the last-render time and the stored maps are its own, nothing is pending
and no timeout is armed or queued.  Both render paths establish it
(`justRendered_of_render`, `justRendered_of_fire`). -/
def JustRendered (st : State) (arrivals : Snapshot) (t0 : Int) : Prop :=
  st.lastArrivalUpdate = t0 ∧
  st.lastETAValues = (updateStoredETAs arrivals).1 ∧
  st.lastTrainPositions = (updateStoredETAs arrivals).2 ∧
  st.pendingArrivalData = none ∧
  st.throttleTimeout = none ∧
  st.timers = []

/-- Spec wording of "the second snapshot carries trains of the first, with
ETAs less than 30 s away and no position": every record of `lb` has no
position, its key is carried by `la`, and its ETA is a number less than 30 away
from the ETA of every record of `la` with the same key. -/
def CloseFollowUp (la lb : List Arrival) : Prop :=
  ∀ b ∈ lb, b.position = none ∧ (∃ a ∈ la, keyOf a = keyOf b) ∧
    ∀ a ∈ la, keyOf a = keyOf b →
      ∃ ea eb, a.eta = some ea ∧ b.eta = some eb ∧ |ea - eb| < 30

/-- Spec wording of a record that passes validation, as the code checks it:
the ETA is a number in `[0, 86400]` and the destination is not empty. -/
def ValidRecord (a : Arrival) : Prop :=
  (∃ eta, a.eta = some eta ∧ 0 ≤ eta ∧ eta ≤ 86400) ∧
    ∃ d, a.destination = some d ∧ d ≠ ""

/-- Spec wording of a record that passes validation, with the ETA an integer
number of seconds. -/
def ValidRecordIntegerEta (a : Arrival) : Prop :=
  (∃ n : ℤ, a.eta = some (n : ℚ) ∧ 0 ≤ n ∧ n ≤ 86400) ∧
    ∃ d, a.destination = some d ∧ d ≠ ""

/-- The ETA text of a row (`none` for the empty-state row). -/
def DomRow.etaText : DomRow → Option String
  | DomRow.arrival _ _ _ _ etaDisplay _ => some etaDisplay
  | DomRow.emptyState _ _ _ => none

/-- The status label of a row (`none` for the empty-state row). -/
def DomRow.statusText : DomRow → Option String
  | DomRow.arrival _ _ _ _ _ displayStatus => some displayStatus
  | DomRow.emptyState _ _ _ => none

/-! ## Example data -/

/-- Snapshot A of the specification's example: train T1 to Downtown, 200 s. -/
def recordA : Arrival := ⟨some "T1", some "Downtown", some 200, none, none, none⟩

/-- Snapshot B of the specification's example: train T1 to Downtown, 185 s. -/
def recordB : Arrival := ⟨some "T1", some "Downtown", some 185, none, none, none⟩

/-- A record with a fractional ETA of 12.5 s. -/
def recordFractional : Arrival := ⟨some "T1", some "Downtown", some (25 / 2), none, none, none⟩

/-- A record that fails validation (negative ETA) for a train not seen before. -/
def recordInvalid : Arrival := ⟨some "T2", some "Uptown", some (-5), none, none, none⟩

/-- A record that fails validation (empty destination) under the key of T1. -/
def recordNoDestination : Arrival := ⟨some "T1", some "", some 100, none, none, none⟩

/-- Train T1 boarding, with a raw ETA of 340 s and a mixed-case status. -/
def recordBoarding : Arrival := ⟨some "T1", some "Downtown", some 340, some "Boarding", none, none⟩

/-- A hard hold on train T1. -/
def holdT1 : JsMap HeldEntry := [("T1", ⟨true, false, "Signal hold", some "S1", 1000⟩)]

/-- The state after snapshot A was rendered at time 0. -/
def stateAfterA : State :=
  step initialState (Event.updateArrivals ⟨0, 12⟩ (some [recordA]))

/-- The state after snapshot B was delivered at time 2000 in `stateAfterA`. -/
def stateAfterB : State :=
  step stateAfterA (Event.updateArrivals ⟨2000, 12⟩ (some [recordB]))

/-- A first record of a train whose id is `constructor`. -/
def recordConstructor : Arrival :=
  ⟨some "constructor", some "Downtown", some 200, none, none, none⟩

/-- The initial state with a hard hold on train T1. -/
def stateHeld : State := { initialState with heldTrainStatus := holdT1 }

/-! ## The held/caution tracker and the removal of trains -/

/-- The function `updateTrainHeldStatus` of app.js.  Its second half patches
the rows already in the list: it looks in each row of the train for the
elements `.arrival-eta` and `.arrival-status`, which the rows built by
`updateArrivalsDOM` (children `col-dest`, `col-eta`, `col-status`) do not have,
so no text of the list changes; the classes it toggles on the row itself are
markup and are left out. -/
def updateTrainHeldStatus (st : State) (clock : Clock) (trainId : Option String)
    (isHeld isCaution : Bool) (reason segmentName : Option String) : State :=
  if isHeld || isCaution then
    let heldSince :=
      match st.heldTrainStatus.get (propKey trainId) with
      | some previous => if previous.heldSince ≠ 0 then previous.heldSince else clock.now
      | none => clock.now
    let entry : HeldEntry :=
      ⟨isHeld, isCaution, if truthy reason then propKey reason else "Signal hold",
        segmentName, heldSince⟩
    { st with heldTrainStatus := st.heldTrainStatus.set (propKey trainId) entry }
  else
    { st with heldTrainStatus := st.heldTrainStatus.delete (propKey trainId) }

/-- The method `validTrainIds.delete`. -/
def setDelete (ids : List String) (trainId : Option String) : List String :=
  match trainId with
  | some id => ids.filter (fun x => decide (x ≠ id))
  | none => ids

/-- The function `removeInvalidTrain` of app.js: the three deletions.  The
fade-out of the train's row and its removal from the list 300 ms later work on
one DOM element and are left out. -/
def removeInvalidTrain (st : State) (trainId : Option String) : State :=
  { st with
    validTrainIds := setDelete st.validTrainIds trainId,
    lastETAValues := st.lastETAValues.delete (propKey trainId),
    lastTrainPositions := st.lastTrainPositions.delete (propKey trainId) }

/-- The function `handleTrainRemoved` of app.js. -/
def handleTrainRemoved (st : State) (trainId : Option String) : State :=
  removeInvalidTrain st trainId

/-- The loop `validTrainIds.forEach` of `clearStaleTrainData` over the tracked
ids. -/
def clearStaleLoop (currentValidIds : List String) : State → List String → State
  | st, [] => st
  | st, trainId :: rest =>
    if trainId ∈ currentValidIds then clearStaleLoop currentValidIds st rest
    else clearStaleLoop currentValidIds (removeInvalidTrain st (some trainId)) rest

/-- The function `clearStaleTrainData` of app.js; `none` is a value that is
absent or not an array. -/
def clearStaleTrainData (st : State) (currentValidIds : Option (List String)) : State :=
  match currentValidIds with
  | none => st
  | some ids => clearStaleLoop ids st st.validTrainIds

/-- The function `updateArrivals` of app.js: the direct, unthrottled render. -/
def updateArrivals (st : State) (clock : Clock) (arrivals : Snapshot) : State :=
  updateArrivalsDOM st clock arrivals none

/-- The function `showScheduleBoard` of app.js, as far as the arrivals list
goes; the station title, the wall clock and the visibility of the board are
left out. -/
def showScheduleBoard (st : State) (clock : Clock) (_station : String)
    (arrivals : Snapshot) : State :=
  updateArrivals st clock arrivals

/-- The inbound events that reach the arrivals board: those of the arrivals
stream, `showSchedule`, `trainHeldStatus`, `trainRemoved` and
`clearStaleTrains`.  The messages `updateDelays` and `updateTrainSegment`,
which write to the status cell of a row and never to its ETA cell, are left
out. -/
inductive Inbound where
  | coalescer (e : Event)
  | showSchedule (clock : Clock) (station : String) (arrivals : Snapshot)
  | trainHeldStatus (clock : Clock) (trainId : Option String) (isHeld isCaution : Bool)
      (reason segmentName : Option String)
  | trainRemoved (trainId : Option String)
  | clearStaleTrains (validIds : Option (List String))

/-- The effect of one inbound event, as the message listener dispatches it. -/
def stepInbound (st : State) : Inbound → State
  | Inbound.coalescer e => step st e
  | Inbound.showSchedule clock station arrivals => showScheduleBoard st clock station arrivals
  | Inbound.trainHeldStatus clock trainId isHeld isCaution reason segmentName =>
    updateTrainHeldStatus st clock trainId isHeld isCaution reason segmentName
  | Inbound.trainRemoved trainId => handleTrainRemoved st trainId
  | Inbound.clearStaleTrains validIds => clearStaleTrainData st validIds

/-- The state after a sequence of inbound events. -/
def runInbound (st : State) (events : List Inbound) : State := events.foldl stepInbound st

/-- One `trainHeldStatus` message for a fixed train. -/
structure HeldEvent where
  clock : Clock
  isHeld : Bool
  isCaution : Bool
  reason : Option String
  segmentName : Option String
deriving DecidableEq

/-- The state after a sequence of `trainHeldStatus` messages for one train. -/
def applyHeldEvents (st : State) (trainId : Option String) (events : List HeldEvent) : State :=
  events.foldl
    (fun s e => updateTrainHeldStatus s e.clock trainId e.isHeld e.isCaution e.reason
      e.segmentName) st

/-- Spec wording of "inferred stuck": the ETA is less than 5 s away from the
last stored ETA of the train, more than 30 s have passed since the last
accepted data point `lastAccepted`, the train is not at the platform and its
raw ETA exceeds 60. -/
def InferredStuckSpec (lastETAValues : JsMap (Option ℚ)) (lastAccepted now : Int)
    (a : Arrival) : Prop :=
  (∃ lastETA eta, readETA lastETAValues (propKey a.trainId) = some lastETA ∧
      a.eta = some eta ∧ |lastETA - eta| < 5 ∧ 60 < eta) ∧
    now - lastAccepted > 30000 ∧ isAtStation a = false

/-- No row of the list shows the ETA text "DELAYED". -/
def NoDelayedRow (st : State) : Prop :=
  ∀ row ∈ st.arrivalsList, row.etaText ≠ some "DELAYED"

/-- The message of a row (`none` for an arrival row). -/
def DomRow.message : DomRow → Option String
  | DomRow.arrival _ _ _ _ _ _ => none
  | DomRow.emptyState _ message _ => some message

/-- A caution override on train T1. -/
def cautionT1 : JsMap HeldEntry := [("T1", ⟨false, true, "Signal hold", some "S1", 1000⟩)]

/-- The state after snapshot A, rendered at time 0, is delivered again,
unchanged, at time 40000. -/
def stateAfterRepeat : State :=
  step stateAfterA (Event.updateArrivals ⟨40000, 12⟩ (some [recordA]))

/-- The state after a hard hold on train T1 was announced at time 1000. -/
def stateHoldSet : State :=
  updateTrainHeldStatus initialState ⟨1000, 12⟩ (some "T1") true false none (some "S1")

/-- The state after that hold was cleared at time 61000. -/
def stateHoldCleared : State :=
  updateTrainHeldStatus stateHoldSet ⟨61000, 12⟩ (some "T1") false false none none

/-- A hold on T1, a render of snapshot A, and the removal of T1. -/
def removalEvents : List Inbound :=
  [Inbound.trainHeldStatus ⟨1000, 12⟩ (some "T1") true false none (some "S1"),
    Inbound.coalescer (Event.updateArrivals ⟨2000, 12⟩ (some [recordA])),
    Inbound.trainRemoved (some "T1")]

/-- The same with the removal announced by `clearStaleTrains` with no valid id. -/
def staleEvents : List Inbound :=
  [Inbound.trainHeldStatus ⟨1000, 12⟩ (some "T1") true false none (some "S1"),
    Inbound.coalescer (Event.updateArrivals ⟨2000, 12⟩ (some [recordA])),
    Inbound.clearStaleTrains (some [])]

/-- A later snapshot that uses the id T1 again. -/
def reuseEvent : Inbound :=
  Inbound.coalescer (Event.updateArrivals ⟨60000, 12⟩ (some [recordA]))

/-- A state in which data has been received at time 0, in the period
`offpeak`. -/
def stateReceived : State := { initialState with hasReceivedServerData := true }

/-- The same in the period `starting`. -/
def stateStarting : State :=
  { initialState with hasReceivedServerData := true, currentServicePeriod := "starting" }

/-! ## The dispatcher panel

The page is taken to hold the train list `#dispatcher-trains-list` and, for
each segment, one element with a `data-segment` attribute, the class
`segment` and a `.segment-block` child; these elements are static and are
never created or removed by the script. -/

/-- One value of the `segments` object of an `updateDispatcher` message. -/
structure SegmentData where
  name : Option String
  occupied : Bool
  trainId : Option String
  trainType : Option String
  signalState : Option String
  isHeld : Bool
  isLocked : Bool
  lockReason : Option String
  lockedBy : Option String
  timeInSegment : Option ℚ
  estimatedClearTime : Option ℚ
deriving DecidableEq

/-- One element of the `trains` array of an `updateDispatcher` message. -/
structure TrainInfo where
  id : String
  type : Option String
  isHeld : Bool
  status : Option String
  segment : Option String
  location : Option String
deriving DecidableEq

/-- A segment element of the page, as far as the script reads and writes it:
the class `selected`, the two `dataset` entries `updateSegmentBlocks` writes,
the data object its click listener closed over (`none` until the listener is
added) and the flag of the context-menu listener.  The listener reads only
`occupied` and `trainId` of that object, which nothing writes after the
update, so the object is kept by value.  The classes of the block and the
tooltip are markup and are left out. -/
structure SegmentEl where
  selected : Bool
  datasetTrainId : Option String
  datasetOccupied : Option String
  clickHandler : Option SegmentData
  contextHandler : Bool
deriving DecidableEq

/-- One `.train-item` of the train list with its `.btn-emergency` button: the
`data-train-id` of both, the class `active` of the item, and the text, the
class `active`, the `data-held` attribute and the `disabled` property of the
button. -/
structure TrainItem where
  trainId : String
  active : Bool
  btnText : String
  btnActive : Bool
  btnHeld : Bool
  btnDisabled : Bool
deriving DecidableEq

/-- An outbound `emergencyStop` command posted with `fetch`: the `trainId` and
the `action` of its body. -/
structure Command where
  trainId : String
  action : String
deriving DecidableEq

/-- A `segmentOverrideChanged` message. -/
structure OverrideMsg where
  segmentId : Option String
  locked : Bool
  reason : Option String
  lockedBy : Option String
deriving DecidableEq

/-- The module-level variables of the dispatcher panel, the segment elements
of the page keyed by their `data-segment` attribute, the items of the train
list (empty when the list shows its "No active trains" placeholder) and the
ghost trace `commands` of the `emergencyStop` requests posted. -/
structure Dispatcher where
  selectedTrainId : Option String
  selectedSegmentId : Option String
  currentSegmentData : JsMap SegmentData
  currentTrainData : List TrainInfo
  confirmModalVisible : Bool
  pendingEmergencyTrainId : Option String
  segmentEls : JsMap SegmentEl
  trainItems : List TrainItem
  commands : List Command
deriving DecidableEq

/-- The dispatcher panel when the script has just been loaded, on a page with
the given segment elements. -/
def initialDispatcher (segmentIds : List String) : Dispatcher where
  selectedTrainId := none
  selectedSegmentId := none
  currentSegmentData := []
  currentTrainData := []
  confirmModalVisible := false
  pendingEmergencyTrainId := none
  segmentEls := segmentIds.map (fun segmentId => (segmentId, ⟨false, none, none, none, false⟩))
  trainItems := []
  commands := []

/-- The body of the loop of `updateSegmentBlocks` for one entry of `segments`:
an entry with no element is skipped; the click listener is added only when
`dataset.clickHandler` is not yet set, and it closes over this `data`. -/
def updateSegmentBlock (els : JsMap SegmentEl) (segmentId : String) (data : SegmentData) :
    JsMap SegmentEl :=
  match els.get segmentId with
  | none => els
  | some segmentEl =>
    els.set segmentId { segmentEl with
      datasetTrainId := some (if truthy data.trainId then propKey data.trainId else ""),
      datasetOccupied := some (if data.occupied then "true" else "false"),
      clickHandler :=
        match segmentEl.clickHandler with
        | some captured => some captured
        | none => some data,
      contextHandler := true }

/-- The function `updateSegmentBlocks` of app.js, on the segment elements. -/
def updateSegmentBlocks (els : JsMap SegmentEl) (segments : JsMap SegmentData) :
    JsMap SegmentEl :=
  segments.foldl (fun acc entry => updateSegmentBlock acc entry.1 entry.2) els

/-- The item `updateTrainList` builds for one train. -/
def trainItemOf (selectedTrainId : Option String) (train : TrainInfo) : TrainItem where
  trainId := train.id
  active := decide (some train.id = selectedTrainId)
  btnText := if train.isHeld then "RELEASE" else "STOP"
  btnActive := train.isHeld
  btnHeld := train.isHeld
  btnDisabled := false

/-- The function `updateTrainList` of app.js: the list is rebuilt from
`trains`. -/
def updateTrainList (d : Dispatcher) (trains : Option (List TrainInfo)) : Dispatcher :=
  match trains with
  | none => { d with trainItems := [] }
  | some [] => { d with trainItems := [] }
  | some l => { d with trainItems := l.map (trainItemOf d.selectedTrainId) }

/-- The first segment of `currentSegmentData` whose `trainId` is this train:
the loop with `break` of `selectTrain` and of `highlightTrainAndSegment`. -/
def findSegmentOf (segments : JsMap SegmentData) (trainId : String) : Option String :=
  (segments.find? (fun entry => decide (entry.2.trainId = some trainId))).map (fun entry => entry.1)

/-- The class `selected` is added to the segment element, if there is one. -/
def addSelected (els : JsMap SegmentEl) (segmentId : String) : JsMap SegmentEl :=
  match els.get segmentId with
  | some segmentEl => els.set segmentId { segmentEl with selected := true }
  | none => els

/-- The class `active` is added to every item of the train. -/
def activateItems (items : List TrainItem) (trainId : String) : List TrainItem :=
  items.map (fun item => if item.trainId = trainId then { item with active := true } else item)

/-- The function `highlightTrainAndSegment` of app.js. -/
def highlightTrainAndSegment (d : Dispatcher) (trainId : String) : Dispatcher :=
  let els :=
    match findSegmentOf d.currentSegmentData trainId with
    | some segmentId => addSelected d.segmentEls segmentId
    | none => d.segmentEls
  { d with segmentEls := els, trainItems := activateItems d.trainItems trainId }

/-- The function `clearSelection` of app.js. -/
def clearSelection (d : Dispatcher) (clearState : Bool) : Dispatcher :=
  let d1 := { d with
    segmentEls := d.segmentEls.map (fun entry => (entry.1, { entry.2 with selected := false })),
    trainItems := d.trainItems.map (fun item => { item with active := false }) }
  if clearState then { d1 with selectedTrainId := none, selectedSegmentId := none } else d1

/-- The function `selectTrain` of app.js. -/
def selectTrain (d : Dispatcher) (trainId : String) (segmentId : Option String) : Dispatcher :=
  let d1 := clearSelection d false
  let d2 := { d1 with selectedTrainId := some trainId }
  let found :=
    if truthy segmentId then segmentId
    else
      match findSegmentOf d2.currentSegmentData trainId with
      | some sid => some sid
      | none => segmentId
  let d3 := { d2 with selectedSegmentId := found }
  let els := if truthy found then addSelected d3.segmentEls (propKey found) else d3.segmentEls
  { d3 with segmentEls := els, trainItems := activateItems d3.trainItems trainId }

/-- The function `handleSegmentClick` of app.js. -/
def handleSegmentClick (d : Dispatcher) (segmentId : String) (data : SegmentData) : Dispatcher :=
  if data.occupied && truthy data.trainId then
    selectTrain d (propKey data.trainId) (some segmentId)
  else clearSelection d true

/-- The function `updateDispatcherData` of app.js. -/
def updateDispatcherData (d : Dispatcher) (segments : Option (JsMap SegmentData))
    (trains : Option (List TrainInfo)) : Dispatcher :=
  match segments with
  | none => d
  | some segs =>
    let d1 := { d with currentSegmentData := segs, currentTrainData := trains.getD [] }
    let d2 := { d1 with segmentEls := updateSegmentBlocks d1.segmentEls segs }
    let d3 :=
      match trains with
      | some l => updateTrainList d2 (some l)
      | none => d2
    if truthy d3.selectedTrainId then highlightTrainAndSegment d3 (propKey d3.selectedTrainId)
    else d3

/-- The function `showEmergencyConfirmation` of app.js; the text of the modal
is left out. -/
def showEmergencyConfirmation (d : Dispatcher) (trainId : String) : Dispatcher :=
  { d with pendingEmergencyTrainId := some trainId, confirmModalVisible := true }

/-- The function `hideEmergencyConfirmation` of app.js. -/
def hideEmergencyConfirmation (d : Dispatcher) : Dispatcher :=
  { d with confirmModalVisible := false, pendingEmergencyTrainId := none }

/-- A write to the button `document.querySelector` finds for a train: the
first one with this `data-train-id`, if any. -/
def updateButton (f : TrainItem → TrainItem) (trainId : String) :
    List TrainItem → List TrainItem
  | [] => []
  | item :: rest =>
    if item.trainId = trainId then f item :: rest
    else item :: updateButton f trainId rest

/-- The feedback `confirmEmergencyStop` gives on the button. -/
def markStopping (item : TrainItem) : TrainItem :=
  { item with btnActive := true, btnText := "STOPPING...", btnDisabled := true }

/-- The feedback `releaseEmergencyBrake` gives on the button. -/
def markReleasing (item : TrainItem) : TrainItem :=
  { item with btnActive := false, btnText := "RELEASING...", btnDisabled := true }

/-- The state a handler of the dispatcher panel leaves behind and the
exception that ended it, if any. -/
structure DispatcherOutcome where
  state : Dispatcher
  error : Option JsError
deriving DecidableEq

/-- The function `GetParentResourceName` of app.js:
`return window.GetParentResourceName ? window.GetParentResourceName() : ...`.
app.js is a classic script (it declares `escapeHtml` twice at its top level
and its inline `onclick` attributes call its functions by their global names),
so this top-level declaration is itself the property
`window.GetParentResourceName`: the test succeeds and the function calls
itself, again and again, until the call stack of the host is exhausted, which
raises a `RangeError`.  `stack` is the number of calls the stack has room for
when the function is entered. -/
def GetParentResourceName : Nat → Except JsError String
  | 0 => Except.error JsError.rangeError
  | stack + 1 => GetParentResourceName stack

/-- The function `confirmEmergencyStop` of app.js.  The URL of the request is
built from `GetParentResourceName()` before `fetch` is called: an exception
raised there ends the handler after the dialogue has been hidden, before the
command is posted and before the button is touched. -/
def confirmEmergencyStop (d : Dispatcher) (stack : Nat) : DispatcherOutcome :=
  if !truthy d.pendingEmergencyTrainId then ⟨d, none⟩
  else
    let trainId := propKey d.pendingEmergencyTrainId
    let d1 := hideEmergencyConfirmation d
    match GetParentResourceName stack with
    | Except.error e => ⟨d1, some e⟩
    | Except.ok _ =>
      ⟨{ d1 with
          commands := d1.commands ++ [⟨trainId, "stop"⟩],
          trainItems := updateButton markStopping trainId d1.trainItems }, none⟩

/-- The function `releaseEmergencyBrake` of app.js; as in
`confirmEmergencyStop`, the URL is built from `GetParentResourceName()`
first. -/
def releaseEmergencyBrake (d : Dispatcher) (trainId : String) (stack : Nat) :
    DispatcherOutcome :=
  match GetParentResourceName stack with
  | Except.error e => ⟨d, some e⟩
  | Except.ok _ =>
    ⟨{ d with
        commands := d.commands ++ [⟨trainId, "release"⟩],
        trainItems := updateButton markReleasing trainId d.trainItems }, none⟩

/-- The function `handleSegmentOverrideChanged` of app.js, on
`currentSegmentData`; the class of the block and the tooltip are left out. -/
def handleSegmentOverrideChanged (d : Dispatcher) (data : OverrideMsg) : Dispatcher :=
  if !truthy data.segmentId then d
  else
    let segmentId := propKey data.segmentId
    match d.segmentEls.get segmentId with
    | none => d
    | some _ =>
      match d.currentSegmentData.get segmentId with
      | none => d
      | some entry =>
        let patched :=
          if data.locked then
            { entry with isLocked := true, lockReason := data.reason, lockedBy := data.lockedBy }
          else { entry with isLocked := false, lockReason := none, lockedBy := none }
        { d with currentSegmentData := d.currentSegmentData.set segmentId patched }

/-- A click on a segment element: its listener, if it has one, calls
`handleSegmentClick` with the data it closed over. -/
def clickSegment (d : Dispatcher) (segmentId : String) : Dispatcher :=
  match d.segmentEls.get segmentId with
  | none => d
  | some segmentEl =>
    match segmentEl.clickHandler with
    | none => d
    | some data => handleSegmentClick d segmentId data

/-- A click on an item of the train list, outside its button. -/
def clickTrainItem (d : Dispatcher) (trainId : String) : Dispatcher :=
  if d.trainItems.any (fun item => decide (item.trainId = trainId)) then
    selectTrain d trainId none
  else d

/-- A click on the emergency button of a train; a disabled button receives no
click. -/
def clickEmergencyButton (d : Dispatcher) (trainId : String) (stack : Nat) :
    DispatcherOutcome :=
  match d.trainItems.find? (fun item => decide (item.trainId = trainId)) with
  | none => ⟨d, none⟩
  | some item =>
    if item.btnDisabled then ⟨d, none⟩
    else if item.btnHeld then releaseEmergencyBrake d trainId stack
    else ⟨showEmergencyConfirmation d trainId, none⟩

/-- The events of the dispatcher panel: the two inbound messages and the
clicks of the operator.  A click that may reach `GetParentResourceName`
carries the room `stack` the call stack of the host has at that moment. -/
inductive DispatcherEvent where
  | updateDispatcher (segments : Option (JsMap SegmentData)) (trains : Option (List TrainInfo))
  | segmentOverrideChanged (data : OverrideMsg)
  | segmentClicked (segmentId : String)
  | trainItemClicked (trainId : String)
  | emergencyButtonClicked (trainId : String) (stack : Nat)
  | emergencyCancelled
  | emergencyConfirmed (stack : Nat)

/-- The state one event of the dispatcher panel leaves behind; an exception
ends the handler and leaves the state as it is at that point. -/
def stepDispatcher (d : Dispatcher) : DispatcherEvent → Dispatcher
  | DispatcherEvent.updateDispatcher segments trains => updateDispatcherData d segments trains
  | DispatcherEvent.segmentOverrideChanged data => handleSegmentOverrideChanged d data
  | DispatcherEvent.segmentClicked segmentId => clickSegment d segmentId
  | DispatcherEvent.trainItemClicked trainId => clickTrainItem d trainId
  | DispatcherEvent.emergencyButtonClicked trainId stack =>
    (clickEmergencyButton d trainId stack).state
  | DispatcherEvent.emergencyCancelled => hideEmergencyConfirmation d
  | DispatcherEvent.emergencyConfirmed stack => (confirmEmergencyStop d stack).state

/-- The dispatcher panel after a sequence of events. -/
def runDispatcher (d : Dispatcher) (events : List DispatcherEvent) : Dispatcher :=
  events.foldl stepDispatcher d

/-- The events of the emergency-stop dialogue: a request for a train
(`showEmergencyConfirmation`), a cancel (`hideEmergencyConfirmation`) and a
confirm (`confirmEmergencyStop`). -/
inductive EmergencyEvent where
  | request (trainId : String)
  | cancel
  | confirm (stack : Nat)
deriving DecidableEq

/-- The state one event of the emergency-stop dialogue leaves behind. -/
def stepEmergency (d : Dispatcher) : EmergencyEvent → Dispatcher
  | EmergencyEvent.request trainId => showEmergencyConfirmation d trainId
  | EmergencyEvent.cancel => hideEmergencyConfirmation d
  | EmergencyEvent.confirm stack => (confirmEmergencyStop d stack).state

/-- The dispatcher panel after a sequence of events of the dialogue. -/
def runEmergency (d : Dispatcher) (events : List EmergencyEvent) : Dispatcher :=
  events.foldl stepEmergency d

/-- The segments whose element carries the class `selected`. -/
def highlightedSegments (d : Dispatcher) : List String :=
  (d.segmentEls.filter (fun entry => entry.2.selected)).map (fun entry => entry.1)

/-- The text and the `disabled` property of the emergency button of a train
(the first one with this `data-train-id`) in a list of items. -/
def controlIn (items : List TrainItem) (trainId : String) : Option (String × Bool) :=
  (items.find? (fun item => decide (item.trainId = trainId))).map
    (fun item => (item.btnText, item.btnDisabled))

/-- The text and the `disabled` property of the emergency button of a train. -/
def controlOf (d : Dispatcher) (trainId : String) : Option (String × Bool) :=
  controlIn d.trainItems trainId

/-- The request the specification calls pending after a sequence of events of
the dialogue: the most recent request that no later cancel or confirm has
consumed. -/
def pendingRequestSpec (events : List EmergencyEvent) : Option String :=
  match events.getLast? with
  | some (EmergencyEvent.request trainId) => some trainId
  | _ => none

/-- Every control of the list is as `updateTrainList` builds it: enabled and
labelled "STOP" or "RELEASE". -/
def FreshControls (items : List TrainItem) : Prop :=
  ∀ item ∈ items, item.btnDisabled = false ∧ (item.btnText = "STOP" ∨ item.btnText = "RELEASE")
/-! ## Example data of the dispatcher panel -/

/-- A segment entry with no train. -/
def segmentFree : SegmentData :=
  ⟨none, false, none, none, some "green", false, false, none, none, none, none⟩

/-- A segment entry occupied by a running passenger train. -/
def segmentWith (trainId : String) : SegmentData :=
  ⟨none, true, some trainId, some "passenger", some "red", false, false, none, none, none, none⟩

/-- A running train of the train list. -/
def trainRunning (id : String) : TrainInfo := ⟨id, none, false, none, none, none⟩

/-- A page with the two segments `s1` and `s2`. -/
def panel : Dispatcher := initialDispatcher ["s1", "s2"]

/-- Train `T1` in segment `s1`. -/
def segmentsAt1 : JsMap SegmentData := [("s1", segmentWith "T1"), ("s2", segmentFree)]

/-- Train `T1` in segment `s2`. -/
def segmentsAt2 : JsMap SegmentData := [("s1", segmentFree), ("s2", segmentWith "T1")]

/-- Train `T2` in segment `s1`. -/
def segmentsOther : JsMap SegmentData := [("s1", segmentWith "T2"), ("s2", segmentFree)]

/-- No train in either segment. -/
def segmentsFree : JsMap SegmentData := [("s1", segmentFree), ("s2", segmentFree)]

/-- The operator selects `T1` in the train list while it occupies `s1`. -/
def selectEvents : List DispatcherEvent :=
  [DispatcherEvent.updateDispatcher (some segmentsAt1) (some [trainRunning "T1"]),
   DispatcherEvent.trainItemClicked "T1"]

/-- The next dispatcher update has `T1` in `s2`. -/
def moveEvent : DispatcherEvent :=
  DispatcherEvent.updateDispatcher (some segmentsAt2) (some [trainRunning "T1"])

/-- The operator asks to stop `T1`: a click on its button. -/
def requestEvents : List DispatcherEvent :=
  [DispatcherEvent.updateDispatcher (some segmentsAt1) (some [trainRunning "T1"]),
   DispatcherEvent.emergencyButtonClicked "T1" 10000]

/-- The operator stops `T1`: a click on its button, then the confirmation, on
a call stack with room for 10000 calls. -/
def stopEvents : List DispatcherEvent :=
  [DispatcherEvent.updateDispatcher (some segmentsAt1) (some [trainRunning "T1"]),
   DispatcherEvent.emergencyButtonClicked "T1" 10000,
   DispatcherEvent.emergencyConfirmed 10000]

/-- A lock confirmation for segment `s2`. -/
def lockS2 : OverrideMsg := ⟨some "s2", true, some "Track work", some "Dispatcher 7"⟩

/-- The panel after the first dispatcher update. -/
def panelAt1 : Dispatcher :=
  updateDispatcherData panel (some segmentsAt1) (some [trainRunning "T1"])

/-- The panel with T1 selected in segment s1. -/
def panelSelected : Dispatcher := runDispatcher panel selectEvents

/-- The panel with an emergency stop of T1 requested and not yet confirmed. -/
def panelRequested : Dispatcher := showEmergencyConfirmation panelAt1 "T1"

/-- The first dispatcher update: T1 in segment s1. -/
def firstUpdate : DispatcherEvent :=
  DispatcherEvent.updateDispatcher (some segmentsAt1) (some [trainRunning "T1"])

/-- A later dispatcher update: T2 has taken the place of T1 in segment s1. -/
def replacedUpdate : DispatcherEvent :=
  DispatcherEvent.updateDispatcher (some segmentsOther) (some [trainRunning "T2"])

/-- A later dispatcher update: both segments are free and no train is left. -/
def vacatedUpdate : DispatcherEvent :=
  DispatcherEvent.updateDispatcher (some segmentsFree) (some [])
/-! ## Snapshots with absent records

The typed snapshots above have a record object at every index.  Here a record
of the array may be `null`, and a handler may raise an exception. -/

/-- The value of `data.arrivals` when a record of the array may be `null`
(`none`). -/
abbrev RawSnapshot := Option (List (Option Arrival))

/-- The state a handler leaves behind and the exception that ended it, if
any. -/
structure Outcome where
  state : State
  error : Option JsError
deriving DecidableEq

/-- The records of an array that are not `null`. -/
def dropNull : List (Option Arrival) → List Arrival
  | [] => []
  | none :: rest => dropNull rest
  | some arrival :: rest => arrival :: dropNull rest

/-- The records of a raw snapshot that are not `null`. -/
def presentRecords (raw : RawSnapshot) : Snapshot := raw.map dropNull

/-- The `for` loop of `hasSignificantETAChange` on a raw array: it reads
`arrival.trainId` with no test of `arrival`, which raises at a `null`
record. -/
def significantLoopRaw (lastETAValues : JsMap (Option ℚ))
    (lastTrainPositions : JsMap StoredPosition) : List (Option Arrival) → Except JsError Bool
  | [] => Except.ok false
  | none :: _ => Except.error JsError.typeError
  | some arrival :: rest =>
    if recordSignificant lastETAValues lastTrainPositions arrival then Except.ok true
    else significantLoopRaw lastETAValues lastTrainPositions rest

/-- The function `hasSignificantETAChange` of app.js on a raw snapshot. -/
def hasSignificantETAChangeRaw (lastETAValues : JsMap (Option ℚ))
    (lastTrainPositions : JsMap StoredPosition) (raw : RawSnapshot) : Except JsError Bool :=
  match raw with
  | none => Except.ok true
  | some [] => Except.ok true
  | some l => significantLoopRaw lastETAValues lastTrainPositions l

/-- The loop of `updateStoredETAs` on a raw array: the maps built so far, and
the exception raised at a `null` record. -/
def storeLoopRaw : JsMap (Option ℚ) × JsMap StoredPosition → List (Option Arrival) →
    (JsMap (Option ℚ) × JsMap StoredPosition) × Option JsError
  | maps, [] => (maps, none)
  | maps, none :: _ => (maps, some JsError.typeError)
  | (etas, positions), some arrival :: rest =>
    let key := keyOf arrival
    let etas1 := etas.set key arrival.eta
    let positions1 :=
      match arrival.position with
      | some p => positions.set key (storedPositionOf p)
      | none => positions
    storeLoopRaw (etas1, positions1) rest

/-- The function `updateStoredETAs` of app.js on a raw snapshot: the values it
leaves in `lastETAValues` and `lastTrainPositions`, and the exception it
raised, if any. -/
def updateStoredETAsRaw (raw : RawSnapshot) :
    (JsMap (Option ℚ) × JsMap StoredPosition) × Option JsError :=
  match raw with
  | none => (([], []), none)
  | some l => storeLoopRaw ([], []) l

/-- The records the filter of `updateArrivalsDOM` keeps: its first test,
`if (!arrival) return false`, drops a `null` record. -/
def validRecordsRaw : List (Option Arrival) → List Arrival
  | [] => []
  | none :: rest => validRecordsRaw rest
  | some arrival :: rest =>
    if isValidArrival arrival then arrival :: validRecordsRaw rest else validRecordsRaw rest

/-- The side effect of the filter of `updateArrivalsDOM` on `validTrainIds`,
on a raw array. -/
def trackValidIdsRaw (ids : List String) : List (Option Arrival) → List String
  | [] => ids
  | none :: rest => trackValidIdsRaw ids rest
  | some arrival :: rest =>
    if isValidArrival arrival && truthy arrival.trainId then
      trackValidIdsRaw (setAdd ids (propKey arrival.trainId)) rest
    else trackValidIdsRaw ids rest

/-- The function `updateArrivalsDOM` of app.js on a raw snapshot; the ghost
trace records the records that are present. -/
def updateArrivalsDOMRaw (st : State) (clock : Clock) (raw : RawSnapshot)
    (servicePeriod : Option String) : State :=
  let st1 := { st with
    arrivalsList := [],
    renderLog := st.renderLog ++ [⟨clock.now, presentRecords raw, servicePeriod⟩] }
  let st2 := markDataReceived st1 clock
  let st3 :=
    if truthy servicePeriod then { st2 with currentServicePeriod := propKey servicePeriod }
    else st2
  match raw with
  | none => showEmptyState st3 clock
  | some [] => showEmptyState st3 clock
  | some l =>
    let validArrivals := validRecordsRaw l
    let st4 := { st3 with validTrainIds := trackValidIdsRaw st3.validTrainIds l }
    if validArrivals.length = 0 then showEmptyState st4 clock
    else
      let rows := validArrivals.map
        (renderRow st4.heldTrainStatus st4.lastETAValues st4.lastDataReceiveTime clock.now)
      { st4 with arrivalsList := st4.arrivalsList ++ rows }

/-- The function `throttledUpdateArrivals` of app.js on a raw snapshot.  An
exception of `hasSignificantETAChange` ends the handler before anything is
written; an exception of `updateStoredETAs` ends it after the list has been
rendered and the two maps have been partly rebuilt, and before
`lastArrivalUpdate`, `pendingArrivalData` and the timeout are touched. -/
def throttledUpdateArrivalsRaw (st : State) (clock : Clock) (raw : RawSnapshot)
    (servicePeriod : Option String) : Outcome :=
  let timeSinceLastUpdate := clock.now - st.lastArrivalUpdate
  match hasSignificantETAChangeRaw st.lastETAValues st.lastTrainPositions raw with
  | Except.error e => ⟨st, some e⟩
  | Except.ok hasChanges =>
    if hasChanges || decide (timeSinceLastUpdate ≥ THROTTLE_MS) then
      let st1 := updateArrivalsDOMRaw st clock raw servicePeriod
      let stored := updateStoredETAsRaw raw
      let st2 := { st1 with lastETAValues := stored.1.1, lastTrainPositions := stored.1.2 }
      match stored.2 with
      | some e => ⟨st2, some e⟩
      | none =>
        let st3 := { st2 with lastArrivalUpdate := clock.now, pendingArrivalData := none }
        match st3.throttleTimeout with
        | some id =>
          ⟨{ st3 with timers := clearTimeout st3.timers id, throttleTimeout := none }, none⟩
        | none => ⟨st3, none⟩
    else
      ⟨deferUpdate st clock (presentRecords raw) servicePeriod, none⟩

/-- The function `showScheduleBoard` of app.js on a raw snapshot: the direct
render, which reads the records in the filter only. -/
def showScheduleBoardRaw (st : State) (clock : Clock) (_station : String)
    (raw : RawSnapshot) : State :=
  updateArrivalsDOMRaw st clock raw none

/-! ## Specification-side definitions of the arrivals list -/

/-- The snapshot most recently rendered to the arrivals list: the argument of
the last call of `updateArrivalsDOM`. -/
def lastRendered (st : State) : Option Snapshot :=
  st.renderLog.getLast?.map (fun call => call.arrivals)

/-- Spec wording of the LastRenderedState invariant: the two stored maps hold
exactly the keys, ETAs and positions of the snapshot most recently rendered,
and nothing when no snapshot has been rendered yet. -/
def LastRenderedSpec (st : State) : Prop :=
  ∀ k,
    st.lastETAValues.get k =
      (match lastRendered st with
       | some arrivals => snapshotETA arrivals k
       | none => none) ∧
    st.lastTrainPositions.get k =
      (match lastRendered st with
       | some arrivals => snapshotPosition arrivals k
       | none => none)

/-- A list that shows the empty state with neither the "Connection Lost"
message nor the initial "Connecting to transit server" one. -/
def EmptyStateAfterData (rows : List DomRow) : Prop :=
  ∃ icon message subMessage, rows = [DomRow.emptyState icon message subMessage] ∧
    message ≠ "Connection Lost" ∧ subMessage ≠ "Connecting to transit server"

/-- The three empty states that only a service period other than the initial
one selects: "Service Starting", "Service Suspended" and "Searching for
Trains..." with "Please wait". -/
def isServicePeriodRow : DomRow → Bool
  | DomRow.emptyState _ message subMessage =>
    decide (message = "Service Starting") || decide (message = "Service Suspended") ||
      (decide (message = "Searching for Trains...") && decide (subMessage = "Please wait"))
  | DomRow.arrival _ _ _ _ _ _ => false

/-- The first snapshot is opened with `showSchedule`. -/
def scheduleEvents : List Inbound := [Inbound.showSchedule ⟨1000, 12⟩ "Central" (some [recordA])]

/-- The invariant of the service period: it is the initial one, a pending
payload carries none, and no row of the list is one of the three
service-period empty states. -/
def OffpeakInv (st : State) : Prop :=
  st.currentServicePeriod = "offpeak" ∧
  (∀ p, st.pendingArrivalData = some p → p.servicePeriod = none) ∧
  ∀ row ∈ st.arrivalsList, isServicePeriodRow row = false

/-! ## Theorems -/

/-! ### Dictionaries -/

theorem JsMap.get_set {V : Type} (m : JsMap V) (k k2 : String) (v : V) :
    (m.set k v).get k2 = if k = k2 then some v else m.get k2 := by
  induction m with
  | nil => simp [JsMap.set, JsMap.get]
  | cons p rest ih =>
    obtain ⟨k1, v1⟩ := p
    by_cases h1 : k1 = k
    · subst h1
      by_cases h2 : k1 = k2 <;> simp [JsMap.set, JsMap.get, h2]
    · by_cases h2 : k1 = k2
      · subst h2
        have h3 : ¬ k = k1 := fun h => h1 h.symm
        simp [JsMap.set, JsMap.get, h1, h3]
      · simp [JsMap.set, JsMap.get, h1, h2, ih]

/-! ### The significance detector -/

theorem distSq_nonneg (p : Position) (lastPos : StoredPosition) : 0 ≤ distSq p lastPos := by
  simp only [distSq]
  exact add_nonneg (add_nonneg (mul_self_nonneg _) (mul_self_nonneg _)) (mul_self_nonneg _)

theorem movedBeyondDeadzone_iff (p : Position) (lastPos : StoredPosition) :
    movedBeyondDeadzone p lastPos = true ↔ (5 : ℝ) ≤ Real.sqrt (((distSq p lastPos : ℚ) : ℝ)) := by
  rw [Real.le_sqrt' (by norm_num)]
  simp only [movedBeyondDeadzone, DISTANCE_DEADZONE, decide_eq_true_eq]
  constructor
  · intro h
    have : ((5 * 5 : ℚ) : ℝ) ≤ ((distSq p lastPos : ℚ) : ℝ) := by exact_mod_cast h
    norm_num at this ⊢
    linarith
  · intro h
    have : ((5 * 5 : ℚ) : ℝ) ≤ ((distSq p lastPos : ℚ) : ℝ) := by
      norm_num at h ⊢
      linarith
    exact_mod_cast this

theorem lookupETA_of_plain (etas : JsMap (Option ℚ)) (k : String) (h : k ∉ inheritedKeys) :
    lookupETA etas k =
      match etas.get k with
      | some (some v) => ETASlot.number v
      | _ => ETASlot.undefined := by
  have hk : k ≠ "__proto__" := by
    intro hk
    subst hk
    exact h (by decide)
  unfold lookupETA
  rw [if_neg hk]
  cases hg : etas.get k with
  | none => simp [h]
  | some v => cases v <;> rfl

theorem lookupPosition_of_plain (positions : JsMap StoredPosition) (k : String)
    (h : PlainKey positions k) : lookupPosition positions k = positions.get k := by
  obtain ⟨h1, h2⟩ := h
  unfold lookupPosition
  cases hg : positions.get k with
  | some lastPos => rfl
  | none =>
    simp only [h1, if_false]
    rcases h2 with h2 | ⟨hx, hy, hz⟩
    · rw [h2]
    · cases positions.get "__proto__" with
      | none => rfl
      | some proto => simp [hx, hy, hz]

theorem recordSignificant_iff (etas : JsMap (Option ℚ)) (positions : JsMap StoredPosition)
    (a : Arrival) (hkey : PlainKey positions (keyOf a)) :
    recordSignificant etas positions a = true ↔ RecordSignificantSpec etas positions a := by
  unfold recordSignificant RecordSignificantSpec readETA
  simp only [lookupETA_of_plain etas (keyOf a) hkey.1, lookupPosition_of_plain positions _ hkey]
  cases hg : etas.get (keyOf a) with
  | none => simp
  | some stored =>
    cases stored with
    | none => simp
    | some lastETA =>
      cases he : a.eta with
      | none =>
        cases hp : a.position with
        | none => simp [etaJump]
        | some p =>
          cases hs : positions.get (keyOf a) with
          | none => simp [etaJump]
          | some lastPos => simp [etaJump, movedBeyondDeadzone_iff]
      | some eta =>
        by_cases hj : ETA_CHANGE_THRESHOLD ≤ |lastETA - eta|
        · have hj2 : (30 : ℚ) ≤ |lastETA - eta| := hj
          simp [etaJump, hj, hj2]
        · have hj2 : ¬ (30 : ℚ) ≤ |lastETA - eta| := hj
          cases hp : a.position with
          | none => simp [etaJump, hj, hj2]
          | some p =>
            cases hs : positions.get (keyOf a) with
            | none => simp [etaJump, hj, hj2]
            | some lastPos => simp [etaJump, hj, hj2, movedBeyondDeadzone_iff]

theorem significantLoop_iff (etas : JsMap (Option ℚ)) (positions : JsMap StoredPosition)
    (l : List Arrival) :
    significantLoop etas positions l = true ↔
      ∃ a ∈ l, recordSignificant etas positions a = true := by
  induction l with
  | nil => simp [significantLoop]
  | cons a rest ih =>
    by_cases h : recordSignificant etas positions a = true
    · simp [significantLoop, h]
    · simp [significantLoop, h, ih]

theorem hasSignificantETAChange_of_ne_nil (etas : JsMap (Option ℚ))
    (positions : JsMap StoredPosition) (l : List Arrival) (hne : l ≠ []) :
    hasSignificantETAChange etas positions (some l) = true ↔
      ∃ a ∈ l, recordSignificant etas positions a = true := by
  cases l with
  | nil => exact absurd rfl hne
  | cons a rest => simp only [hasSignificantETAChange, significantLoop_iff]

/-- For a snapshot whose keys read own properties only, `hasSignificantETAChange`
returns `true` exactly when the snapshot is absent or empty, or some record
meets one of the four per-record conditions. -/
theorem hasSignificantETAChange_iff_of_plain (lastETAValues : JsMap (Option ℚ))
    (lastTrainPositions : JsMap StoredPosition) (arrivals : Snapshot)
    (hkeys : ∀ a ∈ records arrivals, PlainKey lastTrainPositions (keyOf a)) :
    hasSignificantETAChange lastETAValues lastTrainPositions arrivals = true ↔
      (arrivals = none ∨ arrivals = some [] ∨
        ∃ l, arrivals = some l ∧
          ∃ a ∈ l, RecordSignificantSpec lastETAValues lastTrainPositions a) := by
  cases arrivals with
  | none => simp [hasSignificantETAChange]
  | some l =>
    cases l with
    | nil => simp [hasSignificantETAChange]
    | cons a rest =>
      rw [hasSignificantETAChange_of_ne_nil _ _ _ (List.cons_ne_nil a rest)]
      simp only [records, Option.getD_some] at hkeys
      constructor
      · rintro ⟨b, hb, hsig⟩
        exact Or.inr (Or.inr ⟨a :: rest, rfl, b, hb,
          (recordSignificant_iff _ _ b (hkeys b hb)).mp hsig⟩)
      · rintro (h | h | ⟨l, hl, b, hb, hspec⟩)
        · cases h
        · cases h
        · cases hl
          exact ⟨b, hb, (recordSignificant_iff _ _ b (hkeys b hb)).mpr hspec⟩

/-- C1 fails on the code.  `lastETAValues` is a plain object, so for a key
that names a member of `Object.prototype` and has no own property, the read
`lastETAValues[key]` gives that member and not `undefined`: the test the code
comments as "First time seeing this train" fails, the difference is `NaN`, and
a record without a position is not significant.  Train `constructor` has no
stored ETA in the initial state, which makes its first snapshot significant by
the claim, and `hasSignificantETAChange` returns `false`; delivered 1000 ms
after a render, that snapshot is deferred and not rendered.  For every
snapshot whose keys read own properties only, the function returns `true`
exactly under the conditions of the claim. -/
theorem first_sighting_of_inherited_key_missed :
    (∀ lastETAValues lastTrainPositions arrivals,
      (∀ a ∈ records arrivals, PlainKey lastTrainPositions (keyOf a)) →
      (hasSignificantETAChange lastETAValues lastTrainPositions arrivals = true ↔
        (arrivals = none ∨ arrivals = some [] ∨
          ∃ l, arrivals = some l ∧
            ∃ a ∈ l, RecordSignificantSpec lastETAValues lastTrainPositions a)))
    ∧ keyOf recordConstructor = "constructor"
    ∧ initialState.lastETAValues.get "constructor" = none
    ∧ RecordSignificantSpec initialState.lastETAValues initialState.lastTrainPositions
        recordConstructor
    ∧ hasSignificantETAChange initialState.lastETAValues initialState.lastTrainPositions
        (some [recordConstructor]) = false
    ∧ (throttledUpdateArrivals initialState ⟨1000, 12⟩ (some [recordConstructor])
        none).renderLog = [] := by
  have hsig : hasSignificantETAChange initialState.lastETAValues
      initialState.lastTrainPositions (some [recordConstructor]) = false := by
    decide
  refine ⟨hasSignificantETAChange_iff_of_plain, by decide, rfl, Or.inl (by decide), hsig, ?_⟩
  have hdefer : throttledUpdateArrivals initialState ⟨1000, 12⟩ (some [recordConstructor]) none
      = deferUpdate initialState ⟨1000, 12⟩ (some [recordConstructor]) none := by
    unfold throttledUpdateArrivals
    simp only [hsig]
    rfl
  rw [hdefer]
  rfl

/-! ### The stored maps -/

theorem storeLoop_get_eta (l : List Arrival) (etas : JsMap (Option ℚ))
    (positions : JsMap StoredPosition) (k : String) :
    (storeLoop (etas, positions) l).1.get k =
      match (l.reverse.find? (fun a => decide (keyOf a = k))) with
      | some a => some a.eta
      | none => etas.get k := by
  induction l generalizing etas positions with
  | nil => simp [storeLoop]
  | cons a rest ih =>
    simp only [storeLoop, ih, List.reverse_cons, List.find?_append]
    cases h : List.find? (fun a => decide (keyOf a = k)) rest.reverse with
    | some b => simp
    | none =>
      by_cases hk : keyOf a = k
      · simp [hk, JsMap.get_set]
      · simp [hk, JsMap.get_set]

theorem storeLoop_get_position (l : List Arrival) (etas : JsMap (Option ℚ))
    (positions : JsMap StoredPosition) (k : String) :
    (storeLoop (etas, positions) l).2.get k =
      match l.reverse.findSome?
          (fun a => if keyOf a = k then a.position.map storedPositionOf else none) with
      | some p => some p
      | none => positions.get k := by
  induction l generalizing etas positions with
  | nil => simp [storeLoop]
  | cons a rest ih =>
    simp only [storeLoop, ih, List.reverse_cons, List.findSome?_append]
    cases h : List.findSome?
        (fun a => if keyOf a = k then a.position.map storedPositionOf else none)
        rest.reverse with
    | some b => simp
    | none =>
      cases hp : a.position with
      | none => simp [List.findSome?, hp]
      | some p =>
        by_cases hk : keyOf a = k
        · simp [List.findSome?, hp, hk, JsMap.get_set]
        · simp [List.findSome?, hp, hk, JsMap.get_set]

theorem updateStoredETAs_get_eta (arrivals : Snapshot) (k : String) :
    (updateStoredETAs arrivals).1.get k = snapshotETA arrivals k := by
  cases arrivals with
  | none => simp [updateStoredETAs, snapshotETA, records, JsMap.get]
  | some l =>
    simp only [updateStoredETAs, snapshotETA, records, storeLoop_get_eta, Option.getD_some]
    cases h : List.find? (fun a => decide (keyOf a = k)) l.reverse <;> simp [JsMap.get]

theorem updateStoredETAs_get_position (arrivals : Snapshot) (k : String) :
    (updateStoredETAs arrivals).2.get k = snapshotPosition arrivals k := by
  cases arrivals with
  | none => simp [updateStoredETAs, snapshotPosition, records, JsMap.get]
  | some l =>
    simp only [updateStoredETAs, snapshotPosition, records, storeLoop_get_position,
      Option.getD_some]
    cases h : List.findSome?
        (fun a => if keyOf a = k then a.position.map storedPositionOf else none)
        l.reverse <;> simp [JsMap.get]

/-! ### The update coalescer -/

theorem updateArrivalsDOM_frame (st : State) (clock : Clock) (arrivals : Snapshot)
    (servicePeriod : Option String) :
    (updateArrivalsDOM st clock arrivals servicePeriod).lastArrivalUpdate = st.lastArrivalUpdate ∧
    (updateArrivalsDOM st clock arrivals servicePeriod).pendingArrivalData
      = st.pendingArrivalData ∧
    (updateArrivalsDOM st clock arrivals servicePeriod).throttleTimeout = st.throttleTimeout ∧
    (updateArrivalsDOM st clock arrivals servicePeriod).lastETAValues = st.lastETAValues ∧
    (updateArrivalsDOM st clock arrivals servicePeriod).lastTrainPositions
      = st.lastTrainPositions ∧
    (updateArrivalsDOM st clock arrivals servicePeriod).timers = st.timers ∧
    (updateArrivalsDOM st clock arrivals servicePeriod).nextTimerId = st.nextTimerId ∧
    (updateArrivalsDOM st clock arrivals servicePeriod).heldTrainStatus = st.heldTrainStatus ∧
    (updateArrivalsDOM st clock arrivals servicePeriod).renderLog
      = st.renderLog ++ [⟨clock.now, arrivals, servicePeriod⟩] := by
  unfold updateArrivalsDOM
  cases arrivals with
  | none => by_cases hs : truthy servicePeriod = true <;> simp [showEmptyState, markDataReceived, hs]
  | some l =>
    cases l with
    | nil => by_cases hs : truthy servicePeriod = true <;> simp [showEmptyState, markDataReceived, hs]
    | cons a rest =>
      by_cases hs : truthy servicePeriod = true <;>
      by_cases hv : (List.filter isValidArrival (a :: rest)).length = 0 <;>
      simp [showEmptyState, markDataReceived, hs, hv]

theorem updateArrivalsDOM_timers_irrelevant (st : State) (clock : Clock) (arrivals : Snapshot)
    (servicePeriod : Option String) (ts : List Timer) :
    (updateArrivalsDOM { st with timers := ts } clock arrivals servicePeriod).arrivalsList =
      (updateArrivalsDOM st clock arrivals servicePeriod).arrivalsList := by
  unfold updateArrivalsDOM
  cases arrivals with
  | none => by_cases hs : truthy servicePeriod = true <;>
      simp [showEmptyState, markDataReceived, emptyStateRow, hs]
  | some l =>
    cases l with
    | nil => by_cases hs : truthy servicePeriod = true <;>
        simp [showEmptyState, markDataReceived, emptyStateRow, hs]
    | cons a rest =>
      by_cases hs : truthy servicePeriod = true <;>
      by_cases hv : (List.filter isValidArrival (a :: rest)).length = 0 <;>
      simp [showEmptyState, markDataReceived, emptyStateRow, hs, hv]

theorem renderNow_spec (st : State) (clock : Clock) (arrivals : Snapshot)
    (servicePeriod : Option String) :
    (renderNow st clock arrivals servicePeriod).renderLog
        = st.renderLog ++ [⟨clock.now, arrivals, servicePeriod⟩] ∧
    (renderNow st clock arrivals servicePeriod).arrivalsList
        = (updateArrivalsDOM st clock arrivals servicePeriod).arrivalsList ∧
    (renderNow st clock arrivals servicePeriod).lastArrivalUpdate = clock.now ∧
    (renderNow st clock arrivals servicePeriod).lastETAValues = (updateStoredETAs arrivals).1 ∧
    (renderNow st clock arrivals servicePeriod).lastTrainPositions
        = (updateStoredETAs arrivals).2 ∧
    (renderNow st clock arrivals servicePeriod).pendingArrivalData = none ∧
    (renderNow st clock arrivals servicePeriod).throttleTimeout = none ∧
    (renderNow st clock arrivals servicePeriod).nextTimerId = st.nextTimerId ∧
    (renderNow st clock arrivals servicePeriod).heldTrainStatus = st.heldTrainStatus ∧
    (renderNow st clock arrivals servicePeriod).timers =
      match st.throttleTimeout with
      | some id => clearTimeout st.timers id
      | none => st.timers := by
  obtain ⟨h1, h2, h3, h4, h5, h6, h7, h8, h9⟩ :=
    updateArrivalsDOM_frame st clock arrivals servicePeriod
  unfold renderNow
  cases ht : st.throttleTimeout with
  | none => simp [ht, h3, h6, h7, h8, h9]
  | some id => simp [ht, h3, h6, h7, h8, h9]

theorem deferUpdate_spec (st : State) (clock : Clock) (arrivals : Snapshot)
    (servicePeriod : Option String) :
    (deferUpdate st clock arrivals servicePeriod).renderLog = st.renderLog ∧
    (deferUpdate st clock arrivals servicePeriod).arrivalsList = st.arrivalsList ∧
    (deferUpdate st clock arrivals servicePeriod).lastArrivalUpdate = st.lastArrivalUpdate ∧
    (deferUpdate st clock arrivals servicePeriod).lastETAValues = st.lastETAValues ∧
    (deferUpdate st clock arrivals servicePeriod).lastTrainPositions = st.lastTrainPositions ∧
    (deferUpdate st clock arrivals servicePeriod).heldTrainStatus = st.heldTrainStatus ∧
    (deferUpdate st clock arrivals servicePeriod).pendingArrivalData
      = some ⟨arrivals, servicePeriod⟩ ∧
    (st.throttleTimeout = none →
      (deferUpdate st clock arrivals servicePeriod).throttleTimeout = some st.nextTimerId ∧
      (deferUpdate st clock arrivals servicePeriod).timers = st.timers ++
        [⟨st.nextTimerId, clock.now, 15000 - (clock.now - st.lastArrivalUpdate)⟩]) ∧
    (∀ id, st.throttleTimeout = some id →
      (deferUpdate st clock arrivals servicePeriod).throttleTimeout = some id ∧
      (deferUpdate st clock arrivals servicePeriod).timers = st.timers) := by
  unfold deferUpdate
  cases ht : st.throttleTimeout with
  | none => simp [ht, THROTTLE_MS]
  | some id => simp [ht]

theorem rendersNow_iff (st : State) (clock : Clock) (arrivals : Snapshot) :
    (hasSignificantETAChange st.lastETAValues st.lastTrainPositions arrivals ||
      decide (clock.now - st.lastArrivalUpdate ≥ THROTTLE_MS)) = true ↔
      RendersNow st clock arrivals := by
  simp [RendersNow, THROTTLE_MS]

theorem clearTimeout_not_mem (timers : List Timer) (id : Nat) :
    ∀ t ∈ clearTimeout timers id, t.id ≠ id := by
  intro t ht
  simp [clearTimeout] at ht
  exact ht.2

theorem clearTimeout_of_inv (st : State) (h : CoalescerInv st) (id : Nat)
    (hid : st.throttleTimeout = some id) : clearTimeout st.timers id = [] := by
  obtain ⟨h1, _⟩ := h
  rw [hid] at h1
  obtain ⟨t, ht, hti⟩ := h1
  simp [clearTimeout, ht, hti]

theorem renderNow_timers_of_inv (st : State) (clock : Clock) (arrivals : Snapshot)
    (servicePeriod : Option String) (hinv : CoalescerInv st) :
    (renderNow st clock arrivals servicePeriod).timers = [] := by
  rw [(renderNow_spec st clock arrivals servicePeriod).2.2.2.2.2.2.2.2.2]
  cases hid : st.throttleTimeout with
  | none =>
    have := hinv.1
    rw [hid] at this
    simpa using this
  | some id => simpa using clearTimeout_of_inv st hinv id hid

/-- C2. `throttledUpdateArrivals` renders the incoming snapshot within the call
exactly when the snapshot is significant or at least 15000 ms have passed since
the last render; then the last-render time is `now`, the stored ETAs and
positions are those of this snapshot, nothing is pending and no coalescing
timeout is armed (an armed one has left the host queue). -/
theorem throttledUpdateArrivals_renders (st : State) (clock : Clock) (arrivals : Snapshot)
    (servicePeriod : Option String) :
    ((throttledUpdateArrivals st clock arrivals servicePeriod).renderLog
        = st.renderLog ++ [⟨clock.now, arrivals, servicePeriod⟩] ↔
      RendersNow st clock arrivals) ∧
    (RendersNow st clock arrivals →
      (throttledUpdateArrivals st clock arrivals servicePeriod).arrivalsList
        = (updateArrivalsDOM st clock arrivals servicePeriod).arrivalsList ∧
      (throttledUpdateArrivals st clock arrivals servicePeriod).lastArrivalUpdate = clock.now ∧
      (∀ k, (throttledUpdateArrivals st clock arrivals servicePeriod).lastETAValues.get k
        = snapshotETA arrivals k) ∧
      (∀ k, (throttledUpdateArrivals st clock arrivals servicePeriod).lastTrainPositions.get k
        = snapshotPosition arrivals k) ∧
      (throttledUpdateArrivals st clock arrivals servicePeriod).pendingArrivalData = none ∧
      (throttledUpdateArrivals st clock arrivals servicePeriod).throttleTimeout = none ∧
      (∀ id, st.throttleTimeout = some id →
        ∀ t ∈ (throttledUpdateArrivals st clock arrivals servicePeriod).timers, t.id ≠ id) ∧
      (CoalescerInv st →
        (throttledUpdateArrivals st clock arrivals servicePeriod).timers = [])) := by
  obtain ⟨r1, r2, r3, r4, r5, r6, r7, _, _, r10⟩ := renderNow_spec st clock arrivals servicePeriod
  obtain ⟨d1, _⟩ := deferUpdate_spec st clock arrivals servicePeriod
  by_cases h : RendersNow st clock arrivals
  · have hc := (rendersNow_iff st clock arrivals).mpr h
    have hst : throttledUpdateArrivals st clock arrivals servicePeriod
        = renderNow st clock arrivals servicePeriod := by
      unfold throttledUpdateArrivals
      simp only [hc, if_true]
    rw [hst]
    refine ⟨⟨fun _ => h, fun _ => r1⟩, fun _ => ⟨r2, r3, ?_, ?_, r6, r7, ?_, ?_⟩⟩
    · intro k
      rw [r4, updateStoredETAs_get_eta]
    · intro k
      rw [r5, updateStoredETAs_get_position]
    · intro id hid t ht
      rw [r10, hid] at ht
      exact clearTimeout_not_mem st.timers id t ht
    · intro hinv
      exact renderNow_timers_of_inv st clock arrivals servicePeriod hinv
  · have hc : ¬ ((hasSignificantETAChange st.lastETAValues st.lastTrainPositions arrivals ||
        decide (clock.now - st.lastArrivalUpdate ≥ THROTTLE_MS)) = true) :=
      fun hc => h ((rendersNow_iff st clock arrivals).mp hc)
    have hst : throttledUpdateArrivals st clock arrivals servicePeriod
        = deferUpdate st clock arrivals servicePeriod := by
      unfold throttledUpdateArrivals
      simp only [hc, if_false]
      rfl
    rw [hst]
    refine ⟨⟨fun hr => ?_, fun hr => absurd hr h⟩, fun hr => absurd hr h⟩
    rw [d1] at hr
    simp at hr

theorem throttledUpdateArrivals_of_not_rendersNow (st : State) (clock : Clock)
    (arrivals : Snapshot) (servicePeriod : Option String)
    (h : ¬ RendersNow st clock arrivals) :
    throttledUpdateArrivals st clock arrivals servicePeriod
      = deferUpdate st clock arrivals servicePeriod := by
  have hc : ¬ ((hasSignificantETAChange st.lastETAValues st.lastTrainPositions arrivals ||
      decide (clock.now - st.lastArrivalUpdate ≥ THROTTLE_MS)) = true) :=
    fun hc => h ((rendersNow_iff st clock arrivals).mp hc)
  unfold throttledUpdateArrivals
  simp only [hc, if_false]
  rfl

theorem throttledUpdateArrivals_of_rendersNow (st : State) (clock : Clock)
    (arrivals : Snapshot) (servicePeriod : Option String)
    (h : RendersNow st clock arrivals) :
    throttledUpdateArrivals st clock arrivals servicePeriod
      = renderNow st clock arrivals servicePeriod := by
  have hc := (rendersNow_iff st clock arrivals).mpr h
  unfold throttledUpdateArrivals
  simp only [hc, if_true]

theorem not_rendersNow_of_insignificant (st : State) (clock : Clock) (arrivals : Snapshot)
    (hsig : hasSignificantETAChange st.lastETAValues st.lastTrainPositions arrivals = false)
    (hrecent : clock.now - st.lastArrivalUpdate < 15000) : ¬ RendersNow st clock arrivals := by
  intro h
  rcases h with h | h
  · rw [hsig] at h
    exact Bool.false_ne_true h
  · omega

/-- C3. A snapshot that is insignificant and arrives less than 15000 ms after
the last render is not rendered: the render trace, the list, the last-render
time and the stored maps are unchanged, the pending payload becomes this
snapshot, and a timeout is armed only when none was, with delay
`15000 - (now - lastArrivalUpdate)`, which is positive, and at most 15000 when
`now >= lastArrivalUpdate`; an armed timeout is left as it is. -/
theorem throttledUpdateArrivals_defers (st : State) (clock : Clock) (arrivals : Snapshot)
    (servicePeriod : Option String)
    (hsig : hasSignificantETAChange st.lastETAValues st.lastTrainPositions arrivals = false)
    (hrecent : clock.now - st.lastArrivalUpdate < 15000) :
    (throttledUpdateArrivals st clock arrivals servicePeriod).renderLog = st.renderLog ∧
    (throttledUpdateArrivals st clock arrivals servicePeriod).arrivalsList = st.arrivalsList ∧
    (throttledUpdateArrivals st clock arrivals servicePeriod).lastArrivalUpdate
      = st.lastArrivalUpdate ∧
    (throttledUpdateArrivals st clock arrivals servicePeriod).lastETAValues
      = st.lastETAValues ∧
    (throttledUpdateArrivals st clock arrivals servicePeriod).lastTrainPositions
      = st.lastTrainPositions ∧
    (throttledUpdateArrivals st clock arrivals servicePeriod).pendingArrivalData
      = some ⟨arrivals, servicePeriod⟩ ∧
    (st.throttleTimeout = none →
      (throttledUpdateArrivals st clock arrivals servicePeriod).throttleTimeout
        = some st.nextTimerId ∧
      (throttledUpdateArrivals st clock arrivals servicePeriod).timers = st.timers ++
        [⟨st.nextTimerId, clock.now, 15000 - (clock.now - st.lastArrivalUpdate)⟩] ∧
      0 < 15000 - (clock.now - st.lastArrivalUpdate) ∧
      (st.lastArrivalUpdate ≤ clock.now →
        15000 - (clock.now - st.lastArrivalUpdate) ≤ 15000)) ∧
    (∀ id, st.throttleTimeout = some id →
      (throttledUpdateArrivals st clock arrivals servicePeriod).throttleTimeout = some id ∧
      (throttledUpdateArrivals st clock arrivals servicePeriod).timers = st.timers) := by
  have hn := not_rendersNow_of_insignificant st clock arrivals hsig hrecent
  rw [throttledUpdateArrivals_of_not_rendersNow st clock arrivals servicePeriod hn]
  obtain ⟨d1, d2, d3, d4, d5, _, d7, d8, d9⟩ := deferUpdate_spec st clock arrivals servicePeriod
  refine ⟨d1, d2, d3, d4, d5, d7, fun h => ⟨(d8 h).1, (d8 h).2, by omega, fun _ => by omega⟩, d9⟩

theorem fireTimer_of_queued (st : State) (clock : Clock) (id : Nat)
    (hq : ∃ t ∈ st.timers, t.id = id) :
    fireTimer st clock id
      = throttleCallback { st with timers := clearTimeout st.timers id } clock := by
  unfold fireTimer
  have : st.timers.any (fun t => decide (t.id = id)) = true := by
    simpa using hq
  simp only [this, if_true]

theorem fireTimer_of_not_queued (st : State) (clock : Clock) (id : Nat)
    (hq : ¬ ∃ t ∈ st.timers, t.id = id) : fireTimer st clock id = st := by
  unfold fireTimer
  have : ¬ st.timers.any (fun t => decide (t.id = id)) = true := by
    simpa using hq
  simp only [this, if_false]
  rfl

theorem throttleCallback_pending (st : State) (clock : Clock) (p : Pending)
    (hp : st.pendingArrivalData = some p) :
    (throttleCallback st clock).renderLog
        = st.renderLog ++ [⟨clock.now, p.arrivals, p.servicePeriod⟩] ∧
    (throttleCallback st clock).arrivalsList
        = (updateArrivalsDOM st clock p.arrivals p.servicePeriod).arrivalsList ∧
    (throttleCallback st clock).lastETAValues = (updateStoredETAs p.arrivals).1 ∧
    (throttleCallback st clock).lastTrainPositions = (updateStoredETAs p.arrivals).2 ∧
    (throttleCallback st clock).lastArrivalUpdate = clock.now ∧
    (throttleCallback st clock).pendingArrivalData = none ∧
    (throttleCallback st clock).throttleTimeout = none ∧
    (throttleCallback st clock).timers = st.timers ∧
    (throttleCallback st clock).nextTimerId = st.nextTimerId ∧
    (throttleCallback st clock).heldTrainStatus = st.heldTrainStatus := by
  obtain ⟨_, _, _, _, _, h6, h7, h8, h9⟩ :=
    updateArrivalsDOM_frame st clock p.arrivals p.servicePeriod
  unfold throttleCallback
  simp [hp, h6, h7, h8, h9]

theorem clearTimeout_of_queued_inv (st : State) (id : Nat) (hinv : CoalescerInv st)
    (hq : ∃ t ∈ st.timers, t.id = id) : clearTimeout st.timers id = [] := by
  obtain ⟨h1, _⟩ := hinv
  obtain ⟨t, ht, hti⟩ := hq
  cases hid : st.throttleTimeout with
  | none =>
    rw [hid] at h1
    simp [h1] at ht
  | some id2 =>
    rw [hid] at h1
    obtain ⟨t2, ht2, hti2⟩ := h1
    simp only [ht2, List.mem_singleton] at ht
    subst ht
    simp [clearTimeout, ht2, hti]

theorem fireTimer_pending (st : State) (clock : Clock) (id : Nat) (p : Pending)
    (hq : ∃ t ∈ st.timers, t.id = id) (hp : st.pendingArrivalData = some p) :
    (fireTimer st clock id).renderLog
        = st.renderLog ++ [⟨clock.now, p.arrivals, p.servicePeriod⟩] ∧
    (fireTimer st clock id).arrivalsList
        = (updateArrivalsDOM st clock p.arrivals p.servicePeriod).arrivalsList ∧
    (fireTimer st clock id).lastETAValues = (updateStoredETAs p.arrivals).1 ∧
    (fireTimer st clock id).lastTrainPositions = (updateStoredETAs p.arrivals).2 ∧
    (fireTimer st clock id).lastArrivalUpdate = clock.now ∧
    (fireTimer st clock id).pendingArrivalData = none ∧
    (fireTimer st clock id).throttleTimeout = none ∧
    (fireTimer st clock id).timers = clearTimeout st.timers id := by
  rw [fireTimer_of_queued st clock id hq]
  obtain ⟨c1, c2, c3, c4, c5, c6, c7, c8, _, _⟩ :=
    throttleCallback_pending { st with timers := clearTimeout st.timers id } clock p hp
  refine ⟨c1, ?_, c3, c4, c5, c6, c7, c8⟩
  rw [c2, updateArrivalsDOM_timers_irrelevant]

theorem fireTimer_not_pending (st : State) (clock : Clock) (id : Nat)
    (hq : ∃ t ∈ st.timers, t.id = id) (hp : st.pendingArrivalData = none) :
    fireTimer st clock id
      = { st with timers := clearTimeout st.timers id, throttleTimeout := none } := by
  rw [fireTimer_of_queued st clock id hq]
  unfold throttleCallback
  simp [hp]

/-- C4. When a queued coalescing timeout fires while a payload is pending, that
payload is rendered once, the stored ETAs and positions become those of the
payload, the last-render time becomes the firing time, the pending payload is
cleared and the timeout is disarmed; with no pending payload nothing is
rendered and only the timeout is disarmed. -/
theorem fireTimer_effect (st : State) (clock : Clock) (id : Nat)
    (hq : ∃ t ∈ st.timers, t.id = id) :
    (∀ p, st.pendingArrivalData = some p →
      (fireTimer st clock id).renderLog
        = st.renderLog ++ [⟨clock.now, p.arrivals, p.servicePeriod⟩] ∧
      (fireTimer st clock id).arrivalsList
        = (updateArrivalsDOM st clock p.arrivals p.servicePeriod).arrivalsList ∧
      (∀ k, (fireTimer st clock id).lastETAValues.get k = snapshotETA p.arrivals k) ∧
      (∀ k, (fireTimer st clock id).lastTrainPositions.get k = snapshotPosition p.arrivals k) ∧
      (fireTimer st clock id).lastArrivalUpdate = clock.now ∧
      (fireTimer st clock id).pendingArrivalData = none ∧
      (fireTimer st clock id).throttleTimeout = none ∧
      (∀ t ∈ (fireTimer st clock id).timers, t.id ≠ id) ∧
      (CoalescerInv st → (fireTimer st clock id).timers = [])) ∧
    (st.pendingArrivalData = none →
      fireTimer st clock id
        = { st with timers := clearTimeout st.timers id, throttleTimeout := none }) := by
  constructor
  · intro p hp
    obtain ⟨c1, c2, c3, c4, c5, c6, c7, c8⟩ := fireTimer_pending st clock id p hq hp
    refine ⟨c1, c2, ?_, ?_, c5, c6, c7, ?_, ?_⟩
    · intro k
      rw [c3, updateStoredETAs_get_eta]
    · intro k
      rw [c4, updateStoredETAs_get_position]
    · intro t ht
      rw [c8] at ht
      exact clearTimeout_not_mem st.timers id t ht
    · intro hinv
      rw [c8]
      exact clearTimeout_of_queued_inv st id hinv hq
  · exact fireTimer_not_pending st clock id hq

/-! ### The coalescer invariant -/

theorem coalescerInv_initial : CoalescerInv initialState := by
  simp [CoalescerInv, initialState]

theorem coalescerInv_renderNow (st : State) (clock : Clock) (arrivals : Snapshot)
    (servicePeriod : Option String) (h : CoalescerInv st) :
    CoalescerInv (renderNow st clock arrivals servicePeriod) := by
  obtain ⟨_, _, _, _, _, r6, r7, _, _, _⟩ := renderNow_spec st clock arrivals servicePeriod
  simp [CoalescerInv, r6, r7, renderNow_timers_of_inv st clock arrivals servicePeriod h]

theorem coalescerInv_deferUpdate (st : State) (clock : Clock) (arrivals : Snapshot)
    (servicePeriod : Option String) (h : CoalescerInv st) :
    CoalescerInv (deferUpdate st clock arrivals servicePeriod) := by
  obtain ⟨_, _, _, _, _, _, d7, d8, d9⟩ := deferUpdate_spec st clock arrivals servicePeriod
  cases hid : st.throttleTimeout with
  | none =>
    obtain ⟨e1, e2⟩ := d8 hid
    have h1 := h.1
    rw [hid] at h1
    simp only at h1
    simp [CoalescerInv, d7, e1, e2, h1]
  | some id =>
    obtain ⟨e1, e2⟩ := d9 id hid
    have h1 := h.1
    rw [hid] at h1
    simp only at h1
    simp [CoalescerInv, d7, e1, e2, h1]

theorem coalescerInv_fireTimer (st : State) (clock : Clock) (id : Nat) (h : CoalescerInv st) :
    CoalescerInv (fireTimer st clock id) := by
  by_cases hq : ∃ t ∈ st.timers, t.id = id
  · have hclear := clearTimeout_of_queued_inv st id h hq
    cases hp : st.pendingArrivalData with
    | some p =>
      obtain ⟨_, _, _, _, _, c6, c7, c8⟩ := fireTimer_pending st clock id p hq hp
      simp [CoalescerInv, c6, c7, c8, hclear]
    | none =>
      rw [fireTimer_not_pending st clock id hq hp]
      simp [CoalescerInv, hclear, hp]
  · rw [fireTimer_of_not_queued st clock id hq]
    exact h

theorem coalescerInv_step (st : State) (e : Event) (h : CoalescerInv st) :
    CoalescerInv (step st e) := by
  cases e with
  | updateArrivals clock arrivals =>
    by_cases hr : RendersNow st clock arrivals
    · simp only [step, throttledUpdateArrivals_of_rendersNow st clock arrivals none hr]
      exact coalescerInv_renderNow st clock arrivals none h
    · simp only [step, throttledUpdateArrivals_of_not_rendersNow st clock arrivals none hr]
      exact coalescerInv_deferUpdate st clock arrivals none h
  | timerFired clock id => exact coalescerInv_fireTimer st clock id h

theorem coalescerInv_run (st : State) (events : List Event) (h : CoalescerInv st) :
    CoalescerInv (run st events) := by
  induction events generalizing st with
  | nil => exact h
  | cons e rest ih => exact ih (step st e) (coalescerInv_step st e h)

theorem coalescerInv_shape (st : State) (h : CoalescerInv st) :
    st.timers.length ≤ 1 ∧
    (st.pendingArrivalData.isSome = true ↔ st.timers ≠ []) ∧
    (∀ p, st.pendingArrivalData = some p →
      ∃ t, st.timers = [t] ∧ st.throttleTimeout = some t.id) := by
  obtain ⟨h1, h2⟩ := h
  cases hid : st.throttleTimeout with
  | none =>
    rw [hid] at h1 h2
    simp only at h1
    refine ⟨by simp [h1], by simp [h1, h2], ?_⟩
    intro p hp
    rw [hp] at h2
    simp at h2
  | some id =>
    rw [hid] at h1 h2
    obtain ⟨t, ht, hti⟩ := h1
    refine ⟨by simp [ht], by simp [ht, h2], ?_⟩
    intro p _
    exact ⟨t, ht, by rw [hti]⟩

/-- C5. In every state reachable from the initial state by `updateArrivals`
deliveries and timer firings, the host queue holds at most one coalescing
timeout, a payload is pending exactly when one is armed, every delivered
snapshot is either rendered on arrival or becomes the pending payload of the
armed timeout, and a pending payload stays pending until the timeout renders
it or a later snapshot is rendered or replaces it. -/
theorem coalescer_invariant (events : List Event) :
    CoalescerInv (run initialState events) ∧
    (run initialState events).timers.length ≤ 1 ∧
    ((run initialState events).pendingArrivalData.isSome = true ↔
      (run initialState events).timers ≠ []) ∧
    (∀ clock arrivals,
      (step (run initialState events) (Event.updateArrivals clock arrivals)).renderLog
        = (run initialState events).renderLog ++ [⟨clock.now, arrivals, none⟩] ∨
      ((step (run initialState events) (Event.updateArrivals clock arrivals)).renderLog
          = (run initialState events).renderLog ∧
        (step (run initialState events) (Event.updateArrivals clock arrivals)).pendingArrivalData
          = some ⟨arrivals, none⟩ ∧
        ∃ t, (step (run initialState events) (Event.updateArrivals clock arrivals)).timers = [t] ∧
          (step (run initialState events) (Event.updateArrivals clock arrivals)).throttleTimeout
            = some t.id)) ∧
    (∀ p, (run initialState events).pendingArrivalData = some p →
      ∃ t, (run initialState events).timers = [t] ∧
        (run initialState events).throttleTimeout = some t.id ∧
        (∀ clock,
          (step (run initialState events) (Event.timerFired clock t.id)).renderLog
            = (run initialState events).renderLog ++
              [⟨clock.now, p.arrivals, p.servicePeriod⟩]) ∧
        (∀ clock id, id ≠ t.id →
          step (run initialState events) (Event.timerFired clock id)
            = run initialState events) ∧
        (∀ clock arrivals,
          (step (run initialState events) (Event.updateArrivals clock arrivals)).renderLog
            = (run initialState events).renderLog ++ [⟨clock.now, arrivals, none⟩] ∨
          ((step (run initialState events) (Event.updateArrivals clock arrivals)).pendingArrivalData
              = some ⟨arrivals, none⟩ ∧
            (step (run initialState events) (Event.updateArrivals clock arrivals)).timers
              = [t]))) := by
  have hinv := coalescerInv_run initialState events coalescerInv_initial
  generalize run initialState events = st at hinv
  obtain ⟨s1, s2, s3⟩ := coalescerInv_shape st hinv
  have key : ∀ clock arrivals,
      (step st (Event.updateArrivals clock arrivals)).renderLog
        = st.renderLog ++ [⟨clock.now, arrivals, none⟩] ∨
      ((step st (Event.updateArrivals clock arrivals)).renderLog = st.renderLog ∧
        (step st (Event.updateArrivals clock arrivals)).pendingArrivalData
          = some ⟨arrivals, none⟩ ∧
        (∃ t, (step st (Event.updateArrivals clock arrivals)).timers = [t] ∧
          (step st (Event.updateArrivals clock arrivals)).throttleTimeout = some t.id) ∧
        (∀ id, st.throttleTimeout = some id →
          (step st (Event.updateArrivals clock arrivals)).timers = st.timers)) := by
    intro clock arrivals
    by_cases hr : RendersNow st clock arrivals
    · left
      simp only [step]
      rw [throttledUpdateArrivals_of_rendersNow st clock arrivals none hr]
      exact (renderNow_spec st clock arrivals none).1
    · right
      have hinv2 := coalescerInv_step st (Event.updateArrivals clock arrivals) hinv
      simp only [step] at hinv2 ⊢
      rw [throttledUpdateArrivals_of_not_rendersNow st clock arrivals none hr] at hinv2 ⊢
      obtain ⟨d1, _, _, _, _, _, d7, _, d9⟩ := deferUpdate_spec st clock arrivals none
      obtain ⟨_, _, t3⟩ := coalescerInv_shape _ hinv2
      exact ⟨d1, d7, t3 _ d7, fun id hid => (d9 id hid).2⟩
  refine ⟨hinv, s1, s2, ?_, ?_⟩
  · intro clock arrivals
    rcases key clock arrivals with h | ⟨h1, h2, h3, _⟩
    · exact Or.inl h
    · exact Or.inr ⟨h1, h2, h3⟩
  · intro p hp
    obtain ⟨t, ht, hti⟩ := s3 p hp
    refine ⟨t, ht, hti, ?_, ?_, ?_⟩
    · intro clock
      have hq : ∃ t2 ∈ st.timers, t2.id = t.id := ⟨t, by simp [ht], rfl⟩
      exact (fireTimer_pending st clock t.id p hq hp).1
    · intro clock id hne
      apply fireTimer_of_not_queued
      rintro ⟨t2, ht2, hid2⟩
      simp only [ht, List.mem_singleton] at ht2
      subst ht2
      exact hne hid2.symm
    · intro clock arrivals
      rcases key clock arrivals with h | ⟨_, h2, _, h4⟩
      · exact Or.inl h
      · exact Or.inr ⟨h2, by rw [h4 t.id hti, ht]⟩

/-! ### An insignificant follow-up snapshot -/

theorem justRendered_of_render (st : State) (clock : Clock) (arrivals : Snapshot)
    (servicePeriod : Option String) (hinv : CoalescerInv st)
    (hr : RendersNow st clock arrivals) :
    JustRendered (throttledUpdateArrivals st clock arrivals servicePeriod) arrivals clock.now := by
  obtain ⟨_, _, r3, r4, r5, r6, r7, _, _, _⟩ := renderNow_spec st clock arrivals servicePeriod
  rw [throttledUpdateArrivals_of_rendersNow st clock arrivals servicePeriod hr]
  exact ⟨r3, r4, r5, r6, r7, renderNow_timers_of_inv st clock arrivals servicePeriod hinv⟩

theorem justRendered_of_fire (st : State) (clock : Clock) (id : Nat) (p : Pending)
    (hinv : CoalescerInv st) (hq : ∃ t ∈ st.timers, t.id = id)
    (hp : st.pendingArrivalData = some p) :
    JustRendered (fireTimer st clock id) p.arrivals clock.now := by
  obtain ⟨_, _, c3, c4, c5, c6, c7, c8⟩ := fireTimer_pending st clock id p hq hp
  exact ⟨c5, c3, c4, c6, c7, by rw [c8]; exact clearTimeout_of_queued_inv st id hinv hq⟩

theorem recordSignificant_closeFollowUp (la : List Arrival) (b : Arrival)
    (hpos : b.position = none) (hkey : ∃ a ∈ la, keyOf a = keyOf b)
    (hclose : ∀ a ∈ la, keyOf a = keyOf b →
      ∃ ea eb, a.eta = some ea ∧ b.eta = some eb ∧ |ea - eb| < 30) :
    recordSignificant (updateStoredETAs (some la)).1 (updateStoredETAs (some la)).2 b = false := by
  have hget := updateStoredETAs_get_eta (some la) (keyOf b)
  simp only [snapshotETA, records, Option.getD_some] at hget
  cases hf : List.find? (fun a => decide (keyOf a = keyOf b)) la.reverse with
  | none =>
    rw [List.find?_eq_none] at hf
    obtain ⟨a, ha, hk⟩ := hkey
    exact absurd (by simpa using hk) (hf a (by simpa using ha))
  | some a =>
    have hmem : a ∈ la := by simpa using List.mem_of_find?_eq_some hf
    have hk : keyOf a = keyOf b := by simpa using List.find?_some hf
    obtain ⟨ea, eb, hea, heb, hlt⟩ := hclose a hmem hk
    rw [hf] at hget
    simp only [Option.map_some'] at hget
    have hj : ¬ ETA_CHANGE_THRESHOLD ≤ |ea - eb| := by
      simp only [ETA_CHANGE_THRESHOLD]
      exact not_le.mpr hlt
    by_cases hproto : keyOf b = "__proto__"
    · simp [recordSignificant, lookupETA, hproto, hpos]
    · simp [recordSignificant, lookupETA, hproto, hget, hea, etaJump, heb, hj, hpos]

theorem hasSignificantETAChange_closeFollowUp (la lb : List Arrival) (hne : lb ≠ [])
    (h : CloseFollowUp la lb) :
    hasSignificantETAChange (updateStoredETAs (some la)).1 (updateStoredETAs (some la)).2
      (some lb) = false := by
  have hloop : significantLoop (updateStoredETAs (some la)).1 (updateStoredETAs (some la)).2 lb
      = false := by
    rw [Bool.eq_false_iff]
    intro hs
    obtain ⟨b, hb, hsig⟩ := (significantLoop_iff _ _ lb).mp hs
    obtain ⟨h1, h2, h3⟩ := h b hb
    rw [recordSignificant_closeFollowUp la b h1 h2 h3] at hsig
    exact Bool.false_ne_true hsig
  cases lb with
  | nil => exact absurd rfl hne
  | cons b rest => simpa [hasSignificantETAChange] using hloop

/-- C6 (amended). After a snapshot `la` has been rendered at `t0`, a non-empty
snapshot `lb` delivered through `updateArrivals` less than 15000 ms later,
whose records carry keys of `la`, have ETAs less than 30 s away and have no
position, is not rendered on arrival; one timeout is queued, due at
`t0 + 15000`, and its firing renders `lb` (once), after which nothing is
pending and no timeout is queued. -/
theorem close_followup_coalesced (st1 : State) (la lb : List Arrival) (t0 t1 : Int)
    (hour1 hour2 : Nat) (hrendered : JustRendered st1 (some la) t0) (hne : lb ≠ [])
    (hclose : CloseFollowUp la lb) (hlt : t1 - t0 < 15000) :
    (step st1 (Event.updateArrivals ⟨t1, hour1⟩ (some lb))).renderLog = st1.renderLog ∧
    (step st1 (Event.updateArrivals ⟨t1, hour1⟩ (some lb))).arrivalsList = st1.arrivalsList ∧
    (step st1 (Event.updateArrivals ⟨t1, hour1⟩ (some lb))).timers
      = [⟨st1.nextTimerId, t1, 15000 - (t1 - t0)⟩] ∧
    (⟨st1.nextTimerId, t1, 15000 - (t1 - t0)⟩ : Timer).deadline = t0 + 15000 ∧
    (step (step st1 (Event.updateArrivals ⟨t1, hour1⟩ (some lb)))
        (Event.timerFired ⟨t0 + 15000, hour2⟩ st1.nextTimerId)).renderLog
      = st1.renderLog ++ [⟨t0 + 15000, some lb, none⟩] ∧
    (step (step st1 (Event.updateArrivals ⟨t1, hour1⟩ (some lb)))
        (Event.timerFired ⟨t0 + 15000, hour2⟩ st1.nextTimerId)).arrivalsList
      = (updateArrivalsDOM (step st1 (Event.updateArrivals ⟨t1, hour1⟩ (some lb)))
          ⟨t0 + 15000, hour2⟩ (some lb) none).arrivalsList ∧
    (step (step st1 (Event.updateArrivals ⟨t1, hour1⟩ (some lb)))
        (Event.timerFired ⟨t0 + 15000, hour2⟩ st1.nextTimerId)).pendingArrivalData = none ∧
    (step (step st1 (Event.updateArrivals ⟨t1, hour1⟩ (some lb)))
        (Event.timerFired ⟨t0 + 15000, hour2⟩ st1.nextTimerId)).throttleTimeout = none ∧
    (step (step st1 (Event.updateArrivals ⟨t1, hour1⟩ (some lb)))
        (Event.timerFired ⟨t0 + 15000, hour2⟩ st1.nextTimerId)).timers = [] := by
  obtain ⟨j1, j2, j3, j4, j5, j6⟩ := hrendered
  have hsig : hasSignificantETAChange st1.lastETAValues st1.lastTrainPositions (some lb)
      = false := by
    rw [j2, j3]
    exact hasSignificantETAChange_closeFollowUp la lb hne hclose
  have hrecent : (⟨t1, hour1⟩ : Clock).now - st1.lastArrivalUpdate < 15000 := by
    rw [j1]
    exact hlt
  have hstep : step st1 (Event.updateArrivals ⟨t1, hour1⟩ (some lb))
      = deferUpdate st1 ⟨t1, hour1⟩ (some lb) none :=
    throttledUpdateArrivals_of_not_rendersNow st1 ⟨t1, hour1⟩ (some lb) none
      (not_rendersNow_of_insignificant st1 ⟨t1, hour1⟩ (some lb) hsig hrecent)
  obtain ⟨d1, d2, _, _, _, _, d6, d7, _⟩ := deferUpdate_spec st1 ⟨t1, hour1⟩ (some lb) none
  obtain ⟨e1, e2⟩ := d7 j5
  rw [j6, j1] at e2
  simp only [List.nil_append] at e2
  rw [hstep]
  generalize deferUpdate st1 ⟨t1, hour1⟩ (some lb) none = st2 at d1 d2 d6 e1 e2
  have hinv2 : CoalescerInv st2 := by
    refine ⟨?_, ?_⟩
    · rw [e1]
      exact ⟨_, e2, rfl⟩
    · rw [e1, d6]
      rfl
  have hq : ∃ t ∈ st2.timers, t.id = st1.nextTimerId :=
    ⟨⟨st1.nextTimerId, t1, 15000 - (t1 - t0)⟩, by rw [e2]; simp, rfl⟩
  obtain ⟨f1, f2, _, _, _, f6, f7, f8⟩ :=
    fireTimer_pending st2 ⟨t0 + 15000, hour2⟩ st1.nextTimerId _ hq d6
  have f9 := clearTimeout_of_queued_inv st2 st1.nextTimerId hinv2 hq
  have hstep2 : step st2 (Event.timerFired ⟨t0 + 15000, hour2⟩ st1.nextTimerId)
      = fireTimer st2 ⟨t0 + 15000, hour2⟩ st1.nextTimerId := rfl
  rw [hstep2]
  refine ⟨d1, d2, e2, ?_, ?_, ?_, f6, f7, by rw [f8]; exact f9⟩
  · simp only [Timer.deadline]
    omega
  · rw [f1, d1]
  · rw [f2]

/-! ### Rendering of the arrivals list -/

theorem isValidArrival_iff (a : Arrival) : isValidArrival a = true ↔ ValidRecord a := by
  unfold isValidArrival ValidRecord
  cases he : a.eta with
  | none => simp
  | some eta =>
    cases hd : a.destination with
    | none => simp [truthy]
    | some d =>
      by_cases h : eta < 0 ∨ 86400 < eta
      · have h2 : ¬ (0 ≤ eta ∧ eta ≤ 86400) := by
          rintro ⟨h3, h4⟩
          rcases h with h | h
          · exact absurd h3 (not_le.mpr h)
          · exact absurd h4 (not_le.mpr h)
        simp [h, h2]
      · have h2 : 0 ≤ eta ∧ eta ≤ 86400 := by
          push_neg at h
          exact h
        simp [h, h2, truthy]

theorem emptyStateRow_isEmptyState (st : State) (clock : Clock) :
    ∃ icon message subMessage, emptyStateRow st clock = DomRow.emptyState icon message subMessage := by
  unfold emptyStateRow
  simp only []
  split_ifs <;> exact ⟨_, _, _, rfl⟩

theorem renderRow_isArrival (held : JsMap HeldEntry) (etas : JsMap (Option ℚ)) (t now : Int)
    (a : Arrival) :
    ∃ trainId typeIcon etaClass etaDisplay displayStatus,
      renderRow held etas t now a =
        DomRow.arrival trainId (propKey a.destination) typeIcon etaClass etaDisplay
          displayStatus := by
  unfold renderRow
  simp only []
  split_ifs <;> exact ⟨_, _, _, _, _, rfl⟩

theorem showEmptyState_arrivalsList (st : State) (clock : Clock) (h : st.arrivalsList = []) :
    ∃ icon message subMessage,
      (showEmptyState st clock).arrivalsList = [DomRow.emptyState icon message subMessage] := by
  obtain ⟨i, m, s, hrow⟩ := emptyStateRow_isEmptyState st clock
  exact ⟨i, m, s, by simp [showEmptyState, h, hrow]⟩

theorem updateArrivalsDOM_arrivalsList (st : State) (clock : Clock) (l : List Arrival)
    (servicePeriod : Option String) (hne : l ≠ []) :
    (l.filter isValidArrival ≠ [] →
      (updateArrivalsDOM st clock (some l) servicePeriod).arrivalsList =
        (l.filter isValidArrival).map
          (renderRow st.heldTrainStatus st.lastETAValues clock.now clock.now)) ∧
    (l.filter isValidArrival = [] →
      ∃ icon message subMessage,
        (updateArrivalsDOM st clock (some l) servicePeriod).arrivalsList =
          [DomRow.emptyState icon message subMessage]) := by
  cases l with
  | nil => exact absurd rfl hne
  | cons a rest =>
    unfold updateArrivalsDOM
    constructor
    · intro hv
      have hv2 : ¬ (List.filter isValidArrival (a :: rest)).length = 0 := by
        intro h0
        exact hv (List.length_eq_zero.mp h0)
      by_cases hs : truthy servicePeriod = true
      · simp [hs, hv2, markDataReceived]
      · simp [hs, hv2, markDataReceived]
    · intro hv
      have hv2 : (List.filter isValidArrival (a :: rest)).length = 0 := by
        rw [hv]
        rfl
      simp only [hv2, if_true]
      apply showEmptyState_arrivalsList
      by_cases hs : truthy servicePeriod = true <;> simp [hs, markDataReceived]

theorem renderRow_held (held : JsMap HeldEntry) (etas : JsMap (Option ℚ)) (t now : Int)
    (a : Arrival) (h : rowIsHeld held a = true) :
    ∃ trainId typeIcon,
      renderRow held etas t now a =
        DomRow.arrival trainId (propKey a.destination) typeIcon "eta-held" "HELD"
          "Signal Hold" := by
  unfold renderRow
  simp only [h, Bool.true_or, if_true]
  exact ⟨_, _, rfl⟩

theorem isStuck_false_of_atStation (etas : JsMap (Option ℚ)) (t now : Int) (a : Arrival)
    (h : isAtStation a = true) : isStuckBetweenStations etas t now a = false := by
  simp [isStuckBetweenStations, h]

theorem renderRow_atStation (held : JsMap HeldEntry) (etas : JsMap (Option ℚ)) (t now : Int)
    (a : Arrival) (hat : isAtStation a = true) (hh : rowIsHeld held a = false) :
    (renderRow held etas t now a).etaText = some "NOW" := by
  unfold renderRow
  simp [hh, isStuck_false_of_atStation etas t now a hat, hat, DomRow.etaText]

theorem isAtStation_iff (a : Arrival) :
    isAtStation a = true ↔
      ∃ s, a.status = some s ∧
        (toLowerCase s = "boarding" ∨ toLowerCase s = "approaching" ∨
          toLowerCase s = "departing") := by
  unfold isAtStation
  cases hs : a.status with
  | none => simp [truthy]
  | some s =>
    by_cases he : s = ""
    · subst he
      simp [truthy, toLowerCase]
    · simp [truthy, he, propKey, or_assoc]

theorem mem_arrivalsList_of_valid (st : State) (clock : Clock) (l : List Arrival)
    (servicePeriod : Option String) (a : Arrival) (ha : a ∈ l) (hv : isValidArrival a = true) :
    renderRow st.heldTrainStatus st.lastETAValues clock.now clock.now a ∈
      (updateArrivalsDOM st clock (some l) servicePeriod).arrivalsList := by
  have hne : l ≠ [] := List.ne_nil_of_mem ha
  have hmem : a ∈ l.filter isValidArrival := List.mem_filter.mpr ⟨ha, hv⟩
  have hf : l.filter isValidArrival ≠ [] := List.ne_nil_of_mem hmem
  rw [(updateArrivalsDOM_arrivalsList st clock l servicePeriod hne).1 hf]
  exact List.mem_map_of_mem _ hmem

/-- C7 (amended). For a non-empty snapshot `updateArrivalsDOM` renders one
arrival row per record whose ETA is a number (integer or not) in
`[0, 86400]` and whose destination is not empty, in snapshot order, and no
row for any other record; if no record qualifies the list is the single
empty-state row. -/
theorem updateArrivalsDOM_rows (st : State) (clock : Clock) (l : List Arrival)
    (servicePeriod : Option String) (hne : l ≠ []) :
    (∀ a, isValidArrival a = true ↔ ValidRecord a) ∧
    (l.filter isValidArrival ≠ [] →
      (updateArrivalsDOM st clock (some l) servicePeriod).arrivalsList =
        (l.filter isValidArrival).map
          (renderRow st.heldTrainStatus st.lastETAValues clock.now clock.now)) ∧
    (l.filter isValidArrival = [] →
      ∃ icon message subMessage,
        (updateArrivalsDOM st clock (some l) servicePeriod).arrivalsList =
          [DomRow.emptyState icon message subMessage]) ∧
    (∀ a, ∃ trainId typeIcon etaClass etaDisplay displayStatus,
      renderRow st.heldTrainStatus st.lastETAValues clock.now clock.now a =
        DomRow.arrival trainId (propKey a.destination) typeIcon etaClass etaDisplay
          displayStatus) :=
  ⟨isValidArrival_iff,
    (updateArrivalsDOM_arrivalsList st clock l servicePeriod hne).1,
    (updateArrivalsDOM_arrivalsList st clock l servicePeriod hne).2,
    fun a => renderRow_isArrival _ _ _ _ a⟩

/-! ### Snapshots with their invalid records removed -/

theorem filter_filter_isValid (l : List Arrival) :
    (l.filter isValidArrival).filter isValidArrival = l.filter isValidArrival := by
  simp [List.filter_filter]

theorem rendersNow_of_filtered (st : State) (clock : Clock) (l : List Arrival)
    (hv : l.filter isValidArrival ≠ [])
    (h : RendersNow st clock (some (l.filter isValidArrival))) :
    RendersNow st clock (some l) := by
  have hne : l ≠ [] := by
    intro h0
    rw [h0] at hv
    exact hv rfl
  rcases h with h | h
  · left
    rw [hasSignificantETAChange_of_ne_nil _ _ _ hv] at h
    rw [hasSignificantETAChange_of_ne_nil _ _ _ hne]
    obtain ⟨a, ha, hsig⟩ := h
    exact ⟨a, (List.mem_filter.mp ha).1, hsig⟩
  · right
    exact h

theorem find?_congr_mem {α : Type} (p q : α → Bool) (l : List α)
    (h : ∀ a ∈ l, p a = q a) : l.find? p = l.find? q := by
  induction l with
  | nil => rfl
  | cons a rest ih =>
    have ha := h a (by simp)
    have hrest := ih (fun b hb => h b (by simp [hb]))
    simp [List.find?, ha, hrest]

theorem snapshotETA_filter (l : List Arrival) (k : String)
    (hk : ∀ a ∈ l, keyOf a = k → isValidArrival a = true) :
    snapshotETA (some (l.filter isValidArrival)) k = snapshotETA (some l) k := by
  simp only [snapshotETA, records, Option.getD_some, ← List.filter_reverse, List.find?_filter]
  congr 1
  apply find?_congr_mem
  intro a ha
  by_cases hka : keyOf a = k
  · simp [hka, hk a (by simpa using ha) hka]
  · simp [hka]

theorem snapshotPosition_filter (l : List Arrival) (k : String)
    (hk : ∀ a ∈ l, keyOf a = k → isValidArrival a = true) :
    snapshotPosition (some (l.filter isValidArrival)) k = snapshotPosition (some l) k := by
  simp only [snapshotPosition, records, Option.getD_some]
  induction l using List.reverseRecOn with
  | nil => simp
  | append_singleton rest a ih =>
    have hk2 : ∀ b ∈ rest, keyOf b = k → isValidArrival b = true :=
      fun b hb => hk b (by simp [hb])
    by_cases hka : keyOf a = k
    · have hva := hk a (by simp) hka
      simp [List.filter_append, hva, hka, List.findSome?_append, List.findSome?, ih hk2]
    · by_cases hva : isValidArrival a = true
      · simp [List.filter_append, hva, hka, List.findSome?_append, List.findSome?, ih hk2]
      · simp [List.filter_append, hva, hka, List.findSome?_append, List.findSome?, ih hk2]

/-! ### The example of the specification -/

theorem rendersNow_initial_recordA : RendersNow initialState ⟨0, 12⟩ (some [recordA]) :=
  Or.inl (by decide)

theorem stateAfterA_justRendered : JustRendered stateAfterA (some [recordA]) 0 :=
  justRendered_of_render initialState ⟨0, 12⟩ (some [recordA]) none coalescerInv_initial
    rendersNow_initial_recordA

theorem stateAfterA_eq :
    stateAfterA = renderNow initialState ⟨0, 12⟩ (some [recordA]) none :=
  throttledUpdateArrivals_of_rendersNow initialState ⟨0, 12⟩ (some [recordA]) none
    rendersNow_initial_recordA

theorem stateAfterA_nextTimerId : stateAfterA.nextTimerId = 1 := by
  rw [stateAfterA_eq]
  exact (renderNow_spec initialState ⟨0, 12⟩ (some [recordA]) none).2.2.2.2.2.2.2.1

theorem stateAfterA_heldTrainStatus : stateAfterA.heldTrainStatus = [] := by
  rw [stateAfterA_eq]
  exact (renderNow_spec initialState ⟨0, 12⟩ (some [recordA]) none).2.2.2.2.2.2.2.2.1

theorem stateAfterA_lastETAValues : stateAfterA.lastETAValues = [("T1", some 200)] := by
  rw [stateAfterA_justRendered.2.1]
  rfl

theorem closeFollowUp_example : CloseFollowUp [recordA] [recordB] := by
  intro b hb
  simp only [List.mem_singleton] at hb
  subst hb
  refine ⟨rfl, ⟨recordA, by simp, by decide⟩, ?_⟩
  intro a ha _
  simp only [List.mem_singleton] at ha
  subst ha
  refine ⟨200, 185, rfl, rfl, ?_⟩
  norm_num [abs_lt]

theorem hasSignificantETAChange_stateAfterA_recordB :
    hasSignificantETAChange stateAfterA.lastETAValues stateAfterA.lastTrainPositions
      (some [recordB]) = false := by
  rw [stateAfterA_justRendered.2.1, stateAfterA_justRendered.2.2.1]
  exact hasSignificantETAChange_closeFollowUp [recordA] [recordB] (by simp) closeFollowUp_example

theorem stateAfterA_lastArrivalUpdate : stateAfterA.lastArrivalUpdate = 0 :=
  stateAfterA_justRendered.1

theorem stateAfterB_eq :
    stateAfterB = deferUpdate stateAfterA ⟨2000, 12⟩ (some [recordB]) none := by
  apply throttledUpdateArrivals_of_not_rendersNow
  rintro (h | h)
  · rw [hasSignificantETAChange_stateAfterA_recordB] at h
    exact Bool.false_ne_true h
  · rw [stateAfterA_lastArrivalUpdate] at h
    simp at h

theorem stateAfterB_timers : stateAfterB.timers = [⟨1, 2000, 13000⟩] := by
  have h := ((deferUpdate_spec stateAfterA ⟨2000, 12⟩ (some [recordB]) none).2.2.2.2.2.2.2.1
    stateAfterA_justRendered.2.2.2.2.1).2
  rw [stateAfterA_justRendered.2.2.2.2.2, stateAfterA_nextTimerId,
    stateAfterA_lastArrivalUpdate] at h
  rw [stateAfterB_eq, h]
  decide

theorem stateAfterB_pending :
    stateAfterB.pendingArrivalData = some ⟨some [recordB], none⟩ := by
  rw [stateAfterB_eq]
  exact (deferUpdate_spec stateAfterA ⟨2000, 12⟩ (some [recordB]) none).2.2.2.2.2.2.1

theorem stateAfterB_heldTrainStatus : stateAfterB.heldTrainStatus = [] := by
  rw [stateAfterB_eq, (deferUpdate_spec stateAfterA ⟨2000, 12⟩ (some [recordB]) none).2.2.2.2.2.1]
  exact stateAfterA_heldTrainStatus

theorem stateAfterB_lastETAValues : stateAfterB.lastETAValues = [("T1", some 200)] := by
  rw [stateAfterB_eq, (deferUpdate_spec stateAfterA ⟨2000, 12⟩ (some [recordB]) none).2.2.2.1]
  exact stateAfterA_lastETAValues

theorem floor_185_div_60 : ⌊(185 : ℚ) / 60⌋ = 3 := by
  rw [Int.floor_eq_iff]
  norm_num

theorem isValidArrival_recordB : isValidArrival recordB = true := by
  rw [isValidArrival_iff]
  exact ⟨⟨185, rfl, by norm_num, by norm_num⟩, "Downtown", rfl, by decide⟩

theorem renderRow_recordB (now : Int) :
    renderRow [] [("T1", some 200)] now now recordB
      = DomRow.arrival "T1" "Downtown" "" "" "3 min" "On Time" := by
  have h1 : rowIsHeld [] recordB = false := rfl
  have h2 : rowIsCaution [] recordB = false := rfl
  have h3 : isAtStation recordB = false := by decide
  have h4 : isStuckBetweenStations [("T1", some 200)] now now recordB = false := by
    simp [isStuckBetweenStations]
  have h5 : numLt recordB.eta 60 = false := by
    simp [numLt, recordB]
    norm_num
  have h6 : formatETA recordB.eta = "3 min" := by
    simp only [formatETA, recordB, floor_185_div_60]
    norm_num
    decide
  simp [renderRow, h1, h2, h3, h4, h5, h6]
  simp [recordB, truthy, propKey]

/-! ### Witnesses on the example of the specification -/

/-- Witness for C2: snapshot A delivered at time 0 in the initial state is
rendered, and the last-render time becomes 0. -/
theorem throttledUpdateArrivals_renders_witness :
    RendersNow initialState ⟨0, 12⟩ (some [recordA]) ∧
    (throttledUpdateArrivals initialState ⟨0, 12⟩ (some [recordA]) none).lastArrivalUpdate = 0 ∧
    (throttledUpdateArrivals initialState ⟨0, 12⟩ (some [recordA]) none).timers = [] :=
  ⟨rendersNow_initial_recordA,
    ((throttledUpdateArrivals_renders initialState ⟨0, 12⟩ (some [recordA]) none).2
      rendersNow_initial_recordA).2.1,
    ((throttledUpdateArrivals_renders initialState ⟨0, 12⟩ (some [recordA]) none).2
      rendersNow_initial_recordA).2.2.2.2.2.2.2 coalescerInv_initial⟩

/-- Witness for C3: snapshot B delivered at time 2000 after snapshot A was
rendered at time 0 is insignificant and recent, and becomes the pending
payload. -/
theorem throttledUpdateArrivals_defers_witness :
    hasSignificantETAChange stateAfterA.lastETAValues stateAfterA.lastTrainPositions
      (some [recordB]) = false ∧
    (⟨2000, 12⟩ : Clock).now - stateAfterA.lastArrivalUpdate < 15000 ∧
    (throttledUpdateArrivals stateAfterA ⟨2000, 12⟩ (some [recordB]) none).pendingArrivalData
      = some ⟨some [recordB], none⟩ :=
  have hrecent : (⟨2000, 12⟩ : Clock).now - stateAfterA.lastArrivalUpdate < 15000 := by
    rw [stateAfterA_lastArrivalUpdate]
    decide
  ⟨hasSignificantETAChange_stateAfterA_recordB, hrecent,
    (throttledUpdateArrivals_defers stateAfterA ⟨2000, 12⟩ (some [recordB]) none
      hasSignificantETAChange_stateAfterA_recordB hrecent).2.2.2.2.2.1⟩

/-- Witness for C4: the timeout queued for snapshot B fires at time 15000 and
renders snapshot B. -/
theorem fireTimer_effect_witness :
    (∃ t ∈ stateAfterB.timers, t.id = 1) ∧
    stateAfterB.pendingArrivalData = some ⟨some [recordB], none⟩ ∧
    (fireTimer stateAfterB ⟨15000, 12⟩ 1).renderLog
      = stateAfterB.renderLog ++ [⟨15000, some [recordB], none⟩] ∧
    (fireTimer stateAfterB ⟨15000, 12⟩ 1).pendingArrivalData = none :=
  have hq : ∃ t ∈ stateAfterB.timers, t.id = 1 :=
    ⟨⟨1, 2000, 13000⟩, by rw [stateAfterB_timers]; exact List.mem_singleton.mpr rfl, rfl⟩
  ⟨hq, stateAfterB_pending,
    ((fireTimer_effect stateAfterB ⟨15000, 12⟩ 1 hq).1 _ stateAfterB_pending).1,
    ((fireTimer_effect stateAfterB ⟨15000, 12⟩ 1 hq).1 _ stateAfterB_pending).2.2.2.2.2.1⟩

/-- Witness for C5: after snapshot A (rendered) and snapshot B (deferred) one
timeout is queued and the invariant holds. -/
theorem coalescer_invariant_witness :
    CoalescerInv (run initialState
      [Event.updateArrivals ⟨0, 12⟩ (some [recordA]),
        Event.updateArrivals ⟨2000, 12⟩ (some [recordB])]) ∧
    (run initialState
      [Event.updateArrivals ⟨0, 12⟩ (some [recordA]),
        Event.updateArrivals ⟨2000, 12⟩ (some [recordB])]).timers.length ≤ 1 :=
  ⟨(coalescer_invariant
      [Event.updateArrivals ⟨0, 12⟩ (some [recordA]),
        Event.updateArrivals ⟨2000, 12⟩ (some [recordB])]).1,
    (coalescer_invariant
      [Event.updateArrivals ⟨0, 12⟩ (some [recordA]),
        Event.updateArrivals ⟨2000, 12⟩ (some [recordB])]).2.1⟩

/-- C6 as stated fails: two empty snapshots carry the same trains (none), yet
the second, delivered 2000 ms after the first was rendered, is rendered on
arrival. -/
theorem empty_followup_rendered_on_arrival :
    JustRendered (step initialState (Event.updateArrivals ⟨0, 12⟩ (some []))) (some []) 0 ∧
    CloseFollowUp [] [] ∧
    (2000 : Int) - 0 < 15000 ∧
    (step (step initialState (Event.updateArrivals ⟨0, 12⟩ (some [])))
        (Event.updateArrivals ⟨2000, 12⟩ (some []))).renderLog
      = (step initialState (Event.updateArrivals ⟨0, 12⟩ (some []))).renderLog ++
          [⟨2000, some [], none⟩] ∧
    (step (step initialState (Event.updateArrivals ⟨0, 12⟩ (some [])))
        (Event.updateArrivals ⟨2000, 12⟩ (some []))).renderLog
      ≠ (step initialState (Event.updateArrivals ⟨0, 12⟩ (some []))).renderLog := by
  have h1 : RendersNow initialState ⟨0, 12⟩ (some []) := Or.inl rfl
  have h2 : ∀ st : State, RendersNow st ⟨2000, 12⟩ (some []) := fun st => Or.inl rfl
  have hlog : (step (step initialState (Event.updateArrivals ⟨0, 12⟩ (some [])))
        (Event.updateArrivals ⟨2000, 12⟩ (some []))).renderLog
      = (step initialState (Event.updateArrivals ⟨0, 12⟩ (some []))).renderLog ++
          [⟨2000, some [], none⟩] := by
    simp only [step]
    rw [throttledUpdateArrivals_of_rendersNow _ ⟨2000, 12⟩ (some []) none (h2 _)]
    exact (renderNow_spec _ ⟨2000, 12⟩ (some []) none).1
  refine ⟨justRendered_of_render initialState ⟨0, 12⟩ (some []) none coalescerInv_initial h1,
    ?_, by decide, hlog, ?_⟩
  · intro b hb
    simp at hb
  · rw [hlog]
    simp

/-- Witness for C6: the example of the specification.  Snapshot A rendered at
time 0, snapshot B delivered at time 2000: B is not rendered on arrival, and
the timeout firing at time 15000 renders B, showing "3 min". -/
theorem close_followup_coalesced_witness :
    JustRendered stateAfterA (some [recordA]) 0 ∧
    [recordB] ≠ [] ∧
    CloseFollowUp [recordA] [recordB] ∧
    (2000 : Int) - 0 < 15000 ∧
    stateAfterB.renderLog = stateAfterA.renderLog ∧
    (step stateAfterB (Event.timerFired ⟨0 + 15000, 12⟩ stateAfterA.nextTimerId)).renderLog
      = stateAfterA.renderLog ++ [⟨0 + 15000, some [recordB], none⟩] ∧
    (step stateAfterB (Event.timerFired ⟨0 + 15000, 12⟩ stateAfterA.nextTimerId)).arrivalsList
      = [DomRow.arrival "T1" "Downtown" "" "" "3 min" "On Time"] := by
  have h := close_followup_coalesced stateAfterA [recordA] [recordB] 0 2000 12 12
    stateAfterA_justRendered (by simp) closeFollowUp_example (by norm_num)
  refine ⟨stateAfterA_justRendered, by simp, closeFollowUp_example, by norm_num, h.1,
    h.2.2.2.2.1, ?_⟩
  have hrows := (updateArrivalsDOM_arrivalsList stateAfterB ⟨0 + 15000, 12⟩ [recordB] none
    (by simp)).1 (by simp [isValidArrival_recordB])
  have h6 := h.2.2.2.2.2.1
  change (step stateAfterB (Event.timerFired ⟨0 + 15000, 12⟩ stateAfterA.nextTimerId)).arrivalsList
    = (updateArrivalsDOM stateAfterB ⟨0 + 15000, 12⟩ (some [recordB]) none).arrivalsList at h6
  rw [h6, hrows, stateAfterB_heldTrainStatus, stateAfterB_lastETAValues]
  simp [isValidArrival_recordB, renderRow_recordB]

/-- Witness for C7: the snapshot holding record A alone renders one row. -/
theorem updateArrivalsDOM_rows_witness :
    [recordA] ≠ [] ∧
    ([recordA].filter isValidArrival ≠ [] →
      (updateArrivalsDOM initialState ⟨0, 12⟩ (some [recordA]) none).arrivalsList =
        ([recordA].filter isValidArrival).map
          (renderRow initialState.heldTrainStatus initialState.lastETAValues 0 0)) :=
  ⟨List.cons_ne_nil _ _,
    (updateArrivalsDOM_rows initialState ⟨0, 12⟩ [recordA] none (List.cons_ne_nil _ _)).2.1⟩

theorem isValidArrival_recordFractional : isValidArrival recordFractional = true := by
  rw [isValidArrival_iff]
  exact ⟨⟨25 / 2, rfl, by norm_num, by norm_num⟩, "Downtown", rfl, by decide⟩

/-- C7 as stated fails: a record whose ETA is 12.5 s, which is not an integer,
is rendered as a row. -/
theorem fractional_eta_rendered :
    ¬ ValidRecordIntegerEta recordFractional ∧
    (updateArrivalsDOM initialState ⟨0, 12⟩ (some [recordFractional]) none).arrivalsList
      = [DomRow.arrival "T1" "Downtown" "" "arriving" "NOW" "On Time"] := by
  constructor
  · rintro ⟨⟨n, hn, _, _⟩, _⟩
    have h1 : ((25 : ℚ) / 2) = (n : ℚ) := Option.some.inj hn
    have h2 : ((2 * n : ℤ) : ℚ) = ((25 : ℤ) : ℚ) := by
      push_cast
      rw [← h1]
      norm_num
    have h3 : 2 * n = 25 := by exact_mod_cast h2
    omega
  · have hrows := (updateArrivalsDOM_arrivalsList initialState ⟨0, 12⟩ [recordFractional] none
      (by simp)).1 (by simp [isValidArrival_recordFractional])
    rw [hrows]
    have h1 : rowIsHeld [] recordFractional = false := rfl
    have h2 : rowIsCaution [] recordFractional = false := rfl
    have h3 : isAtStation recordFractional = false := by decide
    have h4 : isStuckBetweenStations [] 0 0 recordFractional = false := by
      simp [isStuckBetweenStations]
    have h5 : numLt recordFractional.eta 60 = true := by
      simp [numLt, recordFractional]
      norm_num
    have h6 : formatETA recordFractional.eta = "NOW" := by
      simp [formatETA, recordFractional]
      norm_num
    simp [isValidArrival_recordFractional, initialState, renderRow, h1, h2, h3, h4, h5, h6]
    simp [recordFractional, truthy, propKey]

/-! ### Invalid records and the render decision -/

/-- C8 (amended). When at least one valid record remains, the rows rendered
for a snapshot are those rendered for the snapshot with its invalid records
removed.  The render decision reads every record: the snapshot is rendered at
once whenever the filtered one would be, and then the stored ETA and position
of every key that no invalid record carries are the same for both. -/
theorem invalid_records_and_render_decision (st : State) (clock : Clock) (l : List Arrival)
    (servicePeriod : Option String) (hv : l.filter isValidArrival ≠ []) :
    (updateArrivalsDOM st clock (some l) servicePeriod).arrivalsList
      = (updateArrivalsDOM st clock (some (l.filter isValidArrival)) servicePeriod).arrivalsList ∧
    (RendersNow st clock (some (l.filter isValidArrival)) → RendersNow st clock (some l)) ∧
    (RendersNow st clock (some (l.filter isValidArrival)) →
      ∀ k, (∀ a ∈ l, keyOf a = k → isValidArrival a = true) →
        (throttledUpdateArrivals st clock (some l) servicePeriod).lastETAValues.get k
          = (throttledUpdateArrivals st clock (some (l.filter isValidArrival))
              servicePeriod).lastETAValues.get k ∧
        (throttledUpdateArrivals st clock (some l) servicePeriod).lastTrainPositions.get k
          = (throttledUpdateArrivals st clock (some (l.filter isValidArrival))
              servicePeriod).lastTrainPositions.get k) := by
  have hne : l ≠ [] := by
    intro h
    rw [h] at hv
    exact hv rfl
  refine ⟨?_, rendersNow_of_filtered st clock l hv, ?_⟩
  · rw [(updateArrivalsDOM_arrivalsList st clock l servicePeriod hne).1 hv,
      (updateArrivalsDOM_arrivalsList st clock (l.filter isValidArrival) servicePeriod hv).1
        (by rw [filter_filter_isValid]; exact hv),
      filter_filter_isValid]
  · intro hr k hk
    have hr2 := rendersNow_of_filtered st clock l hv hr
    obtain ⟨_, _, _, a4, a5, _⟩ := renderNow_spec st clock (some l) servicePeriod
    obtain ⟨_, _, _, b4, b5, _⟩ :=
      renderNow_spec st clock (some (l.filter isValidArrival)) servicePeriod
    rw [throttledUpdateArrivals_of_rendersNow st clock (some l) servicePeriod hr2,
      throttledUpdateArrivals_of_rendersNow st clock (some (l.filter isValidArrival))
        servicePeriod hr,
      a4, a5, b4, b5, updateStoredETAs_get_eta, updateStoredETAs_get_eta,
      updateStoredETAs_get_position, updateStoredETAs_get_position,
      snapshotETA_filter l k hk, snapshotPosition_filter l k hk]
    exact ⟨rfl, rfl⟩

theorem isValidArrival_recordA : isValidArrival recordA = true := by
  rw [isValidArrival_iff]
  exact ⟨⟨200, rfl, by norm_num, by norm_num⟩, "Downtown", rfl, by decide⟩

theorem isValidArrival_recordInvalid : isValidArrival recordInvalid = false := by
  rw [Bool.eq_false_iff, Ne, isValidArrival_iff]
  rintro ⟨⟨eta, he, h0, _⟩, _⟩
  have : (-5 : ℚ) = eta := Option.some.inj he
  rw [← this] at h0
  norm_num at h0

theorem isValidArrival_recordNoDestination : isValidArrival recordNoDestination = false := by
  rw [Bool.eq_false_iff, Ne, isValidArrival_iff]
  rintro ⟨_, d, hd, hne⟩
  have : "" = d := Option.some.inj hd
  exact hne this.symm

/-- Witness for C8: record A followed by an invalid record renders the row of
record A alone. -/
theorem invalid_records_and_render_decision_witness :
    [recordA, recordInvalid].filter isValidArrival ≠ [] ∧
    (updateArrivalsDOM stateAfterA ⟨1000, 12⟩ (some [recordA, recordInvalid]) none).arrivalsList
      = (updateArrivalsDOM stateAfterA ⟨1000, 12⟩
          (some ([recordA, recordInvalid].filter isValidArrival)) none).arrivalsList :=
  have hv : [recordA, recordInvalid].filter isValidArrival ≠ [] := by
    simp [isValidArrival_recordA]
  ⟨hv, (invalid_records_and_render_decision stateAfterA ⟨1000, 12⟩ [recordA, recordInvalid]
    none hv).1⟩

/-- C8 as stated fails.  With train T1 stored at 200 s and the last render at
time 0, the snapshot of record A and an invalid record of an unseen train is
rendered at time 1000, while record A alone is deferred; and an invalid record
under the key of T1 changes the ETA stored for T1. -/
theorem invalid_record_changes_decision :
    [recordA, recordInvalid].filter isValidArrival = [recordA] ∧
    (throttledUpdateArrivals stateAfterA ⟨1000, 12⟩ (some [recordA, recordInvalid])
        none).renderLog
      = stateAfterA.renderLog ++ [⟨1000, some [recordA, recordInvalid], none⟩] ∧
    (throttledUpdateArrivals stateAfterA ⟨1000, 12⟩ (some [recordA]) none).renderLog
      = stateAfterA.renderLog ∧
    [recordA, recordNoDestination].filter isValidArrival = [recordA] ∧
    (updateStoredETAs (some [recordA, recordNoDestination])).1.get "T1" = some (some 100) ∧
    (updateStoredETAs (some [recordA])).1.get "T1" = some (some 200) := by
  have hsigA : hasSignificantETAChange stateAfterA.lastETAValues stateAfterA.lastTrainPositions
      (some [recordA]) = false := by
    rw [stateAfterA_justRendered.2.1, stateAfterA_justRendered.2.2.1]
    apply hasSignificantETAChange_closeFollowUp [recordA] [recordA] (by simp)
    intro b hb
    simp only [List.mem_singleton] at hb
    subst hb
    refine ⟨rfl, ⟨recordA, by simp, rfl⟩, ?_⟩
    intro a ha _
    simp only [List.mem_singleton] at ha
    subst ha
    exact ⟨200, 200, rfl, rfl, by norm_num⟩
  have hrecent : (⟨1000, 12⟩ : Clock).now - stateAfterA.lastArrivalUpdate < 15000 := by
    rw [stateAfterA_lastArrivalUpdate]
    decide
  have hsig2 : RendersNow stateAfterA ⟨1000, 12⟩ (some [recordA, recordInvalid]) := by
    left
    rw [hasSignificantETAChange_of_ne_nil _ _ _ (List.cons_ne_nil _ _)]
    refine ⟨recordInvalid, by simp, ?_⟩
    rw [stateAfterA_lastETAValues]
    decide
  refine ⟨by simp [isValidArrival_recordA, isValidArrival_recordInvalid], ?_, ?_,
    by simp [isValidArrival_recordA, isValidArrival_recordNoDestination], by decide, by decide⟩
  · rw [throttledUpdateArrivals_of_rendersNow _ _ _ _ hsig2]
    exact (renderNow_spec _ _ _ _).1
  · rw [throttledUpdateArrivals_of_not_rendersNow _ _ _ _
      (not_rendersNow_of_insignificant _ _ _ hsigA hrecent)]
    exact (deferUpdate_spec _ _ _ _).1

/-! ### Held and at-platform rows -/

/-- C9. A valid record whose train has an override entry with `isHeld` true
is rendered as a row with ETA text "HELD" and status label "Signal Hold",
whatever its raw ETA, its status, the caution flag of the entry, the stored
ETAs and the time. -/
theorem held_row_shows_HELD (st : State) (clock : Clock) (l : List Arrival)
    (servicePeriod : Option String) (a : Arrival) (held : HeldEntry) (ha : a ∈ l)
    (hv : isValidArrival a = true)
    (hentry : st.heldTrainStatus.get (propKey a.trainId) = some held)
    (hheld : held.isHeld = true) :
    ∃ trainId typeIcon,
      (∀ etas t now, renderRow st.heldTrainStatus etas t now a =
        DomRow.arrival trainId (propKey a.destination) typeIcon "eta-held" "HELD"
          "Signal Hold") ∧
      DomRow.arrival trainId (propKey a.destination) typeIcon "eta-held" "HELD" "Signal Hold" ∈
        (updateArrivalsDOM st clock (some l) servicePeriod).arrivalsList := by
  have hrow : rowIsHeld st.heldTrainStatus a = true := by
    simp [rowIsHeld, hentry, hheld]
  have hall : ∀ etas t now, renderRow st.heldTrainStatus etas t now a =
      DomRow.arrival (if truthy a.trainId then propKey a.trainId else "")
        (propKey a.destination) (if a.type = some "freight" then "(Freight)" else "")
        "eta-held" "HELD" "Signal Hold" := by
    intro etas t now
    unfold renderRow
    simp only [hrow, Bool.true_or, if_true]
  refine ⟨_, _, hall, ?_⟩
  rw [← hall st.lastETAValues clock.now clock.now]
  exact mem_arrivalsList_of_valid st clock l servicePeriod a ha hv

theorem isValidArrival_recordBoarding : isValidArrival recordBoarding = true := by
  rw [isValidArrival_iff]
  exact ⟨⟨340, rfl, by norm_num, by norm_num⟩, "Downtown", rfl, by decide⟩

/-- Witness for C9: train T1 is held; its record, boarding with a raw ETA of
340 s, is rendered with "HELD" and "Signal Hold". -/
theorem held_row_shows_HELD_witness :
    recordBoarding ∈ [recordBoarding] ∧
    isValidArrival recordBoarding = true ∧
    stateHeld.heldTrainStatus.get (propKey recordBoarding.trainId)
      = some ⟨true, false, "Signal hold", some "S1", 1000⟩ ∧
    ∃ trainId typeIcon,
      (∀ etas t now, renderRow stateHeld.heldTrainStatus etas t now recordBoarding =
        DomRow.arrival trainId (propKey recordBoarding.destination) typeIcon "eta-held" "HELD"
          "Signal Hold") ∧
      DomRow.arrival trainId (propKey recordBoarding.destination) typeIcon "eta-held" "HELD"
          "Signal Hold" ∈
        (updateArrivalsDOM stateHeld ⟨2000, 12⟩ (some [recordBoarding]) none).arrivalsList :=
  ⟨List.mem_singleton.mpr rfl, isValidArrival_recordBoarding, by decide,
    held_row_shows_HELD stateHeld ⟨2000, 12⟩ [recordBoarding] none recordBoarding
      ⟨true, false, "Signal hold", some "S1", 1000⟩ (List.mem_singleton.mpr rfl)
      isValidArrival_recordBoarding (by decide) rfl⟩

/-- C10 (amended). A valid record whose status, lower-cased, is "boarding",
"approaching" or "departing" is rendered with ETA text "NOW" for every raw
ETA, every stored ETA and every time, in every override state of its train
other than a hard hold (no entry, or an entry whose `isHeld` is false); under
a hard hold its ETA text is "HELD". -/
theorem atStation_row_shows_NOW (st : State) (clock : Clock) (l : List Arrival)
    (servicePeriod : Option String) (a : Arrival) (status : String) (ha : a ∈ l)
    (hv : isValidArrival a = true) (hstatus : a.status = some status)
    (hplatform : toLowerCase status = "boarding" ∨ toLowerCase status = "approaching" ∨
      toLowerCase status = "departing") :
    ((∀ held, st.heldTrainStatus.get (propKey a.trainId) = some held → held.isHeld = false) →
      (∀ etas t now, (renderRow st.heldTrainStatus etas t now a).etaText = some "NOW") ∧
      ∃ row ∈ (updateArrivalsDOM st clock (some l) servicePeriod).arrivalsList,
        row = renderRow st.heldTrainStatus st.lastETAValues clock.now clock.now a ∧
        row.etaText = some "NOW") ∧
    (∀ held, st.heldTrainStatus.get (propKey a.trainId) = some held → held.isHeld = true →
      ∀ etas t now, (renderRow st.heldTrainStatus etas t now a).etaText = some "HELD") := by
  have hat : isAtStation a = true := (isAtStation_iff a).mpr ⟨status, hstatus, hplatform⟩
  constructor
  · intro hnohold
    have hh : rowIsHeld st.heldTrainStatus a = false := by
      unfold rowIsHeld
      cases hg : st.heldTrainStatus.get (propKey a.trainId) with
      | none => rfl
      | some held => exact hnohold held hg
    have hall : ∀ etas t now,
        (renderRow st.heldTrainStatus etas t now a).etaText = some "NOW" :=
      fun etas t now => renderRow_atStation st.heldTrainStatus etas t now a hat hh
    exact ⟨hall, _, mem_arrivalsList_of_valid st clock l servicePeriod a ha hv, rfl, hall _ _ _⟩
  · intro held hg hheld etas t now
    have hh : rowIsHeld st.heldTrainStatus a = true := by
      simp [rowIsHeld, hg, hheld]
    obtain ⟨trainId, typeIcon, hrow⟩ := renderRow_held st.heldTrainStatus etas t now a hh
    rw [hrow]
    rfl

/-- Witness for C10: train T1 boarding with a raw ETA of 340 s and no override
entry displays "NOW". -/
theorem atStation_row_shows_NOW_witness :
    recordBoarding ∈ [recordBoarding] ∧
    isValidArrival recordBoarding = true ∧
    toLowerCase "Boarding" = "boarding" ∧
    (∀ etas t now,
      (renderRow initialState.heldTrainStatus etas t now recordBoarding).etaText = some "NOW") :=
  ⟨List.mem_singleton.mpr rfl, isValidArrival_recordBoarding, by decide,
    ((atStation_row_shows_NOW initialState ⟨0, 12⟩ [recordBoarding] none recordBoarding
      "Boarding" (List.mem_singleton.mpr rfl) isValidArrival_recordBoarding rfl
      (Or.inl (by decide))).1 (fun held h => by simp [initialState, JsMap.get] at h)).1⟩

/-- C10 as stated fails: train T1 is boarding and valid, but a hard hold on it
makes its row display "HELD". -/
theorem boarding_held_shows_HELD :
    isValidArrival recordBoarding = true ∧
    isAtStation recordBoarding = true ∧
    (updateArrivalsDOM stateHeld ⟨2000, 12⟩ (some [recordBoarding]) none).arrivalsList
      = [DomRow.arrival "T1" "Downtown" "" "eta-held" "HELD" "Signal Hold"] := by
  refine ⟨isValidArrival_recordBoarding, by decide, ?_⟩
  have hrows := (updateArrivalsDOM_arrivalsList stateHeld ⟨2000, 12⟩ [recordBoarding] none
    (by simp)).1 (by simp [isValidArrival_recordBoarding])
  rw [hrows]
  have h1 : rowIsHeld stateHeld.heldTrainStatus recordBoarding = true := by decide
  simp [isValidArrival_recordBoarding, renderRow, h1]
  simp [recordBoarding, truthy, propKey]

/-! ### ETA formatting and projection -/

theorem isStuck_false_of_same_instant (etas : JsMap (Option ℚ)) (t now : Int) (a : Arrival)
    (h : now - t ≤ 30000) : isStuckBetweenStations etas t now a = false := by
  have h2 : ¬ (now - t > 30000) := by omega
  simp [isStuckBetweenStations, h2]

theorem renderRow_plain (held : JsMap HeldEntry) (etas : JsMap (Option ℚ)) (t now : Int)
    (a : Arrival) (hh : rowIsHeld held a = false)
    (hs : isStuckBetweenStations etas t now a = false) (hat : isAtStation a = false)
    (hc : rowIsCaution held a = false) :
    (renderRow held etas t now a).etaText = some (formatETA a.eta) := by
  unfold renderRow
  simp [hh, hs, hat, hc, DomRow.etaText]

theorem renderRow_caution (held : JsMap HeldEntry) (etas : JsMap (Option ℚ)) (t now : Int)
    (a : Arrival) (hh : rowIsHeld held a = false)
    (hs : isStuckBetweenStations etas t now a = false) (hat : isAtStation a = false)
    (hc : rowIsCaution held a = true) :
    (renderRow held etas t now a).etaText
      = some (formatETA (getAdjustedETA held now a.trainId a.eta)) := by
  unfold renderRow
  simp [hh, hs, hat, hc, DomRow.etaText]

theorem floor_200_div_60 : ⌊(200 : ℚ) / 60⌋ = 3 := by
  rw [Int.floor_eq_iff]
  norm_num

theorem formatETA_185 : formatETA (some 185) = "3 min" := by
  simp only [formatETA, floor_185_div_60]
  norm_num
  decide

theorem formatETA_200 : formatETA (some 200) = "3 min" := by
  simp only [formatETA, floor_200_div_60]
  norm_num
  decide

/-- C11. `formatETA` returns "NOW" below 60, "1 min" from 60 to below 120, and
otherwise the decimal numeral of `floor(seconds / 60)` followed by " min" (185
gives "3 min"); a valid record that is not held, not inferred stuck, not at
the platform and not caution-overridden displays `formatETA` of its raw ETA,
both as a row by itself and in the list `updateArrivalsDOM` builds. -/
theorem formatETA_spec (seconds : ℚ) (st : State) (clock : Clock) (l : List Arrival)
    (servicePeriod : Option String) (etas : JsMap (Option ℚ)) (t now : Int) (a : Arrival) :
    (seconds < 60 → formatETA (some seconds) = "NOW") ∧
    (60 ≤ seconds → seconds < 120 → formatETA (some seconds) = "1 min") ∧
    (120 ≤ seconds → formatETA (some seconds) = toString ⌊seconds / 60⌋ ++ " min") ∧
    formatETA (some 185) = "3 min" ∧
    (isValidArrival a = true → rowIsHeld st.heldTrainStatus a = false →
      isStuckBetweenStations etas t now a = false → isAtStation a = false →
      rowIsCaution st.heldTrainStatus a = false →
      (renderRow st.heldTrainStatus etas t now a).etaText = some (formatETA a.eta)) ∧
    (a ∈ l → isValidArrival a = true → rowIsHeld st.heldTrainStatus a = false →
      isAtStation a = false → rowIsCaution st.heldTrainStatus a = false →
      ∃ row ∈ (updateArrivalsDOM st clock (some l) servicePeriod).arrivalsList,
        row = renderRow st.heldTrainStatus st.lastETAValues clock.now clock.now a ∧
        row.etaText = some (formatETA a.eta)) := by
  refine ⟨?_, ?_, ?_, formatETA_185, ?_, ?_⟩
  · intro h
    simp [formatETA, h]
  · intro h1 h2
    have h3 : ¬ seconds < 60 := not_lt.mpr h1
    simp [formatETA, h3, h2]
  · intro h
    have h1 : ¬ seconds < 60 := by
      intro h2
      linarith
    have h2 : ¬ seconds < 120 := not_lt.mpr h
    simp [formatETA, h1, h2]
  · intro _ hh hs hat hc
    exact renderRow_plain st.heldTrainStatus etas t now a hh hs hat hc
  · intro ha hv hh hat hc
    have hs := isStuck_false_of_same_instant st.lastETAValues clock.now clock.now a (by omega)
    exact ⟨_, mem_arrivalsList_of_valid st clock l servicePeriod a ha hv, rfl,
      renderRow_plain st.heldTrainStatus st.lastETAValues clock.now clock.now a hh hs hat hc⟩

/-- Witness for C11: record B (185 s, no override, no status) is valid and
displays "3 min". -/
theorem formatETA_spec_witness :
    (120 : ℚ) ≤ 185 ∧
    formatETA (some 185) = toString ⌊(185 : ℚ) / 60⌋ ++ " min" ∧
    isValidArrival recordB = true ∧
    (renderRow initialState.heldTrainStatus [] 0 0 recordB).etaText
      = some (formatETA recordB.eta) :=
  ⟨by norm_num,
    (formatETA_spec 185 initialState ⟨0, 12⟩ [recordB] none [] 0 0 recordB).2.2.1 (by norm_num),
    isValidArrival_recordB,
    (formatETA_spec 185 initialState ⟨0, 12⟩ [recordB] none [] 0 0 recordB).2.2.2.2.1
      isValidArrival_recordB rfl (isStuck_false_of_same_instant [] 0 0 recordB (by decide))
      (by decide) rfl⟩

theorem fdiv_1000_eq_floor (x : Int) : ((Int.fdiv x 1000 : Int) : ℚ) = ⌊(x : ℚ) / 1000⌋ := by
  have h := Rat.floor_intCast_div_natCast x 1000
  rw [Int.fdiv_eq_ediv x (by decide : (0 : Int) ≤ 1000)]
  push_cast at h
  rw [h]

/-- C12. `getAdjustedETA` returns the raw ETA when the train has no override
entry, the raw ETA plus `floor((now - heldSince) / 1000)` when the entry has
`isHeld` (whatever its caution flag), and `floor(rawETA * 1.7)` when the entry
has `isCaution` only; a valid record that is caution-overridden, not held, not
at the platform and not inferred stuck displays `formatETA` of
`floor(rawETA * 1.7)`. -/
theorem getAdjustedETA_spec (st : State) (clock : Clock) (l : List Arrival)
    (servicePeriod : Option String) (held : JsMap HeldEntry) (now : Int)
    (trainId : Option String) (rawETA : ℚ) (a : Arrival) :
    (held.get (propKey trainId) = none →
      getAdjustedETA held now trainId (some rawETA) = some rawETA) ∧
    (∀ entry, held.get (propKey trainId) = some entry → entry.isHeld = true →
      getAdjustedETA held now trainId (some rawETA)
        = some (rawETA + ⌊((now - entry.heldSince : Int) : ℚ) / 1000⌋)) ∧
    (∀ entry, held.get (propKey trainId) = some entry → entry.isHeld = false →
      entry.isCaution = true →
      getAdjustedETA held now trainId (some rawETA) = some ((⌊rawETA * (17 / 10)⌋ : Int) : ℚ)) ∧
    (a ∈ l → isValidArrival a = true → a.eta = some rawETA →
      rowIsCaution st.heldTrainStatus a = true → rowIsHeld st.heldTrainStatus a = false →
      isAtStation a = false →
      ∃ row ∈ (updateArrivalsDOM st clock (some l) servicePeriod).arrivalsList,
        row = renderRow st.heldTrainStatus st.lastETAValues clock.now clock.now a ∧
        row.etaText = some (formatETA (some ((⌊rawETA * (17 / 10)⌋ : Int) : ℚ)))) := by
  refine ⟨?_, ?_, ?_, ?_⟩
  · intro h
    simp [getAdjustedETA, h]
  · intro entry h hheld
    simp [getAdjustedETA, h, hheld, fdiv_1000_eq_floor]
  · intro entry h hheld hcaution
    simp [getAdjustedETA, h, hheld, hcaution]
  · intro ha hv heta hc hh hat
    have hs := isStuck_false_of_same_instant st.lastETAValues clock.now clock.now a (by omega)
    refine ⟨_, mem_arrivalsList_of_valid st clock l servicePeriod a ha hv, rfl, ?_⟩
    rw [renderRow_caution st.heldTrainStatus st.lastETAValues clock.now clock.now a hh hs hat hc]
    have hadj : getAdjustedETA st.heldTrainStatus clock.now a.trainId a.eta
        = some ((⌊rawETA * (17 / 10)⌋ : Int) : ℚ) := by
      unfold rowIsCaution at hc
      unfold rowIsHeld at hh
      cases hg : st.heldTrainStatus.get (propKey a.trainId) with
      | none => simp [hg] at hc
      | some entry =>
        simp only [hg] at hc hh
        simp [getAdjustedETA, hg, hh, hc, heta]
    rw [hadj]

/-- Witness for C12: train T1 under caution only, raw ETA 200 s. -/
theorem getAdjustedETA_spec_witness :
    cautionT1.get (propKey (some "T1")) = some ⟨false, true, "Signal hold", some "S1", 1000⟩ ∧
    getAdjustedETA cautionT1 5000 (some "T1") (some 200)
      = some ((⌊(200 : ℚ) * (17 / 10)⌋ : Int) : ℚ) :=
  ⟨by decide,
    (getAdjustedETA_spec initialState ⟨5000, 12⟩ [recordA] none cautionT1 5000 (some "T1") 200
      recordA).2.2.1 ⟨false, true, "Signal hold", some "S1", 1000⟩ (by decide) rfl rfl⟩

/-! ### The frozen-ETA heuristic -/

theorem isStuckBetweenStations_iff (etas : JsMap (Option ℚ)) (t now : Int) (a : Arrival) :
    isStuckBetweenStations etas t now a = true ↔ InferredStuckSpec etas t now a := by
  unfold isStuckBetweenStations InferredStuckSpec
  cases hl : readETA etas (propKey a.trainId) with
  | none => simp
  | some lastETA =>
    cases he : a.eta with
    | none => simp
    | some eta =>
      simp only [numGt, Bool.and_eq_true, decide_eq_true_eq, Bool.not_eq_true',
        Option.some.injEq, exists_and_left, exists_eq_left']
      tauto

theorem formatETA_ne_delayed (x : Option ℚ) : formatETA x ≠ "DELAYED" := by
  have key : ∀ s : String, s ++ " min" ≠ "DELAYED" := by
    intro s h
    have h2 := congrArg (fun x => x.data.getLast?) h
    simp at h2
  unfold formatETA
  cases x with
  | none => decide
  | some s =>
    simp only []
    split_ifs
    · decide
    · decide
    · exact key _

theorem renderRow_not_delayed (held : JsMap HeldEntry) (etas : JsMap (Option ℚ)) (t now : Int)
    (a : Arrival) (hs : isStuckBetweenStations etas t now a = false) :
    (renderRow held etas t now a).etaText ≠ some "DELAYED" := by
  unfold renderRow
  simp only [hs, Bool.or_false]
  split_ifs <;> simp [DomRow.etaText, formatETA_ne_delayed]

theorem updateArrivalsDOM_marks (st : State) (clock : Clock) (arrivals : Snapshot)
    (servicePeriod : Option String) :
    (updateArrivalsDOM st clock arrivals servicePeriod).hasReceivedServerData = true ∧
    (updateArrivalsDOM st clock arrivals servicePeriod).lastDataReceiveTime = clock.now := by
  unfold updateArrivalsDOM
  cases arrivals with
  | none => by_cases hs : truthy servicePeriod = true <;> simp [showEmptyState, markDataReceived, hs]
  | some l =>
    cases l with
    | nil => by_cases hs : truthy servicePeriod = true <;> simp [showEmptyState, markDataReceived, hs]
    | cons a rest =>
      by_cases hs : truthy servicePeriod = true <;>
      by_cases hv : (List.filter isValidArrival (a :: rest)).length = 0 <;>
      simp [showEmptyState, markDataReceived, hs, hv]

theorem updateArrivalsDOM_arrivalsList_empty (st : State) (clock : Clock)
    (arrivals : Snapshot) (servicePeriod : Option String)
    (h : arrivals = none ∨ arrivals = some []) :
    ∃ icon message subMessage,
      (updateArrivalsDOM st clock arrivals servicePeriod).arrivalsList =
        [DomRow.emptyState icon message subMessage] := by
  rcases h with h | h
  · subst h
    unfold updateArrivalsDOM
    apply showEmptyState_arrivalsList
    by_cases hs : truthy servicePeriod = true <;> simp [hs, markDataReceived]
  · subst h
    unfold updateArrivalsDOM
    apply showEmptyState_arrivalsList
    by_cases hs : truthy servicePeriod = true <;> simp [hs, markDataReceived]

theorem noDelayedRow_updateArrivalsDOM (st : State) (clock : Clock) (arrivals : Snapshot)
    (servicePeriod : Option String) :
    NoDelayedRow (updateArrivalsDOM st clock arrivals servicePeriod) := by
  have hempty : ∀ icon message subMessage (s : State),
      s.arrivalsList = [DomRow.emptyState icon message subMessage] → NoDelayedRow s := by
    intro icon message subMessage s hs row hrow
    rw [hs] at hrow
    simp only [List.mem_singleton] at hrow
    subst hrow
    simp [DomRow.etaText]
  cases arrivals with
  | none =>
    obtain ⟨i, m, s, h⟩ := updateArrivalsDOM_arrivalsList_empty st clock none servicePeriod
      (Or.inl rfl)
    exact hempty i m s _ h
  | some l =>
    by_cases hl : l = []
    · subst hl
      obtain ⟨i, m, s, h⟩ := updateArrivalsDOM_arrivalsList_empty st clock (some [])
        servicePeriod (Or.inr rfl)
      exact hempty i m s _ h
    · by_cases hv : l.filter isValidArrival = []
      · obtain ⟨i, m, s, h⟩ := (updateArrivalsDOM_arrivalsList st clock l servicePeriod hl).2 hv
        exact hempty i m s _ h
      · intro row hrow
        rw [(updateArrivalsDOM_arrivalsList st clock l servicePeriod hl).1 hv] at hrow
        obtain ⟨a, _, ha⟩ := List.mem_map.mp hrow
        rw [← ha]
        exact renderRow_not_delayed _ _ _ _ a
          (isStuck_false_of_same_instant _ clock.now clock.now a (by omega))

theorem noDelayedRow_of_arrivalsList_eq (st st2 : State) (h : NoDelayedRow st)
    (heq : st2.arrivalsList = st.arrivalsList) : NoDelayedRow st2 := by
  intro row hrow
  rw [heq] at hrow
  exact h row hrow

theorem noDelayedRow_step (st : State) (e : Event) (h : NoDelayedRow st) :
    NoDelayedRow (step st e) := by
  cases e with
  | updateArrivals clock arrivals =>
    by_cases hr : RendersNow st clock arrivals
    · simp only [step, throttledUpdateArrivals_of_rendersNow st clock arrivals none hr]
      exact noDelayedRow_of_arrivalsList_eq _ _
        (noDelayedRow_updateArrivalsDOM st clock arrivals none)
        (renderNow_spec st clock arrivals none).2.1
    · simp only [step, throttledUpdateArrivals_of_not_rendersNow st clock arrivals none hr]
      exact noDelayedRow_of_arrivalsList_eq _ _ h (deferUpdate_spec st clock arrivals none).2.1
  | timerFired clock id =>
    simp only [step]
    by_cases hq : ∃ t ∈ st.timers, t.id = id
    · cases hp : st.pendingArrivalData with
      | some p =>
        exact noDelayedRow_of_arrivalsList_eq _ _
          (noDelayedRow_updateArrivalsDOM st clock p.arrivals p.servicePeriod)
          (fireTimer_pending st clock id p hq hp).2.1
      | none =>
        rw [fireTimer_not_pending st clock id hq hp]
        exact h
    · rw [fireTimer_of_not_queued st clock id hq]
      exact h

theorem removeInvalidTrain_frame (st : State) (trainId : Option String) :
    (removeInvalidTrain st trainId).heldTrainStatus = st.heldTrainStatus ∧
    (removeInvalidTrain st trainId).arrivalsList = st.arrivalsList := ⟨rfl, rfl⟩

theorem clearStaleLoop_frame (ids : List String) (tracked : List String) (st : State) :
    (clearStaleLoop ids st tracked).heldTrainStatus = st.heldTrainStatus ∧
    (clearStaleLoop ids st tracked).arrivalsList = st.arrivalsList := by
  induction tracked generalizing st with
  | nil => exact ⟨rfl, rfl⟩
  | cons t rest ih =>
    by_cases hmem : t ∈ ids
    · simp only [clearStaleLoop, hmem, if_true]
      exact ih st
    · simp only [clearStaleLoop, hmem, if_false]
      exact ih (removeInvalidTrain st (some t))

theorem clearStaleTrainData_frame (st : State) (validIds : Option (List String)) :
    (clearStaleTrainData st validIds).heldTrainStatus = st.heldTrainStatus ∧
    (clearStaleTrainData st validIds).arrivalsList = st.arrivalsList := by
  cases validIds with
  | none => exact ⟨rfl, rfl⟩
  | some ids => exact clearStaleLoop_frame ids st.validTrainIds st

theorem updateTrainHeldStatus_arrivalsList (st : State) (clock : Clock)
    (trainId : Option String) (isHeld isCaution : Bool) (reason segmentName : Option String) :
    (updateTrainHeldStatus st clock trainId isHeld isCaution reason segmentName).arrivalsList
      = st.arrivalsList := by
  unfold updateTrainHeldStatus
  split_ifs <;> rfl

theorem noDelayedRow_stepInbound (st : State) (e : Inbound) (h : NoDelayedRow st) :
    NoDelayedRow (stepInbound st e) := by
  cases e with
  | coalescer e => exact noDelayedRow_step st e h
  | showSchedule clock station arrivals =>
    exact noDelayedRow_updateArrivalsDOM st clock arrivals none
  | trainHeldStatus clock trainId isHeld isCaution reason segmentName =>
    exact noDelayedRow_of_arrivalsList_eq _ _ h
      (updateTrainHeldStatus_arrivalsList st clock trainId isHeld isCaution reason segmentName)
  | trainRemoved trainId =>
    exact noDelayedRow_of_arrivalsList_eq _ _ h (removeInvalidTrain_frame st trainId).2
  | clearStaleTrains validIds =>
    exact noDelayedRow_of_arrivalsList_eq _ _ h (clearStaleTrainData_frame st validIds).2

theorem noDelayedRow_runInbound (st : State) (events : List Inbound) (h : NoDelayedRow st) :
    NoDelayedRow (runInbound st events) := by
  induction events generalizing st with
  | nil => exact h
  | cons e rest ih => exact ih (stepInbound st e) (noDelayedRow_stepInbound st e h)

theorem stateAfterA_lastDataReceiveTime : stateAfterA.lastDataReceiveTime = 0 := by
  rw [stateAfterA_eq]
  exact (updateArrivalsDOM_marks initialState ⟨0, 12⟩ (some [recordA]) none).2

theorem renderRow_recordA (now : Int) :
    renderRow [] [("T1", some 200)] now now recordA
      = DomRow.arrival "T1" "Downtown" "" "" "3 min" "On Time" := by
  have h1 : rowIsHeld [] recordA = false := rfl
  have h2 : rowIsCaution [] recordA = false := rfl
  have h3 : isAtStation recordA = false := by decide
  have h4 : isStuckBetweenStations [("T1", some 200)] now now recordA = false :=
    isStuck_false_of_same_instant _ now now recordA (by omega)
  have h5 : numLt recordA.eta 60 = false := by
    simp [numLt, recordA]
    norm_num
  have h6 : formatETA recordA.eta = "3 min" := formatETA_200
  simp [renderRow, h1, h2, h3, h4, h5, h6]
  simp [recordA, truthy, propKey]

theorem stateAfterRepeat_arrivalsList :
    stateAfterRepeat.arrivalsList = [DomRow.arrival "T1" "Downtown" "" "" "3 min" "On Time"] := by
  have hr : RendersNow stateAfterA ⟨40000, 12⟩ (some [recordA]) := by
    right
    rw [stateAfterA_lastArrivalUpdate]
    decide
  have heq : stateAfterRepeat = renderNow stateAfterA ⟨40000, 12⟩ (some [recordA]) none :=
    throttledUpdateArrivals_of_rendersNow stateAfterA ⟨40000, 12⟩ (some [recordA]) none hr
  rw [heq, (renderNow_spec stateAfterA ⟨40000, 12⟩ (some [recordA]) none).2.1,
    (updateArrivalsDOM_arrivalsList stateAfterA ⟨40000, 12⟩ [recordA] none (by simp)).1
      (by simp [isValidArrival_recordA]),
    stateAfterA_heldTrainStatus, stateAfterA_lastETAValues]
  simp [isValidArrival_recordA, renderRow_recordA]

/-- C13 fails on the code.  `updateArrivalsDOM` stamps `lastDataReceiveTime`
with the current time before it builds the rows, so the test "more than 30 s
since the last data point" is false at every render: no sequence of inbound
events leaves a row with ETA text "DELAYED".  Train T1, stored at 200 s by the
render at time 0 and delivered again at 200 s at time 40000, meets the
conditions of an inferred stuck train and is not held, yet its row shows
"3 min". -/
theorem stuck_train_not_delayed :
    (∀ events : List Inbound, NoDelayedRow (runInbound initialState events)) ∧
    (∀ held etas t now a, now - t ≤ 30000 →
      (renderRow held etas t now a).etaText ≠ some "DELAYED") ∧
    InferredStuckSpec stateAfterA.lastETAValues stateAfterA.lastDataReceiveTime 40000
      recordA ∧
    isStuckBetweenStations stateAfterA.lastETAValues stateAfterA.lastDataReceiveTime 40000
      recordA = true ∧
    rowIsHeld stateAfterA.heldTrainStatus recordA = false ∧
    stateAfterRepeat.arrivalsList
      = [DomRow.arrival "T1" "Downtown" "" "" "3 min" "On Time"] := by
  have hspec : InferredStuckSpec stateAfterA.lastETAValues stateAfterA.lastDataReceiveTime
      40000 recordA := by
    rw [stateAfterA_lastETAValues, stateAfterA_lastDataReceiveTime]
    refine ⟨⟨200, 200, by decide, rfl, by norm_num, by norm_num⟩, by decide, by decide⟩
  refine ⟨?_, ?_, hspec, (isStuckBetweenStations_iff _ _ _ _).mpr hspec, ?_,
    stateAfterRepeat_arrivalsList⟩
  · intro events
    apply noDelayedRow_runInbound
    intro row hrow
    simp [initialState] at hrow
  · intro held etas t now a h
    exact renderRow_not_delayed held etas t now a (isStuck_false_of_same_instant etas t now a h)
  · rw [stateAfterA_heldTrainStatus]
    rfl

/-! ### The held/caution tracker -/

theorem JsMap.get_delete {V : Type} (m : JsMap V) (k k2 : String) :
    (m.delete k).get k2 = if k = k2 then none else m.get k2 := by
  induction m with
  | nil => simp [JsMap.delete, JsMap.get]
  | cons p rest ih =>
    obtain ⟨k1, v1⟩ := p
    simp only [JsMap.delete] at ih ⊢
    by_cases h1 : k1 = k
    · subst h1
      by_cases h2 : k1 = k2
      · simp [List.filter, JsMap.get, h2] at ih ⊢
        simpa [h2] using ih
      · simp [List.filter, JsMap.get, h2] at ih ⊢
        simpa [h2] using ih
    · by_cases h2 : k1 = k2
      · subst h2
        have h3 : ¬ k = k1 := fun h => h1 h.symm
        simp [List.filter, JsMap.get, h1, h3]
      · simp [List.filter, JsMap.get, h1, h2] at ih ⊢
        exact ih

theorem JsMap.delete_of_get_none {V : Type} (m : JsMap V) (k : String)
    (h : m.get k = none) : m.delete k = m := by
  induction m with
  | nil => rfl
  | cons p rest ih =>
    obtain ⟨k1, v1⟩ := p
    by_cases h1 : k1 = k
    · simp [JsMap.get, h1] at h
    · simp only [JsMap.get, h1, if_false] at h
      have := ih h
      simp only [JsMap.delete] at this ⊢
      rw [List.filter_cons, this]
      simp [h1]

theorem updateTrainHeldStatus_set (st : State) (clock : Clock) (trainId : Option String)
    (isHeld isCaution : Bool) (reason segmentName : Option String)
    (hflag : (isHeld || isCaution) = true) :
    (updateTrainHeldStatus st clock trainId isHeld isCaution reason segmentName).heldTrainStatus
      = st.heldTrainStatus.set (propKey trainId)
          ⟨isHeld, isCaution, if truthy reason then propKey reason else "Signal hold",
            segmentName,
            match st.heldTrainStatus.get (propKey trainId) with
            | some previous => if previous.heldSince ≠ 0 then previous.heldSince else clock.now
            | none => clock.now⟩ := by
  unfold updateTrainHeldStatus
  simp only [hflag, if_true]

theorem updateTrainHeldStatus_clear (st : State) (clock : Clock) (trainId : Option String)
    (reason segmentName : Option String) :
    (updateTrainHeldStatus st clock trainId false false reason segmentName).heldTrainStatus
      = st.heldTrainStatus.delete (propKey trainId) := by
  unfold updateTrainHeldStatus
  simp

/-- C16. After `updateTrainHeldStatus` the map has an entry for the train
exactly when `isHeld` or `isCaution` is true: a clearing event deletes the
entry and leaves the map as it was when the train had none, and the entries
of all other keys are unchanged in every case. -/
theorem updateTrainHeldStatus_entry (st : State) (clock : Clock) (trainId : Option String)
    (isHeld isCaution : Bool) (reason segmentName : Option String) :
    (((updateTrainHeldStatus st clock trainId isHeld isCaution reason
        segmentName).heldTrainStatus.get (propKey trainId)).isSome = true ↔
      (isHeld = true ∨ isCaution = true)) ∧
    (isHeld = false → isCaution = false →
      (updateTrainHeldStatus st clock trainId isHeld isCaution reason
        segmentName).heldTrainStatus.get (propKey trainId) = none ∧
      (st.heldTrainStatus.get (propKey trainId) = none →
        (updateTrainHeldStatus st clock trainId isHeld isCaution reason
          segmentName).heldTrainStatus = st.heldTrainStatus)) ∧
    (∀ k, k ≠ propKey trainId →
      (updateTrainHeldStatus st clock trainId isHeld isCaution reason
        segmentName).heldTrainStatus.get k = st.heldTrainStatus.get k) := by
  by_cases hflag : (isHeld || isCaution) = true
  · have hor : isHeld = true ∨ isCaution = true := by simpa using hflag
    rw [updateTrainHeldStatus_set st clock trainId isHeld isCaution reason segmentName hflag]
    refine ⟨?_, ?_, ?_⟩
    · simp [JsMap.get_set, hor]
    · intro h1 h2
      rw [h1, h2] at hflag
      exact absurd hflag (by decide)
    · intro k hk
      have hk2 : ¬ propKey trainId = k := fun h => hk h.symm
      simp [JsMap.get_set, hk2]
  · have h1 : isHeld = false := by
      cases isHeld <;> simp at hflag ⊢
    have h2 : isCaution = false := by
      cases isCaution <;> simp [h1] at hflag ⊢
    subst h1
    subst h2
    rw [updateTrainHeldStatus_clear]
    refine ⟨?_, ?_, ?_⟩
    · simp [JsMap.get_delete]
    · intro _ _
      exact ⟨by simp [JsMap.get_delete], JsMap.delete_of_get_none _ _⟩
    · intro k hk
      have hk2 : ¬ propKey trainId = k := fun h => hk h.symm
      simp [JsMap.get_delete, hk2]

/-- Witness for C16: clearing the hold of T1 removes its entry. -/
theorem updateTrainHeldStatus_entry_witness :
    (updateTrainHeldStatus stateHoldSet ⟨61000, 12⟩ (some "T1") false false none
      none).heldTrainStatus.get (propKey (some "T1")) = none :=
  ((updateTrainHeldStatus_entry stateHoldSet ⟨61000, 12⟩ (some "T1") false false none none).2.1
    rfl rfl).1

theorem updateTrainHeldStatus_get_set (st : State) (clock : Clock) (trainId : Option String)
    (isHeld isCaution : Bool) (reason segmentName : Option String)
    (hflag : (isHeld || isCaution) = true) :
    (updateTrainHeldStatus st clock trainId isHeld isCaution reason
        segmentName).heldTrainStatus.get (propKey trainId)
      = some ⟨isHeld, isCaution, if truthy reason then propKey reason else "Signal hold",
          segmentName,
          match st.heldTrainStatus.get (propKey trainId) with
          | some previous => if previous.heldSince ≠ 0 then previous.heldSince else clock.now
          | none => clock.now⟩ := by
  rw [updateTrainHeldStatus_set st clock trainId isHeld isCaution reason segmentName hflag]
  simp [JsMap.get_set]

theorem applyHeldEvents_append (st : State) (trainId : Option String)
    (l1 l2 : List HeldEvent) :
    applyHeldEvents st trainId (l1 ++ l2)
      = applyHeldEvents (applyHeldEvents st trainId l1) trainId l2 := by
  simp [applyHeldEvents, List.foldl_append]

theorem applyHeldEvents_keeps_heldSince (trainId : Option String) (events : List HeldEvent)
    (e : HeldEvent) (st : State) (previous : HeldEntry)
    (hprev : st.heldTrainStatus.get (propKey trainId) = some previous)
    (hne : previous.heldSince ≠ 0)
    (hflags : ∀ x ∈ events, (x.isHeld || x.isCaution) = true)
    (hflag : (e.isHeld || e.isCaution) = true) :
    (applyHeldEvents st trainId (events ++ [e])).heldTrainStatus.get (propKey trainId)
      = some ⟨e.isHeld, e.isCaution,
          if truthy e.reason then propKey e.reason else "Signal hold", e.segmentName,
          previous.heldSince⟩ := by
  induction events generalizing st previous with
  | nil =>
    simp only [List.nil_append, applyHeldEvents, List.foldl_cons, List.foldl_nil]
    rw [updateTrainHeldStatus_get_set st e.clock trainId e.isHeld e.isCaution e.reason
      e.segmentName hflag, hprev]
    simp [hne]
  | cons x rest ih =>
    have hx : (x.isHeld || x.isCaution) = true := hflags x (by simp)
    have hstep := updateTrainHeldStatus_get_set st x.clock trainId x.isHeld x.isCaution
      x.reason x.segmentName hx
    rw [hprev] at hstep
    simp only [hne, ne_eq, not_false_eq_true, if_true] at hstep
    have := ih (updateTrainHeldStatus st x.clock trainId x.isHeld x.isCaution x.reason
      x.segmentName) _ hstep hne (fun y hy => hflags y (by simp [hy]))
    simpa [applyHeldEvents] using this

/-- C15 (amended). For a train with no override entry and a sequence of
`trainHeldStatus` events that each have `isHeld` or `isCaution` true, the first
at a positive time, the entry after each event has the `heldSince` of the
first event, and the `isHeld`, `isCaution` and `segmentName` of that latest
event; its reason is that of the latest event when the event carries a
non-empty one, and "Signal hold" otherwise. -/
theorem heldSince_preserved (st : State) (trainId : Option String) (first : HeldEvent)
    (rest : List HeldEvent)
    (hnone : st.heldTrainStatus.get (propKey trainId) = none)
    (hflags : ∀ x ∈ first :: rest, (x.isHeld || x.isCaution) = true)
    (hpos : 0 < first.clock.now) :
    ∀ before e after, first :: rest = before ++ e :: after →
      (applyHeldEvents st trainId (before ++ [e])).heldTrainStatus.get (propKey trainId)
        = some ⟨e.isHeld, e.isCaution,
            if truthy e.reason then propKey e.reason else "Signal hold", e.segmentName,
            first.clock.now⟩ := by
  intro before e after hsplit
  have hfirst : (first.isHeld || first.isCaution) = true := hflags first (by simp)
  have hstep := updateTrainHeldStatus_get_set st first.clock trainId first.isHeld
    first.isCaution first.reason first.segmentName hfirst
  rw [hnone] at hstep
  simp only at hstep
  cases before with
  | nil =>
    simp only [List.nil_append, List.cons.injEq] at hsplit
    obtain ⟨he, _⟩ := hsplit
    subst he
    simpa [applyHeldEvents] using hstep
  | cons b before2 =>
    simp only [List.cons_append, List.cons.injEq] at hsplit
    obtain ⟨hb, hrest⟩ := hsplit
    subst hb
    have hmem : ∀ x ∈ before2 ++ e :: after, (x.isHeld || x.isCaution) = true := by
      intro x hx
      apply hflags
      rw [hrest]
      exact List.mem_cons_of_mem _ hx
    have hne : (⟨first.isHeld, first.isCaution,
        if truthy first.reason then propKey first.reason else "Signal hold",
        first.segmentName, first.clock.now⟩ : HeldEntry).heldSince ≠ 0 := by
      simp only [ne_eq]
      omega
    have := applyHeldEvents_keeps_heldSince trainId before2 e
      (updateTrainHeldStatus st first.clock trainId first.isHeld first.isCaution first.reason
        first.segmentName) _ hstep hne (fun x hx => hmem x (by simp [hx])) (hmem e (by simp))
    simpa [applyHeldEvents] using this

/-- Witness for C15: a hold on T1 at time 1000 followed by a caution at time
5000 keeps `heldSince` at 1000. -/
theorem heldSince_preserved_witness :
    initialState.heldTrainStatus.get (propKey (some "T1")) = none ∧
    (0 : Int) < 1000 ∧
    (applyHeldEvents initialState (some "T1")
        ([⟨⟨1000, 12⟩, true, false, some "Red signal", some "S1"⟩] ++
          [⟨⟨5000, 12⟩, false, true, some "Caution", some "S2"⟩])).heldTrainStatus.get
        (propKey (some "T1"))
      = some ⟨false, true, "Caution", some "S2", 1000⟩ :=
  ⟨rfl, by decide,
    heldSince_preserved initialState (some "T1")
      ⟨⟨1000, 12⟩, true, false, some "Red signal", some "S1"⟩
      [⟨⟨5000, 12⟩, false, true, some "Caution", some "S2"⟩] rfl
      (by decide) (by decide)
      [⟨⟨1000, 12⟩, true, false, some "Red signal", some "S1"⟩]
      ⟨⟨5000, 12⟩, false, true, some "Caution", some "S2"⟩ [] rfl⟩

/-- C15 as stated fails: an event that carries no reason, or an empty one,
leaves the entry with the reason "Signal hold", which is not the reason of the
event. -/
theorem missing_reason_defaulted :
    (applyHeldEvents initialState (some "T1")
        [⟨⟨1000, 12⟩, true, false, none, some "S1"⟩]).heldTrainStatus.get "T1"
      = some ⟨true, false, "Signal hold", some "S1", 1000⟩ ∧
    (applyHeldEvents initialState (some "T1")
        [⟨⟨1000, 12⟩, true, false, some "", some "S1"⟩]).heldTrainStatus.get "T1"
      = some ⟨true, false, "Signal hold", some "S1", 1000⟩ ∧
    some "Signal hold" ≠ (none : Option String) ∧
    some "Signal hold" ≠ some "" := by
  refine ⟨by decide, by decide, by decide, by decide⟩

/-! ### The projected ETA of a held train -/

theorem floor_div_1000_mono (x y : Int) (h : x ≤ y) :
    (⌊(x : ℚ) / 1000⌋ : Int) ≤ ⌊(y : ℚ) / 1000⌋ := by
  apply Int.floor_le_floor
  have : (x : ℚ) ≤ (y : ℚ) := by exact_mod_cast h
  apply div_le_div_of_nonneg_right this
  norm_num

theorem rowFlags_of_no_entry (held : JsMap HeldEntry) (a : Arrival)
    (h : held.get (propKey a.trainId) = none) :
    rowIsHeld held a = false ∧ rowIsCaution held a = false := by
  simp [rowIsHeld, rowIsCaution, h]

/-- C14 (amended). While a train is held its projected ETA is the raw ETA plus
`floor((now - heldSince) / 1000)`, which never decreases as time passes.  Once
the hold is cleared (`trainHeldStatus` with both flags false) the entry is
gone: the projected ETA of a record with raw ETA `e` is `e` itself, and a
record of the train that is not at the platform displays `formatETA` of
`e`. -/
theorem held_projection (st : State) (clock : Clock) (trainId : Option String) (e : ℚ)
    (now1 now2 now : Int) (reason segmentName : Option String) (etas : JsMap (Option ℚ))
    (a : Arrival) :
    (∀ entry, st.heldTrainStatus.get (propKey trainId) = some entry → entry.isHeld = true →
      now1 ≤ now2 →
      getAdjustedETA st.heldTrainStatus now1 trainId (some e)
        = some (e + ⌊((now1 - entry.heldSince : Int) : ℚ) / 1000⌋) ∧
      getAdjustedETA st.heldTrainStatus now2 trainId (some e)
        = some (e + ⌊((now2 - entry.heldSince : Int) : ℚ) / 1000⌋) ∧
      e + ⌊((now1 - entry.heldSince : Int) : ℚ) / 1000⌋
        ≤ e + ⌊((now2 - entry.heldSince : Int) : ℚ) / 1000⌋) ∧
    getAdjustedETA
        (updateTrainHeldStatus st clock trainId false false reason segmentName).heldTrainStatus
        now trainId (some e) = some e ∧
    (a.trainId = trainId → a.eta = some e → isAtStation a = false →
      (renderRow
        (updateTrainHeldStatus st clock trainId false false reason segmentName).heldTrainStatus
        etas now now a).etaText = some (formatETA (some e))) := by
  have hclear : (updateTrainHeldStatus st clock trainId false false reason
      segmentName).heldTrainStatus.get (propKey trainId) = none := by
    rw [updateTrainHeldStatus_clear]
    simp [JsMap.get_delete]
  refine ⟨?_, ?_, ?_⟩
  · intro entry hget hheld hle
    refine ⟨by simp [getAdjustedETA, hget, hheld, fdiv_1000_eq_floor],
      by simp [getAdjustedETA, hget, hheld, fdiv_1000_eq_floor], ?_⟩
    have hm := floor_div_1000_mono (now1 - entry.heldSince) (now2 - entry.heldSince) (by omega)
    have hq : ((⌊((now1 - entry.heldSince : Int) : ℚ) / 1000⌋ : Int) : ℚ)
        ≤ ((⌊((now2 - entry.heldSince : Int) : ℚ) / 1000⌋ : Int) : ℚ) := by
      exact_mod_cast hm
    linarith
  · simp [getAdjustedETA, hclear]
  · intro htid heta hat
    subst htid
    obtain ⟨hh, hc⟩ := rowFlags_of_no_entry _ a hclear
    rw [renderRow_plain _ etas now now a hh
      (isStuck_false_of_same_instant etas now now a (by omega)) hat hc, heta]

theorem stateHoldSet_heldTrainStatus : stateHoldSet.heldTrainStatus = holdT1 := rfl

theorem stateHoldCleared_heldTrainStatus : stateHoldCleared.heldTrainStatus = [] := rfl

/-- Witness for C14: T1 held since time 1000 projects 200 + 4 at time 5000 and
200 + 60 at time 61000. -/
theorem held_projection_witness :
    stateHoldSet.heldTrainStatus.get (propKey (some "T1"))
      = some ⟨true, false, "Signal hold", some "S1", 1000⟩ ∧
    (5000 : Int) ≤ 61000 ∧
    (200 : ℚ) + ⌊(((5000 : Int) - 1000 : Int) : ℚ) / 1000⌋
      ≤ 200 + ⌊(((61000 : Int) - 1000 : Int) : ℚ) / 1000⌋ :=
  ⟨by decide, by decide,
    ((held_projection stateHoldSet ⟨61000, 12⟩ (some "T1") 200 5000 61000 61000 none none []
      recordA).1 ⟨true, false, "Signal hold", some "S1", 1000⟩ (by decide) rfl
      (by decide)).2.2⟩

theorem floor_60000_div_1000 : ⌊(((61000 : Int) - 1000 : Int) : ℚ) / 1000⌋ = 60 := by
  rw [Int.floor_eq_iff]
  norm_num

theorem floor_260_div_60 : ⌊(260 : ℚ) / 60⌋ = 4 := by
  rw [Int.floor_eq_iff]
  norm_num

theorem formatETA_260 : formatETA (some 260) = "4 min" := by
  simp only [formatETA, floor_260_div_60]
  norm_num
  decide

/-- C14 as stated fails: T1 is held from time 1000 and cleared at time 61000.
At the clearing its projection is 200 + 60 s, but after it the projection of a
record with raw ETA 200 is 200, and the row shows "3 min", not the "4 min" of
260 s. -/
theorem cleared_hold_forgets_seconds_held :
    getAdjustedETA stateHoldSet.heldTrainStatus 61000 (some "T1") (some 200)
      = some (200 + 60) ∧
    getAdjustedETA stateHoldCleared.heldTrainStatus 61000 (some "T1") (some 200)
      = some 200 ∧
    (200 : ℚ) ≠ 200 + 60 ∧
    (updateArrivalsDOM stateHoldCleared ⟨61000, 12⟩ (some [recordA]) none).arrivalsList
      = [DomRow.arrival "T1" "Downtown" "" "" "3 min" "On Time"] ∧
    formatETA (some (200 + 60)) = "4 min" := by
  refine ⟨?_, ?_, by norm_num, ?_, ?_⟩
  · rw [stateHoldSet_heldTrainStatus]
    have hget : holdT1.get (propKey (some "T1"))
        = some ⟨true, false, "Signal hold", some "S1", 1000⟩ := by decide
    simp only [getAdjustedETA, hget, if_true, Option.map_some', fdiv_1000_eq_floor,
      floor_60000_div_1000]
    norm_num
  · rw [stateHoldCleared_heldTrainStatus]
    rfl
  · rw [(updateArrivalsDOM_arrivalsList stateHoldCleared ⟨61000, 12⟩ [recordA] none
      (by simp)).1 (by simp [isValidArrival_recordA]), stateHoldCleared_heldTrainStatus]
    have hetas : stateHoldCleared.lastETAValues = [] := rfl
    have hrow : renderRow [] [] 61000 61000 recordA
        = DomRow.arrival "T1" "Downtown" "" "" "3 min" "On Time" := by
      have h1 : rowIsHeld [] recordA = false := rfl
      have h2 : rowIsCaution [] recordA = false := rfl
      have h3 : isAtStation recordA = false := by decide
      have h4 : isStuckBetweenStations [] 61000 61000 recordA = false :=
        isStuck_false_of_same_instant _ 61000 61000 recordA (by decide)
      have h5 : numLt recordA.eta 60 = false := by
        simp [numLt, recordA]
        norm_num
      have h6 : formatETA recordA.eta = "3 min" := formatETA_200
      simp [renderRow, h1, h2, h3, h4, h5, h6]
      simp [recordA, truthy, propKey]
    simp [isValidArrival_recordA, hetas, hrow]
  · have : ((200 : ℚ) + 60) = 260 := by norm_num
    rw [this]
    exact formatETA_260

/-! ### Removal of a train -/

theorem stateHoldSet_eq_stateHeld : stateHoldSet = stateHeld := rfl

theorem removalEvents_heldTrainStatus :
    (runInbound initialState removalEvents).heldTrainStatus = holdT1 ∧
    (runInbound initialState removalEvents).lastArrivalUpdate = 2000 ∧
    (runInbound initialState staleEvents).heldTrainStatus = holdT1 ∧
    (runInbound initialState staleEvents).lastArrivalUpdate = 2000 := by
  have hr : RendersNow stateHoldSet ⟨2000, 12⟩ (some [recordA]) := Or.inl (by decide)
  have hstep : step stateHoldSet (Event.updateArrivals ⟨2000, 12⟩ (some [recordA]))
      = renderNow stateHoldSet ⟨2000, 12⟩ (some [recordA]) none :=
    throttledUpdateArrivals_of_rendersNow stateHoldSet ⟨2000, 12⟩ (some [recordA]) none hr
  obtain ⟨_, _, r3, _, _, _, _, _, r9, _⟩ :=
    renderNow_spec stateHoldSet ⟨2000, 12⟩ (some [recordA]) none
  have h1 : runInbound initialState removalEvents
      = handleTrainRemoved (renderNow stateHoldSet ⟨2000, 12⟩ (some [recordA]) none)
          (some "T1") := by
    simp only [runInbound, removalEvents, List.foldl_cons, List.foldl_nil, stepInbound]
    rw [← hstep]
    rfl
  have h2 : runInbound initialState staleEvents
      = clearStaleTrainData (renderNow stateHoldSet ⟨2000, 12⟩ (some [recordA]) none)
          (some []) := by
    simp only [runInbound, staleEvents, List.foldl_cons, List.foldl_nil, stepInbound]
    rw [← hstep]
    rfl
  have hloop : ∀ (ids tracked : List String) (s : State),
      (clearStaleLoop ids s tracked).lastArrivalUpdate = s.lastArrivalUpdate := by
    intro ids tracked
    induction tracked with
    | nil => intro s; rfl
    | cons t rest ih =>
      intro s
      by_cases hmem : t ∈ ids
      · simp only [clearStaleLoop, hmem, if_true]
        exact ih s
      · simp only [clearStaleLoop, hmem, if_false]
        exact ih (removeInvalidTrain s (some t))
  refine ⟨?_, ?_, ?_, ?_⟩
  · rw [h1]
    exact ((removeInvalidTrain_frame _ _).1).trans r9
  · rw [h1]
    exact r3
  · rw [h2, (clearStaleTrainData_frame _ _).1]
    exact r9
  · rw [h2]
    exact (hloop [] _ _).trans r3

theorem reuse_shows_HELD (st : State) (hheld : st.heldTrainStatus = holdT1)
    (hlast : st.lastArrivalUpdate = 2000) :
    (stepInbound st reuseEvent).arrivalsList
      = [DomRow.arrival "T1" "Downtown" "" "eta-held" "HELD" "Signal Hold"] := by
  have hr : RendersNow st ⟨60000, 12⟩ (some [recordA]) := by
    right
    rw [hlast]
    decide
  have hstep : stepInbound st reuseEvent
      = renderNow st ⟨60000, 12⟩ (some [recordA]) none :=
    throttledUpdateArrivals_of_rendersNow st ⟨60000, 12⟩ (some [recordA]) none hr
  rw [hstep, (renderNow_spec st ⟨60000, 12⟩ (some [recordA]) none).2.1,
    (updateArrivalsDOM_arrivalsList st ⟨60000, 12⟩ [recordA] none (by simp)).1
      (by simp [isValidArrival_recordA]), hheld]
  have h1 : rowIsHeld holdT1 recordA = true := by decide
  simp [isValidArrival_recordA, renderRow, h1]
  simp [recordA, truthy, propKey]

/-- C17 fails on the code.  `removeInvalidTrain` deletes the train from
`validTrainIds`, `lastETAValues` and `lastTrainPositions` and leaves
`heldTrainStatus` alone, for `trainRemoved` and for `clearStaleTrains` alike:
the stored ETA and position of the train are gone afterwards, but after a hold
on T1, a render that tracks T1 and the removal of T1, the override entry of T1
is still there, and a later record that uses T1 again shows "HELD". -/
theorem removed_train_still_held :
    (∀ st trainId, (handleTrainRemoved st trainId).heldTrainStatus = st.heldTrainStatus) ∧
    (∀ st validIds, (clearStaleTrainData st validIds).heldTrainStatus = st.heldTrainStatus) ∧
    (∀ st trainId, (handleTrainRemoved st trainId).lastETAValues.get (propKey trainId) = none ∧
      (handleTrainRemoved st trainId).lastTrainPositions.get (propKey trainId) = none) ∧
    (runInbound initialState removalEvents).heldTrainStatus.get "T1"
      = some ⟨true, false, "Signal hold", some "S1", 1000⟩ ∧
    (runInbound initialState (removalEvents ++ [reuseEvent])).arrivalsList
      = [DomRow.arrival "T1" "Downtown" "" "eta-held" "HELD" "Signal Hold"] ∧
    (runInbound initialState staleEvents).heldTrainStatus.get "T1"
      = some ⟨true, false, "Signal hold", some "S1", 1000⟩ ∧
    (runInbound initialState (staleEvents ++ [reuseEvent])).arrivalsList
      = [DomRow.arrival "T1" "Downtown" "" "eta-held" "HELD" "Signal Hold"] := by
  obtain ⟨h1, h2, h3, h4⟩ := removalEvents_heldTrainStatus
  have happ : ∀ events : List Inbound, runInbound initialState (events ++ [reuseEvent])
      = stepInbound (runInbound initialState events) reuseEvent := by
    intro events
    simp [runInbound, List.foldl_append]
  refine ⟨fun st trainId => (removeInvalidTrain_frame st trainId).1,
    fun st validIds => (clearStaleTrainData_frame st validIds).1,
    fun st trainId => ⟨by simp [handleTrainRemoved, removeInvalidTrain, JsMap.get_delete],
      by simp [handleTrainRemoved, removeInvalidTrain, JsMap.get_delete]⟩, ?_, ?_, ?_, ?_⟩
  · rw [h1]
    decide
  · rw [happ]
    exact reuse_shows_HELD _ h1 h2
  · rw [h3]
    decide
  · rw [happ]
    exact reuse_shows_HELD _ h3 h4

/-! ### The empty state -/

theorem showEmptyState_appends (st : State) (clock : Clock) :
    (showEmptyState st clock).arrivalsList = st.arrivalsList ++ [emptyStateRow st clock] := rfl

/-- C18. When no data has ever been received, `showEmptyState` appends the
"Searching for Trains..." row, whatever the time, the time of the last data,
the service period and the hour. -/
theorem emptyState_searching (st : State) (clock : Clock)
    (hnever : st.hasReceivedServerData = false) :
    emptyStateRow st clock
      = DomRow.emptyState "search" "Searching for Trains..." "Connecting to transit server" ∧
    (showEmptyState st clock).arrivalsList = st.arrivalsList ++
      [DomRow.emptyState "search" "Searching for Trains..." "Connecting to transit server"] := by
  have h : emptyStateRow st clock
      = DomRow.emptyState "search" "Searching for Trains..." "Connecting to transit server" := by
    simp [emptyStateRow, hnever]
  exact ⟨h, by rw [showEmptyState_appends, h]⟩

/-- Witness for C18: the initial state, at a late time and at night. -/
theorem emptyState_searching_witness :
    initialState.hasReceivedServerData = false ∧
    emptyStateRow initialState ⟨99999, 23⟩
      = DomRow.emptyState "search" "Searching for Trains..." "Connecting to transit server" :=
  ⟨rfl, (emptyState_searching initialState ⟨99999, 23⟩ rfl).1⟩

/-- C19. When data has been received and more than 30000 ms have passed since
the last data, `showEmptyState` appends the "Connection Lost" row for every
service period and hour; at 30000 ms or less the message is never
"Connection Lost". -/
theorem emptyState_connection_lost (st : State) (clock : Clock) :
    (st.hasReceivedServerData = true → clock.now - st.lastDataReceiveTime > 30000 →
      emptyStateRow st clock
        = DomRow.emptyState "warning" "Connection Lost" "Attempting to reconnect..." ∧
      (showEmptyState st clock).arrivalsList = st.arrivalsList ++
        [DomRow.emptyState "warning" "Connection Lost" "Attempting to reconnect..."]) ∧
    (clock.now - st.lastDataReceiveTime ≤ 30000 →
      (emptyStateRow st clock).message ≠ some "Connection Lost") := by
  constructor
  · intro hrecv hsilent
    have h : emptyStateRow st clock
        = DomRow.emptyState "warning" "Connection Lost" "Attempting to reconnect..." := by
      simp [emptyStateRow, hrecv, hsilent]
    exact ⟨h, by rw [showEmptyState_appends, h]⟩
  · intro hrecent
    have hn : ¬ clock.now - st.lastDataReceiveTime > 30000 := by omega
    unfold emptyStateRow
    simp only [hn, if_false]
    split_ifs <;> simp [DomRow.message]

/-- Witness for C19: data received at time 0; at time 30001 the connection is
lost, at time 30000 it is not. -/
theorem emptyState_connection_lost_witness :
    stateReceived.hasReceivedServerData = true ∧
    (⟨30001, 12⟩ : Clock).now - stateReceived.lastDataReceiveTime > 30000 ∧
    emptyStateRow stateReceived ⟨30001, 12⟩
      = DomRow.emptyState "warning" "Connection Lost" "Attempting to reconnect..." ∧
    (emptyStateRow stateReceived ⟨30000, 12⟩).message ≠ some "Connection Lost" :=
  ⟨rfl, by decide,
    ((emptyState_connection_lost stateReceived ⟨30001, 12⟩).1 rfl (by decide)).1,
    (emptyState_connection_lost stateReceived ⟨30000, 12⟩).2 (by decide)⟩

/-- C20 (amended). When data has been received and the silence is at most
30000 ms, the empty-state row is decided by the service period and the hour
of the day: the period `night`, or any period at an hour from 22 to 5, gives
"Limited Night Service"; at an hour from 6 to 21, `starting` gives "Service
Starting", `emergency` gives "Service Suspended", `searching` gives "Searching
for Trains..." and any other period "No trains scheduled".  The row depends
on nothing but the elapsed time, the has-received flag, the service period
and the hour. -/
theorem emptyState_by_period (st : State) (clock : Clock)
    (hrecv : st.hasReceivedServerData = true)
    (hrecent : clock.now - st.lastDataReceiveTime ≤ 30000) :
    ((st.currentServicePeriod = "night" ∨ clock.hour ≥ 22 ∨ clock.hour < 6) →
      emptyStateRow st clock
        = DomRow.emptyState "moon" "Limited Night Service" "Trains every 30 minutes") ∧
    (6 ≤ clock.hour → clock.hour < 22 →
      (st.currentServicePeriod = "starting" →
        emptyStateRow st clock
          = DomRow.emptyState "clock" "Service Starting" "First train departing soon") ∧
      (st.currentServicePeriod = "emergency" →
        emptyStateRow st clock
          = DomRow.emptyState "warning" "Service Suspended"
              "Please follow station announcements") ∧
      (st.currentServicePeriod = "searching" →
        emptyStateRow st clock
          = DomRow.emptyState "search" "Searching for Trains..." "Please wait") ∧
      (st.currentServicePeriod ≠ "night" → st.currentServicePeriod ≠ "starting" →
        st.currentServicePeriod ≠ "emergency" → st.currentServicePeriod ≠ "searching" →
        emptyStateRow st clock
          = DomRow.emptyState "train" "No trains scheduled" "Check back shortly")) ∧
    (∀ (st2 : State) (clock2 : Clock),
      st2.hasReceivedServerData = st.hasReceivedServerData →
      clock2.now - st2.lastDataReceiveTime = clock.now - st.lastDataReceiveTime →
      st2.currentServicePeriod = st.currentServicePeriod → clock2.hour = clock.hour →
      emptyStateRow st2 clock2 = emptyStateRow st clock) := by
  have hn : ¬ clock.now - st.lastDataReceiveTime > 30000 := by omega
  refine ⟨?_, ?_, ?_⟩
  · intro hnight
    simp [emptyStateRow, hrecv, hn, hnight]
  · intro h6 h22
    have hday : ¬ (clock.hour ≥ 22 ∨ clock.hour < 6) := by omega
    refine ⟨?_, ?_, ?_, ?_⟩
    · intro hp
      simp [emptyStateRow, hrecv, hn, hp, hday]
    · intro hp
      simp [emptyStateRow, hrecv, hn, hp, hday]
    · intro hp
      simp [emptyStateRow, hrecv, hn, hp, hday]
    · intro h1 h2 h3 h4
      simp [emptyStateRow, hrecv, hn, h1, h2, h3, h4, hday]
  · intro st2 clock2 e1 e2 e3 e4
    simp only [emptyStateRow, e1, e2, e3, e4]

/-- Witness for C20: the period `starting` at noon, 1000 ms after the last
data. -/
theorem emptyState_by_period_witness :
    stateStarting.hasReceivedServerData = true ∧
    (⟨1000, 12⟩ : Clock).now - stateStarting.lastDataReceiveTime ≤ 30000 ∧
    emptyStateRow stateStarting ⟨1000, 12⟩
      = DomRow.emptyState "clock" "Service Starting" "First train departing soon" :=
  ⟨rfl, by decide,
    ((emptyState_by_period stateStarting ⟨1000, 12⟩ rfl (by decide)).2.1 (by decide)
      (by decide)).1 rfl⟩

/-- C20 as stated fails: with the same elapsed time, has-received flag and
service period, the row at hour 23 differs from the row at hour 12; and in
the period `starting` the hour 23 gives "Limited Night Service", not "Service
Starting". -/
theorem emptyState_depends_on_hour :
    emptyStateRow stateReceived ⟨1000, 23⟩
      = DomRow.emptyState "moon" "Limited Night Service" "Trains every 30 minutes" ∧
    emptyStateRow stateReceived ⟨1000, 12⟩
      = DomRow.emptyState "train" "No trains scheduled" "Check back shortly" ∧
    emptyStateRow stateReceived ⟨1000, 23⟩ ≠ emptyStateRow stateReceived ⟨1000, 12⟩ ∧
    stateStarting.currentServicePeriod = "starting" ∧
    emptyStateRow stateStarting ⟨1000, 23⟩
      = DomRow.emptyState "moon" "Limited Night Service" "Trains every 30 minutes" := by
  refine ⟨by decide, by decide, by decide, rfl, by decide⟩

/-! ### The dispatcher panel: selection across updates -/

theorem truthy_some_iff (s : Option String) :
    truthy s = true ↔ ∃ t, s = some t ∧ t ≠ "" := by
  cases s with
  | none => simp [truthy]
  | some t => simp [truthy]

theorem updateTrainList_trainItems (d : Dispatcher) (l : List TrainInfo) :
    (updateTrainList d (some l)).trainItems = l.map (trainItemOf d.selectedTrainId) := by
  cases l with
  | nil => rfl
  | cons t rest => rfl

theorem updateTrainList_frame (d : Dispatcher) (trains : Option (List TrainInfo)) :
    (updateTrainList d trains).selectedTrainId = d.selectedTrainId
    ∧ (updateTrainList d trains).segmentEls = d.segmentEls
    ∧ (updateTrainList d trains).currentSegmentData = d.currentSegmentData
    ∧ (updateTrainList d trains).pendingEmergencyTrainId = d.pendingEmergencyTrainId
    ∧ (updateTrainList d trains).commands = d.commands := by
  cases trains with
  | none => simp [updateTrainList]
  | some l =>
    cases l with
    | nil => simp [updateTrainList]
    | cons t rest => simp [updateTrainList]

theorem updateDispatcherData_selectedTrainId (d : Dispatcher)
    (segments : Option (JsMap SegmentData)) (trains : Option (List TrainInfo)) :
    (updateDispatcherData d segments trains).selectedTrainId = d.selectedTrainId := by
  cases segments with
  | none => rfl
  | some segs =>
    cases trains with
    | none =>
      simp only [updateDispatcherData]
      split <;> simp [highlightTrainAndSegment]
    | some l =>
      simp only [updateDispatcherData]
      split <;> simp [highlightTrainAndSegment, (updateTrainList_frame _ _).1]

theorem updateDispatcherData_trainItems (d : Dispatcher) (segs : JsMap SegmentData)
    (l : List TrainInfo) :
    (updateDispatcherData d (some segs) (some l)).trainItems =
      if truthy d.selectedTrainId then
        activateItems (l.map (trainItemOf d.selectedTrainId)) (propKey d.selectedTrainId)
      else l.map (trainItemOf d.selectedTrainId) := by
  simp only [updateDispatcherData, (updateTrainList_frame _ _).1]
  by_cases h : truthy d.selectedTrainId = true
  · simp [h, highlightTrainAndSegment, updateTrainList_trainItems]
  · simp [h, updateTrainList_trainItems]

/-- C21: `updateDispatcherData` never changes the selected train, whatever
the new segments and trains are (the selected train may occupy another
segment or be absent); and when the update carries a train list, the items of
the selected train are marked active and no item of another train id is. -/
theorem updateDispatcherData_keeps_selection (d : Dispatcher)
    (segments : Option (JsMap SegmentData)) (trains : Option (List TrainInfo)) :
    (updateDispatcherData d segments trains).selectedTrainId = d.selectedTrainId
    ∧ ∀ segs l, segments = some segs → trains = some l →
      (∀ train ∈ l, some train.id = d.selectedTrainId →
        ∃ item ∈ (updateDispatcherData d segments trains).trainItems,
          item.trainId = train.id ∧ item.active = true)
      ∧ (∀ item ∈ (updateDispatcherData d segments trains).trainItems,
          item.active = true → some item.trainId = d.selectedTrainId) := by
  refine ⟨updateDispatcherData_selectedTrainId d segments trains, ?_⟩
  intro segs l hs ht
  subst hs
  subst ht
  rw [updateDispatcherData_trainItems]
  by_cases h : truthy d.selectedTrainId = true
  · obtain ⟨T, hT, hne⟩ := (truthy_some_iff _).1 h
    simp only [hT] at h ⊢
    simp only [h, if_true, propKey]
    constructor
    · intro train hmem hid
      have hid2 : train.id = T := by simpa using hid
      refine ⟨{ trainItemOf (some T) train with active := true }, ?_, ?_, rfl⟩
      · simp only [activateItems, List.mem_map]
        refine ⟨trainItemOf (some T) train, ⟨train, hmem, rfl⟩, ?_⟩
        simp [trainItemOf, hid2]
      · simp [trainItemOf]
    · intro item hmem hact
      simp only [activateItems, List.mem_map] at hmem
      obtain ⟨it, ⟨train, _, hit⟩, hitem⟩ := hmem
      subst hit
      by_cases hid : (trainItemOf (some T) train).trainId = T
      · rw [if_pos hid] at hitem
        subst hitem
        simpa [trainItemOf] using hid
      · rw [if_neg hid] at hitem
        subst hitem
        simp only [trainItemOf] at hid hact ⊢
        simpa using hact
  · simp only [h]
    constructor
    · intro train hmem hid
      refine ⟨trainItemOf d.selectedTrainId train, ?_, rfl, ?_⟩
      · simpa using ⟨train, hmem, rfl⟩
      · simp [trainItemOf, hid]
    · intro item hmem hact
      simp only [Bool.false_eq_true, if_false, List.mem_map] at hmem
      obtain ⟨train, _, hit⟩ := hmem
      subst hit
      simpa [trainItemOf] using hact

theorem updateDispatcherData_keeps_selection_witness :
    (updateDispatcherData panelSelected (some segmentsAt2)
        (some [trainRunning "T1"])).selectedTrainId = some "T1"
    ∧ (updateDispatcherData panelSelected (some segmentsFree) (some [])).selectedTrainId
        = some "T1"
    ∧ ∃ item ∈ (updateDispatcherData panelSelected (some segmentsAt2)
          (some [trainRunning "T1"])).trainItems,
        item.trainId = "T1" ∧ item.active = true :=
  have h := updateDispatcherData_keeps_selection panelSelected (some segmentsAt2)
    (some [trainRunning "T1"])
  ⟨h.1.trans (by decide),
    (updateDispatcherData_keeps_selection panelSelected (some segmentsFree) (some [])).1.trans
      (by decide),
    (h.2 segmentsAt2 [trainRunning "T1"] rfl rfl).1 (trainRunning "T1") (by decide) (by decide)⟩

/-! ### The dispatcher panel: the highlight after a move -/

theorem updateSegmentBlock_get (els : JsMap SegmentEl) (segmentId : String) (data : SegmentData)
    (k : String) (el : SegmentEl) (h : els.get k = some el) :
    ∃ el2, (updateSegmentBlock els segmentId data).get k = some el2
      ∧ el2.selected = el.selected
      ∧ (∀ captured, el.clickHandler = some captured → el2.clickHandler = some captured) := by
  unfold updateSegmentBlock
  cases hs : els.get segmentId with
  | none => exact ⟨el, h, rfl, fun _ hc => hc⟩
  | some segmentEl =>
    simp only
    rw [JsMap.get_set]
    by_cases hk : segmentId = k
    · subst hk
      rw [h] at hs
      cases hs
      refine ⟨_, if_pos rfl, rfl, ?_⟩
      intro captured hc
      simp [hc]
    · rw [if_neg hk]
      exact ⟨el, h, rfl, fun _ hc => hc⟩

theorem updateSegmentBlocks_get (segments : JsMap SegmentData) (els : JsMap SegmentEl)
    (k : String) (el : SegmentEl) (h : els.get k = some el) :
    ∃ el2, (updateSegmentBlocks els segments).get k = some el2
      ∧ el2.selected = el.selected
      ∧ (∀ captured, el.clickHandler = some captured → el2.clickHandler = some captured) := by
  induction segments generalizing els el with
  | nil => exact ⟨el, h, rfl, fun _ hc => hc⟩
  | cons entry rest ih =>
    obtain ⟨el1, h1, hsel1, hcap1⟩ := updateSegmentBlock_get els entry.1 entry.2 k el h
    obtain ⟨el2, h2, hsel2, hcap2⟩ := ih (updateSegmentBlock els entry.1 entry.2) el1 h1
    refine ⟨el2, ?_, hsel2.trans hsel1, fun c hc => hcap2 c (hcap1 c hc)⟩
    simpa [updateSegmentBlocks] using h2

theorem addSelected_get (els : JsMap SegmentEl) (segmentId k : String) (el : SegmentEl)
    (h : els.get k = some el) :
    ∃ el2, (addSelected els segmentId).get k = some el2
      ∧ (el.selected = true → el2.selected = true)
      ∧ el2.clickHandler = el.clickHandler := by
  unfold addSelected
  cases hs : els.get segmentId with
  | none => exact ⟨el, h, fun hsel => hsel, rfl⟩
  | some segmentEl =>
    simp only
    rw [JsMap.get_set]
    by_cases hk : segmentId = k
    · subst hk
      rw [h] at hs
      cases hs
      exact ⟨_, if_pos rfl, fun _ => rfl, rfl⟩
    · rw [if_neg hk]
      exact ⟨el, h, fun hsel => hsel, rfl⟩

theorem highlightTrainAndSegment_get (d : Dispatcher) (trainId k : String) (el : SegmentEl)
    (h : d.segmentEls.get k = some el) :
    ∃ el2, (highlightTrainAndSegment d trainId).segmentEls.get k = some el2
      ∧ (el.selected = true → el2.selected = true)
      ∧ el2.clickHandler = el.clickHandler := by
  unfold highlightTrainAndSegment
  cases findSegmentOf d.currentSegmentData trainId with
  | none => exact ⟨el, h, fun hsel => hsel, rfl⟩
  | some segmentId => exact addSelected_get d.segmentEls segmentId k el h

/-- A dispatcher update removes neither the class `selected` nor the data a
click listener closed over from any segment element. -/
theorem updateDispatcherData_get (d : Dispatcher) (segments : Option (JsMap SegmentData))
    (trains : Option (List TrainInfo)) (k : String) (el : SegmentEl)
    (h : d.segmentEls.get k = some el) :
    ∃ el2, (updateDispatcherData d segments trains).segmentEls.get k = some el2
      ∧ (el.selected = true → el2.selected = true)
      ∧ (∀ captured, el.clickHandler = some captured → el2.clickHandler = some captured) := by
  cases segments with
  | none => exact ⟨el, h, fun hsel => hsel, fun _ hc => hc⟩
  | some segs =>
    obtain ⟨el1, h1, hsel1, hcap1⟩ := updateSegmentBlocks_get segs d.segmentEls k el h
    have key : ∀ d3 : Dispatcher, d3.segmentEls = updateSegmentBlocks d.segmentEls segs →
        ∃ el2, (if truthy d3.selectedTrainId then
            highlightTrainAndSegment d3 (propKey d3.selectedTrainId) else d3).segmentEls.get k
            = some el2
          ∧ (el.selected = true → el2.selected = true)
          ∧ (∀ captured, el.clickHandler = some captured → el2.clickHandler = some captured) := by
      intro d3 hd3
      rw [← hd3] at h1
      by_cases ht : truthy d3.selectedTrainId = true
      · rw [if_pos ht]
        obtain ⟨el2, h2, hsel2, hcap2⟩ :=
          highlightTrainAndSegment_get d3 (propKey d3.selectedTrainId) k el1 h1
        exact ⟨el2, h2, fun hsel => hsel2 (hsel1.trans hsel),
          fun c hc => hcap2.trans (hcap1 c hc)⟩
      · rw [if_neg ht]
        exact ⟨el1, h1, fun hsel => hsel1.trans hsel, fun c hc => hcap1 c hc⟩
    cases trains with
    | none => exact key _ rfl
    | some l => exact key _ (updateTrainList_frame _ _).2.1

/-- C22: the operator selects T1 in the train list while it occupies s1, so
s1 alone is highlighted; the next dispatcher update has T1 in s2.  Afterwards
T1 is still selected and s2, which now owns it, is highlighted, but s1 is
highlighted as well: the highlighted segments are s1 and s2, not s2 alone.
No dispatcher update ever removes the highlight of a segment. -/
theorem stale_highlight_after_move :
    (∀ d segments trains k el, d.segmentEls.get k = some el → el.selected = true →
      ∃ el2, (updateDispatcherData d segments trains).segmentEls.get k = some el2
        ∧ el2.selected = true)
    ∧ highlightedSegments (runDispatcher panel selectEvents) = ["s1"]
    ∧ (runDispatcher panel (selectEvents ++ [moveEvent])).selectedTrainId = some "T1"
    ∧ findSegmentOf (runDispatcher panel (selectEvents ++ [moveEvent])).currentSegmentData "T1"
        = some "s2"
    ∧ highlightedSegments (runDispatcher panel (selectEvents ++ [moveEvent])) = ["s1", "s2"] := by
  refine ⟨?_, by decide, by decide, by decide, by decide⟩
  intro d segments trains k el hget hsel
  obtain ⟨el2, h2, hsel2, _⟩ := updateDispatcherData_get d segments trains k el hget
  exact ⟨el2, h2, hsel2 hsel⟩

/-! ### The dispatcher panel: a click on a segment -/

/-- C28: segment s1 is occupied by T1 in the first dispatcher update and by T2
(or by no train) in the most recent one.  A click on s1 then selects T1, the
train of the first update, although the committed segment data has T2 (or no
train) there; with the same most recent update and no earlier one, the click
clears the selection.  Once the click listener of a segment has closed over
the data of an update, no later update replaces that data. -/
theorem click_reads_first_update :
    (∀ d segments trains k el captured, d.segmentEls.get k = some el →
      el.clickHandler = some captured →
      ∃ el2, (updateDispatcherData d segments trains).segmentEls.get k = some el2
        ∧ el2.clickHandler = some captured)
    ∧ ((runDispatcher panel [firstUpdate, replacedUpdate]).currentSegmentData.get "s1").map
        (fun data => data.trainId) = some (some "T2")
    ∧ (runDispatcher panel
        [firstUpdate, replacedUpdate, DispatcherEvent.segmentClicked "s1"]).selectedTrainId
        = some "T1"
    ∧ ((runDispatcher panel [firstUpdate, vacatedUpdate]).currentSegmentData.get "s1").map
        (fun data => data.occupied) = some false
    ∧ (runDispatcher panel
        [firstUpdate, vacatedUpdate, DispatcherEvent.segmentClicked "s1"]).selectedTrainId
        = some "T1"
    ∧ (runDispatcher panel
        [vacatedUpdate, DispatcherEvent.segmentClicked "s1"]).selectedTrainId = none := by
  refine ⟨?_, by decide, by decide, by decide, by decide, by decide⟩
  intro d segments trains k el captured hget hcap
  obtain ⟨el2, h2, _, hcap2⟩ := updateDispatcherData_get d segments trains k el hget
  exact ⟨el2, h2, hcap2 captured hcap⟩

/-! ### The dispatcher panel: lock confirmations -/

/-- C23: a `segmentOverrideChanged` message for a segment that has an element
and an entry in `currentSegmentData` patches that entry in place: `isLocked`
becomes `locked`, `lockReason` and `lockedBy` become those of the message when
locked and null when unlocked, every other field of the entry and the entry of
every other segment stay as they were; for a segment with no element or no
entry, `currentSegmentData` is unchanged. -/
theorem handleSegmentOverrideChanged_patches (d : Dispatcher) (data : OverrideMsg)
    (segmentId : String) (hid : data.segmentId = some segmentId) (hne : segmentId ≠ "") :
    (∀ segmentEl entry, d.segmentEls.get segmentId = some segmentEl →
      d.currentSegmentData.get segmentId = some entry →
      (handleSegmentOverrideChanged d data).currentSegmentData.get segmentId =
          some { entry with
            isLocked := data.locked,
            lockReason := if data.locked then data.reason else none,
            lockedBy := if data.locked then data.lockedBy else none }
        ∧ ∀ other, other ≠ segmentId →
          (handleSegmentOverrideChanged d data).currentSegmentData.get other =
            d.currentSegmentData.get other)
    ∧ (d.segmentEls.get segmentId = none ∨ d.currentSegmentData.get segmentId = none →
        (handleSegmentOverrideChanged d data).currentSegmentData = d.currentSegmentData) := by
  have ht : truthy (some segmentId) = true := by simp [truthy, hne]
  constructor
  · intro segmentEl entry hel hentry
    have hcalc : (handleSegmentOverrideChanged d data).currentSegmentData =
        d.currentSegmentData.set segmentId
          (if data.locked then
            { entry with isLocked := true, lockReason := data.reason, lockedBy := data.lockedBy }
          else { entry with isLocked := false, lockReason := none, lockedBy := none }) := by
      simp [handleSegmentOverrideChanged, hid, ht, propKey, hel, hentry]
    rw [hcalc]
    constructor
    · rw [JsMap.get_set, if_pos rfl]
      cases hl : data.locked <;> simp
    · intro other hother
      rw [JsMap.get_set, if_neg (fun h => hother h.symm)]
  · intro h
    cases hel : d.segmentEls.get segmentId with
    | none => simp [handleSegmentOverrideChanged, hid, ht, propKey, hel]
    | some segmentEl =>
      have hentry : d.currentSegmentData.get segmentId = none := by
        cases h with
        | inl h1 => rw [hel] at h1; cases h1
        | inr h2 => exact h2
      simp [handleSegmentOverrideChanged, hid, ht, propKey, hel, hentry]

theorem handleSegmentOverrideChanged_patches_witness :
    (handleSegmentOverrideChanged panelAt1 lockS2).currentSegmentData.get "s2" =
        some { segmentFree with
          isLocked := true, lockReason := some "Track work", lockedBy := some "Dispatcher 7" }
    ∧ (handleSegmentOverrideChanged panelAt1 lockS2).currentSegmentData.get "s1" =
        some (segmentWith "T1") :=
  have h := (handleSegmentOverrideChanged_patches panelAt1 lockS2 "s2" rfl (by decide)).1
    ⟨false, some "", some "false", some segmentFree, true⟩ segmentFree (by decide) (by decide)
  ⟨h.1, (h.2 "s1" (by decide)).trans (by decide)⟩

/-! ### The dispatcher panel: the emergency-stop dialogue -/

theorem GetParentResourceName_raises (stack : Nat) :
    GetParentResourceName stack = Except.error JsError.rangeError := by
  induction stack with
  | zero => rfl
  | succ n ih =>
    simp only [GetParentResourceName]
    exact ih

theorem confirmEmergencyStop_eq (d : Dispatcher) (stack : Nat) :
    confirmEmergencyStop d stack =
      if truthy d.pendingEmergencyTrainId then
        ⟨hideEmergencyConfirmation d, some JsError.rangeError⟩
      else ⟨d, none⟩ := by
  unfold confirmEmergencyStop
  by_cases h : truthy d.pendingEmergencyTrainId = true
  · simp [h, GetParentResourceName_raises]
  · simp [h]

theorem releaseEmergencyBrake_eq (d : Dispatcher) (trainId : String) (stack : Nat) :
    releaseEmergencyBrake d trainId stack = ⟨d, some JsError.rangeError⟩ := by
  simp [releaseEmergencyBrake, GetParentResourceName_raises]

theorem confirmEmergencyStop_frame (d : Dispatcher) (stack : Nat) :
    (confirmEmergencyStop d stack).state.commands = d.commands
    ∧ (confirmEmergencyStop d stack).state.trainItems = d.trainItems
    ∧ (confirmEmergencyStop d stack).state.pendingEmergencyTrainId =
        if truthy d.pendingEmergencyTrainId then none else d.pendingEmergencyTrainId := by
  rw [confirmEmergencyStop_eq]
  by_cases h : truthy d.pendingEmergencyTrainId = true
  · simp [h, hideEmergencyConfirmation]
  · simp [h]

theorem runEmergency_append (d : Dispatcher) (events : List EmergencyEvent) (e : EmergencyEvent) :
    runEmergency d (events ++ [e]) = stepEmergency (runEmergency d events) e := by
  simp [runEmergency, List.foldl_append]

theorem pendingRequestSpec_append (events : List EmergencyEvent) (e : EmergencyEvent) :
    pendingRequestSpec (events ++ [e]) =
      match e with
      | EmergencyEvent.request trainId => some trainId
      | _ => none := by
  cases e <;> simp [pendingRequestSpec]

/-- The variable `pendingEmergencyTrainId` follows the requests, as long as
every requested train id is non-empty. -/
theorem runEmergency_pending (d0 : Dispatcher) (h0 : d0.pendingEmergencyTrainId = none)
    (events : List EmergencyEvent)
    (hreq : ∀ e ∈ events, e ≠ EmergencyEvent.request "") :
    (runEmergency d0 events).pendingEmergencyTrainId = pendingRequestSpec events := by
  induction events using List.reverseRecOn with
  | nil => simpa [runEmergency, pendingRequestSpec] using h0
  | append_singleton events e ih =>
    have ih2 := ih (fun e hmem => hreq e (by simp [hmem]))
    rw [runEmergency_append, pendingRequestSpec_append]
    cases e with
    | request trainId => rfl
    | cancel => rfl
    | confirm stack =>
      simp only [stepEmergency, (confirmEmergencyStop_frame _ stack).2.2]
      cases hp : pendingRequestSpec events with
      | none =>
        rw [hp] at ih2
        simp [ih2, truthy]
      | some trainId =>
        rw [hp] at ih2
        have hne : trainId ≠ "" := by
          have hlast : events.getLast? = some (EmergencyEvent.request trainId) := by
            unfold pendingRequestSpec at hp
            split at hp
            · rename_i t heq
              simp only [Option.some.injEq] at hp
              rw [heq, hp]
            · cases hp
          intro hempty
          subst hempty
          exact hreq _ (by simp [List.mem_of_getLast?_eq_some hlast]) rfl
        simp [ih2, truthy, hne]

theorem runEmergency_commands (events : List EmergencyEvent) (d0 : Dispatcher) :
    (runEmergency d0 events).commands = d0.commands := by
  induction events generalizing d0 with
  | nil => rfl
  | cons e rest ih =>
    simp only [runEmergency, List.foldl_cons]
    have hstep : (stepEmergency d0 e).commands = d0.commands := by
      cases e with
      | request trainId => rfl
      | cancel => rfl
      | confirm stack => exact (confirmEmergencyStop_frame d0 stack).1
    exact (ih (stepEmergency d0 e)).trans hstep

/-- C24 fails on the code.  `confirmEmergencyStop` builds the URL of its
request from `GetParentResourceName()`, which calls itself until the call
stack is exhausted: for every stack the call raises a `RangeError`, so a
confirm with a request pending hides the dialogue, clears the pending train
and ends in the exception before `fetch` is reached.  No sequence of request,
cancel and confirm events posts a command; with T1 requested and confirmed the
specification has a request pending, and the list of commands posted stays
empty.  The rest of the claim holds: the pending train is the most recent
unconsumed request (for non-empty train ids), and nothing is pending after a
cancel or a confirm. -/
theorem confirm_posts_no_command :
    (∀ stack, GetParentResourceName stack = Except.error JsError.rangeError)
    ∧ (∀ d stack, truthy d.pendingEmergencyTrainId = true →
        (confirmEmergencyStop d stack).error = some JsError.rangeError
        ∧ (confirmEmergencyStop d stack).state = hideEmergencyConfirmation d)
    ∧ (∀ d0 events, (runEmergency d0 events).commands = d0.commands)
    ∧ (∀ d0 events, d0.pendingEmergencyTrainId = none →
        (∀ e ∈ events, e ≠ EmergencyEvent.request "") →
        (runEmergency d0 events).pendingEmergencyTrainId = pendingRequestSpec events)
    ∧ panelAt1.commands = []
    ∧ pendingRequestSpec [EmergencyEvent.request "T1"] = some "T1"
    ∧ (runEmergency panelAt1 [EmergencyEvent.request "T1"]).pendingEmergencyTrainId = some "T1"
    ∧ (runEmergency panelAt1
        [EmergencyEvent.request "T1", EmergencyEvent.confirm 10000]).commands = []
    ∧ (runEmergency panelAt1
        [EmergencyEvent.request "T1", EmergencyEvent.confirm 10000]).pendingEmergencyTrainId
        = none
    ∧ (confirmEmergencyStop panelRequested 10000).error = some JsError.rangeError := by
  have hconfirm : ∀ d stack, truthy d.pendingEmergencyTrainId = true →
      (confirmEmergencyStop d stack).error = some JsError.rangeError
      ∧ (confirmEmergencyStop d stack).state = hideEmergencyConfirmation d := by
    intro d stack h
    rw [confirmEmergencyStop_eq]
    simp [h]
  have hpending : panelRequested.pendingEmergencyTrainId = some "T1" := rfl
  refine ⟨GetParentResourceName_raises, hconfirm, fun d0 events => runEmergency_commands events d0,
    fun d0 events h0 hreq => runEmergency_pending d0 h0 events hreq, by decide, by decide, rfl,
    (runEmergency_commands _ panelAt1).trans (by decide), ?_, ?_⟩
  · have h := runEmergency_pending panelAt1 rfl
      [EmergencyEvent.request "T1", EmergencyEvent.confirm 10000] (by decide)
    rw [h]
    rfl
  · exact (hconfirm panelRequested 10000 (by rw [hpending]; decide)).1

/-! ### The dispatcher panel: the control of a stopped train -/

theorem freshControls_map (f : TrainItem → TrainItem) (items : List TrainItem)
    (hf : ∀ item, (f item).btnText = item.btnText ∧ (f item).btnDisabled = item.btnDisabled)
    (h : FreshControls items) : FreshControls (items.map f) := by
  intro item hmem
  rw [List.mem_map] at hmem
  obtain ⟨it, hit, heq⟩ := hmem
  subst heq
  rw [(hf it).1, (hf it).2]
  exact h it hit

theorem freshControls_activateItems (items : List TrainItem) (selected : String)
    (h : FreshControls items) : FreshControls (activateItems items selected) := by
  unfold activateItems
  apply freshControls_map _ _ _ h
  intro item
  by_cases hs : item.trainId = selected <;> simp [hs]

theorem freshControls_deactivate (items : List TrainItem) (h : FreshControls items) :
    FreshControls (items.map (fun item => { item with active := false })) :=
  freshControls_map _ items (fun _ => ⟨rfl, rfl⟩) h

theorem freshControls_trainItemOf (selected : Option String) (l : List TrainInfo) :
    FreshControls (l.map (trainItemOf selected)) := by
  intro item hmem
  rw [List.mem_map] at hmem
  obtain ⟨train, _, heq⟩ := hmem
  subst heq
  refine ⟨rfl, ?_⟩
  cases hheld : train.isHeld <;> simp [trainItemOf, hheld]

theorem clearSelection_trainItems (d : Dispatcher) (clearState : Bool) :
    (clearSelection d clearState).trainItems
      = d.trainItems.map (fun item => { item with active := false }) := by
  cases clearState <;> rfl

theorem selectTrain_trainItems (d : Dispatcher) (selected : String)
    (segmentId : Option String) :
    (selectTrain d selected segmentId).trainItems =
      activateItems (d.trainItems.map (fun item => { item with active := false })) selected := by
  simp [selectTrain, clearSelection]

theorem handleSegmentOverrideChanged_trainItems (d : Dispatcher) (data : OverrideMsg) :
    (handleSegmentOverrideChanged d data).trainItems = d.trainItems := by
  unfold handleSegmentOverrideChanged
  split
  · rfl
  · simp only
    split
    · rfl
    · split <;> rfl

theorem freshControls_updateDispatcherData (d : Dispatcher)
    (segments : Option (JsMap SegmentData)) (trains : Option (List TrainInfo))
    (h : FreshControls d.trainItems) :
    FreshControls (updateDispatcherData d segments trains).trainItems := by
  cases segments with
  | none => exact h
  | some segs =>
    cases trains with
    | none =>
      simp only [updateDispatcherData]
      split
      · exact freshControls_activateItems _ _ h
      · exact h
    | some l =>
      rw [updateDispatcherData_trainItems]
      split
      · exact freshControls_activateItems _ _ (freshControls_trainItemOf _ l)
      · exact freshControls_trainItemOf _ l

theorem clickEmergencyButton_trainItems (d : Dispatcher) (trainId : String) (stack : Nat) :
    (clickEmergencyButton d trainId stack).state.trainItems = d.trainItems := by
  unfold clickEmergencyButton
  split
  · rfl
  · split
    · rfl
    · split
      · rw [releaseEmergencyBrake_eq]
      · rfl

theorem freshControls_step (d : Dispatcher) (e : DispatcherEvent)
    (h : FreshControls d.trainItems) : FreshControls (stepDispatcher d e).trainItems := by
  cases e with
  | updateDispatcher segments trains => exact freshControls_updateDispatcherData d segments trains h
  | segmentOverrideChanged data =>
    simp only [stepDispatcher, handleSegmentOverrideChanged_trainItems]
    exact h
  | segmentClicked segmentId =>
    simp only [stepDispatcher, clickSegment]
    split
    · exact h
    · split
      · exact h
      · unfold handleSegmentClick
        split
        · rw [selectTrain_trainItems]
          exact freshControls_activateItems _ _ (freshControls_deactivate _ h)
        · rw [clearSelection_trainItems]
          exact freshControls_deactivate _ h
  | trainItemClicked selected =>
    simp only [stepDispatcher, clickTrainItem]
    split
    · rw [selectTrain_trainItems]
      exact freshControls_activateItems _ _ (freshControls_deactivate _ h)
    · exact h
  | emergencyButtonClicked trainId stack =>
    simp only [stepDispatcher, clickEmergencyButton_trainItems]
    exact h
  | emergencyCancelled => exact h
  | emergencyConfirmed stack =>
    simp only [stepDispatcher, (confirmEmergencyStop_frame d stack).2.1]
    exact h

theorem freshControls_run (events : List DispatcherEvent) (d : Dispatcher)
    (h : FreshControls d.trainItems) : FreshControls (runDispatcher d events).trainItems := by
  induction events generalizing d with
  | nil => exact h
  | cons e rest ih =>
    simp only [runDispatcher, List.foldl_cons]
    exact ih (stepDispatcher d e) (freshControls_step d e h)

theorem controlIn_of_freshControls (items : List TrainItem) (trainId : String)
    (h : FreshControls items) : controlIn items trainId ≠ some ("STOPPING...", true) := by
  intro hc
  unfold controlIn at hc
  cases hf : items.find? (fun item => decide (item.trainId = trainId)) with
  | none => simp [hf] at hc
  | some item =>
    rw [hf] at hc
    have hmem : item ∈ items := List.mem_of_find?_eq_some hf
    have hdis := (h item hmem).1
    simp only [Option.map_some', Option.some.injEq, Prod.mk.injEq] at hc
    rw [hdis] at hc
    exact Bool.false_ne_true hc.2

theorem runDispatcher_append (d : Dispatcher) (events : List DispatcherEvent)
    (e : DispatcherEvent) :
    runDispatcher d (events ++ [e]) = stepDispatcher (runDispatcher d events) e := by
  simp [runDispatcher, List.foldl_append]

/-- C25 fails on the code, by the defect of C24.  `confirmEmergencyStop` ends
in the `RangeError` of `GetParentResourceName` before it touches the button,
so a confirm leaves every control as it was, and over every sequence of events
of the panel every control is enabled and labelled "STOP" or "RELEASE": no
control is ever in the optimistic state.  With T1 running, a click on its STOP
button requests the stop; after the confirm nothing is pending and the control
of T1 is still the enabled "STOP". -/
theorem control_never_stopping :
    (∀ d stack trainId,
      controlOf (confirmEmergencyStop d stack).state trainId = controlOf d trainId)
    ∧ (∀ segmentIds events,
        FreshControls (runDispatcher (initialDispatcher segmentIds) events).trainItems)
    ∧ (∀ segmentIds events trainId,
        controlOf (runDispatcher (initialDispatcher segmentIds) events) trainId
          ≠ some ("STOPPING...", true))
    ∧ controlOf (runDispatcher panel requestEvents) "T1" = some ("STOP", false)
    ∧ (runDispatcher panel requestEvents).pendingEmergencyTrainId = some "T1"
    ∧ (confirmEmergencyStop (runDispatcher panel requestEvents) 10000).error
        = some JsError.rangeError
    ∧ controlOf (runDispatcher panel stopEvents) "T1" = some ("STOP", false)
    ∧ (runDispatcher panel stopEvents).pendingEmergencyTrainId = none
    ∧ (runDispatcher panel stopEvents).commands = [] := by
  have hfresh : ∀ segmentIds events,
      FreshControls (runDispatcher (initialDispatcher segmentIds) events).trainItems := by
    intro segmentIds events
    apply freshControls_run
    intro item hmem
    simp [initialDispatcher] at hmem
  have hreq : (runDispatcher panel requestEvents).pendingEmergencyTrainId = some "T1" := by
    decide
  have hstop : runDispatcher panel stopEvents
      = hideEmergencyConfirmation (runDispatcher panel requestEvents) := by
    have happ : stopEvents = requestEvents ++ [DispatcherEvent.emergencyConfirmed 10000] := rfl
    rw [happ, runDispatcher_append]
    simp only [stepDispatcher, confirmEmergencyStop_eq, hreq]
    rfl
  refine ⟨?_, hfresh, ?_, by decide, hreq, ?_, ?_, ?_, ?_⟩
  · intro d stack trainId
    simp only [controlOf, (confirmEmergencyStop_frame d stack).2.1]
  · intro segmentIds events trainId
    exact controlIn_of_freshControls _ trainId (hfresh segmentIds events)
  · rw [confirmEmergencyStop_eq, hreq]
    rfl
  · rw [hstop]
    decide
  · rw [hstop]
    rfl
  · rw [hstop]
    decide

/-! ### The stored maps and the snapshot last rendered -/

theorem lastRendered_append (st st2 : State) (call : RenderCall)
    (h : st2.renderLog = st.renderLog ++ [call]) : lastRendered st2 = some call.arrivals := by
  simp [lastRendered, h]

theorem lastRenderedSpec_of_render (st2 : State) (arrivals : Snapshot)
    (hlast : lastRendered st2 = some arrivals)
    (h1 : st2.lastETAValues = (updateStoredETAs arrivals).1)
    (h2 : st2.lastTrainPositions = (updateStoredETAs arrivals).2) : LastRenderedSpec st2 := by
  intro k
  rw [hlast, h1, h2]
  exact ⟨updateStoredETAs_get_eta arrivals k, updateStoredETAs_get_position arrivals k⟩

theorem lastRenderedSpec_of_eq (st st2 : State) (h : LastRenderedSpec st)
    (h0 : st2.renderLog = st.renderLog) (h1 : st2.lastETAValues = st.lastETAValues)
    (h2 : st2.lastTrainPositions = st.lastTrainPositions) : LastRenderedSpec st2 := by
  intro k
  have hk := h k
  simp only [lastRendered] at hk ⊢
  rw [h0, h1, h2]
  exact hk

theorem lastRenderedSpec_step (st : State) (e : Event) (h : LastRenderedSpec st) :
    LastRenderedSpec (step st e) := by
  cases e with
  | updateArrivals clock arrivals =>
    by_cases hr : RendersNow st clock arrivals
    · simp only [step, throttledUpdateArrivals_of_rendersNow st clock arrivals none hr]
      obtain ⟨r1, _, _, r4, r5, _⟩ := renderNow_spec st clock arrivals none
      exact lastRenderedSpec_of_render _ arrivals (lastRendered_append st _ _ r1) r4 r5
    · simp only [step, throttledUpdateArrivals_of_not_rendersNow st clock arrivals none hr]
      obtain ⟨d1, _, _, d4, d5, _⟩ := deferUpdate_spec st clock arrivals none
      exact lastRenderedSpec_of_eq st _ h d1 d4 d5
  | timerFired clock id =>
    simp only [step]
    by_cases hq : ∃ t ∈ st.timers, t.id = id
    · cases hp : st.pendingArrivalData with
      | some p =>
        obtain ⟨c1, _, c3, c4, _⟩ := fireTimer_pending st clock id p hq hp
        exact lastRenderedSpec_of_render _ p.arrivals (lastRendered_append st _ _ c1) c3 c4
      | none =>
        rw [fireTimer_not_pending st clock id hq hp]
        exact lastRenderedSpec_of_eq st _ h rfl rfl rfl
    · rw [fireTimer_of_not_queued st clock id hq]
      exact h

theorem lastRenderedSpec_run (events : List Event) (st : State) (h : LastRenderedSpec st) :
    LastRenderedSpec (run st events) := by
  induction events generalizing st with
  | nil => exact h
  | cons e rest ih =>
    simp only [run, List.foldl_cons]
    exact ih (step st e) (lastRenderedSpec_step st e h)

theorem renderRow_recordA_fresh (etas : JsMap (Option ℚ)) (now : Int) :
    renderRow [] etas now now recordA
      = DomRow.arrival "T1" "Downtown" "" "" "3 min" "On Time" := by
  have h1 : rowIsHeld [] recordA = false := rfl
  have h2 : rowIsCaution [] recordA = false := rfl
  have h3 : isAtStation recordA = false := by decide
  have h4 : isStuckBetweenStations etas now now recordA = false :=
    isStuck_false_of_same_instant _ now now recordA (by omega)
  have h5 : numLt recordA.eta 60 = false := by
    simp [numLt, recordA]
    norm_num
  have h6 : formatETA recordA.eta = "3 min" := formatETA_200
  simp [renderRow, h1, h2, h3, h4, h5, h6]
  simp [recordA, truthy, propKey]

theorem updateArrivalsDOM_initial_recordA (clock : Clock) :
    (updateArrivalsDOM initialState clock (some [recordA]) none).arrivalsList
      = [DomRow.arrival "T1" "Downtown" "" "" "3 min" "On Time"] := by
  rw [(updateArrivalsDOM_arrivalsList initialState clock [recordA] none (by simp)).1
    (by simp [isValidArrival_recordA])]
  simp [isValidArrival_recordA, initialState, renderRow_recordA_fresh]

/-- C26 fails on the code.  Over the events of the coalescer alone
(`updateArrivals` and timer firings) the stored maps hold exactly the keys,
ETAs and positions of the snapshot last rendered, and never those of a
deferred one.  But `showSchedule` renders through `updateArrivals`, which calls
`updateArrivalsDOM` and not `updateStoredETAs`: after a `showSchedule` with
train T1 at 200 s the list shows T1 and the snapshot last rendered has the ETA
200 for T1, while `lastETAValues` is still empty. -/
theorem showSchedule_not_recorded :
    (∀ events : List Event, LastRenderedSpec (run initialState events))
    ∧ lastRendered (runInbound initialState scheduleEvents) = some (some [recordA])
    ∧ (runInbound initialState scheduleEvents).arrivalsList
        = [DomRow.arrival "T1" "Downtown" "" "" "3 min" "On Time"]
    ∧ snapshotETA (some [recordA]) "T1" = some (some 200)
    ∧ (runInbound initialState scheduleEvents).lastETAValues = []
    ∧ ¬ LastRenderedSpec (runInbound initialState scheduleEvents) := by
  have hrun : runInbound initialState scheduleEvents
      = updateArrivalsDOM initialState ⟨1000, 12⟩ (some [recordA]) none := rfl
  obtain ⟨_, _, _, f4, _, _, _, _, f9⟩ :=
    updateArrivalsDOM_frame initialState ⟨1000, 12⟩ (some [recordA]) none
  have hlast : lastRendered (runInbound initialState scheduleEvents) = some (some [recordA]) := by
    rw [hrun]
    exact lastRendered_append initialState _ _ f9
  have hstored : (runInbound initialState scheduleEvents).lastETAValues = [] := by
    rw [hrun, f4]
    rfl
  have heta : snapshotETA (some [recordA]) "T1" = some (some 200) := by
    simp [snapshotETA, records, recordA, keyOf, truthy, propKey]
  refine ⟨?_, hlast, ?_, heta, hstored, ?_⟩
  · intro events
    apply lastRenderedSpec_run
    intro k
    simp [lastRendered, initialState, JsMap.get]
  · rw [hrun]
    exact updateArrivalsDOM_initial_recordA ⟨1000, 12⟩
  · intro hspec
    have h := (hspec "T1").1
    simp [hlast, hstored, heta, JsMap.get] at h

/-! ### A snapshot with an absent record -/

theorem significantLoopRaw_of_null (etas : JsMap (Option ℚ)) (positions : JsMap StoredPosition)
    (l : List (Option Arrival)) (h : none ∈ l) :
    significantLoopRaw etas positions l ≠ Except.ok false := by
  induction l with
  | nil => simp at h
  | cons r rest ih =>
    cases r with
    | none => simp [significantLoopRaw]
    | some a =>
      have hrest : none ∈ rest := by simpa using h
      simp only [significantLoopRaw]
      split_ifs
      · simp
      · exact ih hrest

theorem significantLoopRaw_error (etas : JsMap (Option ℚ)) (positions : JsMap StoredPosition)
    (l : List (Option Arrival)) (e : JsError)
    (h : significantLoopRaw etas positions l = Except.error e) : e = JsError.typeError := by
  induction l with
  | nil => simp [significantLoopRaw] at h
  | cons r rest ih =>
    cases r with
    | none =>
      simp only [significantLoopRaw, Except.error.injEq] at h
      exact h.symm
    | some a =>
      simp only [significantLoopRaw] at h
      split_ifs at h
      exact ih h

theorem storeLoopRaw_of_null (l : List (Option Arrival))
    (maps : JsMap (Option ℚ) × JsMap StoredPosition) (h : none ∈ l) :
    (storeLoopRaw maps l).2 = some JsError.typeError := by
  induction l generalizing maps with
  | nil => simp at h
  | cons r rest ih =>
    cases r with
    | none => rfl
    | some a =>
      have hrest : none ∈ rest := by simpa using h
      obtain ⟨etas, positions⟩ := maps
      simp only [storeLoopRaw]
      exact ih _ hrest

/-- A snapshot with a null record ends `throttledUpdateArrivals` with a
`TypeError`, whatever the state, the time and the other records. -/
theorem throttledUpdateArrivalsRaw_of_null (st : State) (clock : Clock)
    (l : List (Option Arrival)) (servicePeriod : Option String) (h : none ∈ l) :
    (throttledUpdateArrivalsRaw st clock (some l) servicePeriod).error
      = some JsError.typeError := by
  have hne : l ≠ [] := by
    intro hl
    subst hl
    simp at h
  have hsig : hasSignificantETAChangeRaw st.lastETAValues st.lastTrainPositions (some l)
      = significantLoopRaw st.lastETAValues st.lastTrainPositions l := by
    cases l with
    | nil => exact absurd rfl hne
    | cons r rest => rfl
  have hstore : (updateStoredETAsRaw (some l)).2 = some JsError.typeError :=
    storeLoopRaw_of_null l ([], []) h
  unfold throttledUpdateArrivalsRaw
  simp only [hsig]
  cases hloop : significantLoopRaw st.lastETAValues st.lastTrainPositions l with
  | error e =>
    rw [significantLoopRaw_error _ _ l e hloop]
  | ok hasChanges =>
    cases hasChanges with
    | false => exact absurd hloop (significantLoopRaw_of_null _ _ l h)
    | true => simp [hstore]

theorem dropNull_map_some (l : List Arrival) : dropNull (l.map some) = l := by
  induction l with
  | nil => rfl
  | cons a rest ih => simp [dropNull, ih]

theorem validRecordsRaw_map_some (l : List Arrival) :
    validRecordsRaw (l.map some) = l.filter isValidArrival := by
  induction l with
  | nil => rfl
  | cons a rest ih =>
    by_cases h : isValidArrival a = true <;> simp [validRecordsRaw, h, ih]

theorem trackValidIdsRaw_map_some (l : List Arrival) (ids : List String) :
    trackValidIdsRaw ids (l.map some) = trackValidIds ids l := by
  induction l generalizing ids with
  | nil => rfl
  | cons a rest ih =>
    by_cases h : (isValidArrival a && truthy a.trainId) = true
    · simp only [List.map_cons, trackValidIdsRaw, trackValidIds, h, if_true]
      exact ih _
    · simp only [List.map_cons, trackValidIdsRaw, trackValidIds, h, if_false]
      exact ih _

theorem significantLoopRaw_map_some (etas : JsMap (Option ℚ))
    (positions : JsMap StoredPosition) (l : List Arrival) :
    significantLoopRaw etas positions (l.map some)
      = Except.ok (significantLoop etas positions l) := by
  induction l with
  | nil => rfl
  | cons a rest ih =>
    by_cases h : recordSignificant etas positions a = true
    · simp [significantLoopRaw, significantLoop, h]
    · simp only [List.map_cons, significantLoopRaw, significantLoop, h, if_false]
      exact ih

theorem storeLoopRaw_map_some (l : List Arrival)
    (maps : JsMap (Option ℚ) × JsMap StoredPosition) :
    storeLoopRaw maps (l.map some) = (storeLoop maps l, none) := by
  induction l generalizing maps with
  | nil => rfl
  | cons a rest ih =>
    obtain ⟨etas, positions⟩ := maps
    simp only [List.map_cons, storeLoopRaw, storeLoop]
    exact ih _

theorem updateArrivalsDOMRaw_map_some (st : State) (clock : Clock) (l : List Arrival)
    (servicePeriod : Option String) :
    updateArrivalsDOMRaw st clock (some (l.map some)) servicePeriod
      = updateArrivalsDOM st clock (some l) servicePeriod := by
  cases l with
  | nil => rfl
  | cons a rest =>
    have h1 := validRecordsRaw_map_some (a :: rest)
    have h2 := fun ids => trackValidIdsRaw_map_some (a :: rest) ids
    have h3 := dropNull_map_some (a :: rest)
    simp only [List.map_cons] at h1 h2 h3
    unfold updateArrivalsDOMRaw updateArrivalsDOM
    simp only [List.map_cons, presentRecords, Option.map_some', h1, h2, h3]

/-- On a snapshot with no null record the handler raises nothing and does what
the typed handler does. -/
theorem throttledUpdateArrivalsRaw_map_some (st : State) (clock : Clock) (l : List Arrival)
    (servicePeriod : Option String) :
    throttledUpdateArrivalsRaw st clock (some (l.map some)) servicePeriod
      = ⟨throttledUpdateArrivals st clock (some l) servicePeriod, none⟩ := by
  have hsig : hasSignificantETAChangeRaw st.lastETAValues st.lastTrainPositions
      (some (l.map some))
      = Except.ok (hasSignificantETAChange st.lastETAValues st.lastTrainPositions (some l)) := by
    cases l with
    | nil => rfl
    | cons a rest =>
      exact significantLoopRaw_map_some st.lastETAValues st.lastTrainPositions (a :: rest)
  have hstore : updateStoredETAsRaw (some (l.map some)) = (updateStoredETAs (some l), none) :=
    storeLoopRaw_map_some l ([], [])
  unfold throttledUpdateArrivalsRaw throttledUpdateArrivals
  simp only [hsig, hstore, updateArrivalsDOMRaw_map_some, presentRecords, Option.map_some',
    dropNull_map_some]
  split_ifs
  · unfold renderNow
    simp only
    split <;> simp_all
  · rfl

/-- C27 fails on the code.  `hasSignificantETAChange` and `updateStoredETAs`
read `arrival.trainId` of every record with no test of the record, so every
`updateArrivals` snapshot that contains a null record ends the handler with a
`TypeError`.  With the null record first, the handler ends before anything is
rendered and the valid record of T1 is not shown; with the null record last,
the list is rendered (the filter of `updateArrivalsDOM` drops the null record)
and the exception is raised afterwards, before the render time is recorded.
The direct render of `showSchedule` reads the records in the filter only and
renders the valid record. -/
theorem absent_record_aborts_update :
    (∀ st clock l servicePeriod, none ∈ l →
      (throttledUpdateArrivalsRaw st clock (some l) servicePeriod).error
        = some JsError.typeError)
    ∧ throttledUpdateArrivalsRaw initialState ⟨1000, 12⟩ (some [none, some recordA]) none
        = ⟨initialState, some JsError.typeError⟩
    ∧ (throttledUpdateArrivalsRaw initialState ⟨1000, 12⟩ (some [some recordA, none])
        none).error = some JsError.typeError
    ∧ (throttledUpdateArrivalsRaw initialState ⟨1000, 12⟩ (some [some recordA, none])
        none).state.arrivalsList = [DomRow.arrival "T1" "Downtown" "" "" "3 min" "On Time"]
    ∧ (throttledUpdateArrivalsRaw initialState ⟨1000, 12⟩ (some [some recordA, none])
        none).state.lastArrivalUpdate = 0
    ∧ (showScheduleBoardRaw initialState ⟨1000, 12⟩ "Central"
        (some [none, some recordA])).arrivalsList
        = [DomRow.arrival "T1" "Downtown" "" "" "3 min" "On Time"] := by
  have hrows : ∀ l : List (Option Arrival), l ≠ [] → validRecordsRaw l = [recordA] →
      (updateArrivalsDOMRaw initialState ⟨1000, 12⟩ (some l) none).arrivalsList
        = [DomRow.arrival "T1" "Downtown" "" "" "3 min" "On Time"] := by
    intro l hne hv
    cases l with
    | nil => exact absurd rfl hne
    | cons r rest =>
      simp [updateArrivalsDOMRaw, hv, markDataReceived, truthy, initialState,
        renderRow_recordA_fresh]
  have hv1 : validRecordsRaw [some recordA, none] = [recordA] := by
    simp [validRecordsRaw, isValidArrival_recordA]
  have hv2 : validRecordsRaw [none, some recordA] = [recordA] := by
    simp [validRecordsRaw, isValidArrival_recordA]
  have hsig : hasSignificantETAChangeRaw initialState.lastETAValues
      initialState.lastTrainPositions (some [some recordA, none]) = Except.ok true := rfl
  have hstate : (throttledUpdateArrivalsRaw initialState ⟨1000, 12⟩
      (some [some recordA, none]) none).state
      = { updateArrivalsDOMRaw initialState ⟨1000, 12⟩ (some [some recordA, none]) none with
          lastETAValues := [("T1", some 200)], lastTrainPositions := [] } := by
    unfold throttledUpdateArrivalsRaw
    simp only [hsig]
    rfl
  refine ⟨throttledUpdateArrivalsRaw_of_null, rfl, ?_, ?_, ?_, ?_⟩
  · exact throttledUpdateArrivalsRaw_of_null _ _ _ _ (by simp)
  · rw [hstate]
    exact hrows _ (by simp) hv1
  · rw [hstate]
    simp [updateArrivalsDOMRaw, hv1, markDataReceived, truthy, initialState]
  · exact hrows _ (by simp) hv2

/-! ### The empty state rendered by `updateArrivalsDOM` -/

theorem emptyStateRow_after_mark (st : State) (clock : Clock)
    (hrecv : st.hasReceivedServerData = true) (htime : st.lastDataReceiveTime = clock.now) :
    ∃ icon message subMessage,
      emptyStateRow st clock = DomRow.emptyState icon message subMessage ∧
      message ≠ "Connection Lost" ∧ subMessage ≠ "Connecting to transit server" := by
  unfold emptyStateRow
  simp only [hrecv, htime, sub_self]
  have h0 : ¬ ((0 : Int) > 30000) := by decide
  simp only [Bool.not_true, Bool.false_eq_true, if_false, h0]
  split_ifs <;> exact ⟨_, _, _, rfl, by decide, by decide⟩

theorem updateArrivalsDOM_currentServicePeriod (st : State) (clock : Clock)
    (arrivals : Snapshot) (servicePeriod : Option String) :
    (updateArrivalsDOM st clock arrivals servicePeriod).currentServicePeriod =
      if truthy servicePeriod then propKey servicePeriod else st.currentServicePeriod := by
  unfold updateArrivalsDOM
  cases arrivals with
  | none => by_cases hs : truthy servicePeriod = true <;> simp [showEmptyState, markDataReceived, hs]
  | some l =>
    cases l with
    | nil => by_cases hs : truthy servicePeriod = true <;> simp [showEmptyState, markDataReceived, hs]
    | cons a rest =>
      by_cases hs : truthy servicePeriod = true <;>
      by_cases hv : (List.filter isValidArrival (a :: rest)).length = 0 <;>
      simp [showEmptyState, markDataReceived, hs, hv]

theorem updateArrivalsDOM_emptyState (st : State) (clock : Clock) (arrivals : Snapshot)
    (servicePeriod : Option String)
    (hempty : (records arrivals).filter isValidArrival = []) :
    (updateArrivalsDOM st clock arrivals servicePeriod).arrivalsList
      = [emptyStateRow (updateArrivalsDOM st clock arrivals servicePeriod) clock] := by
  unfold updateArrivalsDOM
  cases arrivals with
  | none =>
    by_cases hs : truthy servicePeriod = true <;>
    simp [showEmptyState, markDataReceived, emptyStateRow, hs]
  | some l =>
    cases l with
    | nil =>
      by_cases hs : truthy servicePeriod = true <;>
      simp [showEmptyState, markDataReceived, emptyStateRow, hs]
    | cons a rest =>
      have hv : (List.filter isValidArrival (a :: rest)).length = 0 := by
        simp only [records, Option.getD_some] at hempty
        rw [hempty]
        rfl
      by_cases hs : truthy servicePeriod = true <;>
      simp [showEmptyState, markDataReceived, emptyStateRow, hs, hv]

/-- C29: when `updateArrivalsDOM` itself renders the empty state (the
snapshot is absent, empty or has no valid record) and the clock reads one
instant throughout the call, the data-received mark is set and the silence
clock is reset first, so the list shows one empty-state row whose message is
not "Connection Lost" and which is not the initial "Searching for Trains..." /
"Connecting to transit server" row.  This holds on the three paths that reach
it: `showSchedule`, an `updateArrivals` message that renders, and the
coalescing timer with a pending payload. -/
theorem emptyState_after_data (st : State) (clock : Clock) (arrivals : Snapshot)
    (hempty : (records arrivals).filter isValidArrival = []) :
    (∀ servicePeriod,
      EmptyStateAfterData (updateArrivalsDOM st clock arrivals servicePeriod).arrivalsList ∧
      (updateArrivalsDOM st clock arrivals servicePeriod).hasReceivedServerData = true ∧
      (updateArrivalsDOM st clock arrivals servicePeriod).lastDataReceiveTime = clock.now) ∧
    (∀ station, EmptyStateAfterData (showScheduleBoard st clock station arrivals).arrivalsList) ∧
    (RendersNow st clock arrivals →
      EmptyStateAfterData (throttledUpdateArrivals st clock arrivals none).arrivalsList) ∧
    (∀ id servicePeriod, (∃ t ∈ st.timers, t.id = id) →
      st.pendingArrivalData = some ⟨arrivals, servicePeriod⟩ →
      EmptyStateAfterData (fireTimer st clock id).arrivalsList) := by
  have key : ∀ servicePeriod,
      EmptyStateAfterData (updateArrivalsDOM st clock arrivals servicePeriod).arrivalsList := by
    intro servicePeriod
    obtain ⟨h1, h2⟩ := updateArrivalsDOM_marks st clock arrivals servicePeriod
    obtain ⟨icon, message, subMessage, hrow, hm, hs⟩ :=
      emptyStateRow_after_mark (updateArrivalsDOM st clock arrivals servicePeriod) clock h1 h2
    exact ⟨icon, message, subMessage,
      by rw [updateArrivalsDOM_emptyState st clock arrivals servicePeriod hempty, hrow], hm, hs⟩
  refine ⟨fun servicePeriod => ⟨key servicePeriod,
      updateArrivalsDOM_marks st clock arrivals servicePeriod⟩, fun _ => key none, ?_, ?_⟩
  · intro hr
    rw [throttledUpdateArrivals_of_rendersNow st clock arrivals none hr,
      (renderNow_spec st clock arrivals none).2.1]
    exact key none
  · intro id servicePeriod hq hp
    rw [(fireTimer_pending st clock id ⟨arrivals, servicePeriod⟩ hq hp).2.1]
    exact key servicePeriod

theorem emptyState_after_data_witness :
    EmptyStateAfterData
      (showScheduleBoard initialState ⟨1000, 12⟩ "Central" (some [recordInvalid])).arrivalsList :=
  (emptyState_after_data initialState ⟨1000, 12⟩ (some [recordInvalid])
    (by simp [records, isValidArrival_recordInvalid])).2.1 "Central"

/-! ### The service period -/

theorem emptyStateRow_offpeak (st : State) (clock : Clock)
    (h : st.currentServicePeriod = "offpeak") :
    isServicePeriodRow (emptyStateRow st clock) = false := by
  unfold emptyStateRow
  simp only [h]
  split_ifs <;> first | rfl | (exfalso; simp_all)

theorem updateArrivalsDOM_rows_offpeak (st : State) (clock : Clock) (arrivals : Snapshot)
    (h : st.currentServicePeriod = "offpeak") :
    ∀ row ∈ (updateArrivalsDOM st clock arrivals none).arrivalsList,
      isServicePeriodRow row = false := by
  have hcur : (updateArrivalsDOM st clock arrivals none).currentServicePeriod = "offpeak" := by
    rw [updateArrivalsDOM_currentServicePeriod]
    simpa [truthy] using h
  by_cases hempty : (records arrivals).filter isValidArrival = []
  · rw [updateArrivalsDOM_emptyState st clock arrivals none hempty]
    intro row hrow
    rw [List.mem_singleton] at hrow
    rw [hrow]
    exact emptyStateRow_offpeak _ clock hcur
  · cases arrivals with
    | none => exact absurd rfl hempty
    | some l =>
      have hne : l ≠ [] := by
        intro hl
        subst hl
        exact hempty rfl
      rw [(updateArrivalsDOM_arrivalsList st clock l none hne).1 hempty]
      intro row hrow
      rw [List.mem_map] at hrow
      obtain ⟨a, _, ha⟩ := hrow
      obtain ⟨t, i, c, e, s, hr⟩ :=
        renderRow_isArrival st.heldTrainStatus st.lastETAValues clock.now clock.now a
      rw [← ha, hr]
      rfl

theorem renderNow_currentServicePeriod (st : State) (clock : Clock) (arrivals : Snapshot)
    (servicePeriod : Option String) :
    (renderNow st clock arrivals servicePeriod).currentServicePeriod
      = (updateArrivalsDOM st clock arrivals servicePeriod).currentServicePeriod := by
  obtain ⟨_, _, h3, _⟩ := updateArrivalsDOM_frame st clock arrivals servicePeriod
  unfold renderNow
  cases ht : st.throttleTimeout with
  | none => simp [ht, h3]
  | some id => simp [ht, h3]

theorem deferUpdate_currentServicePeriod (st : State) (clock : Clock) (arrivals : Snapshot)
    (servicePeriod : Option String) :
    (deferUpdate st clock arrivals servicePeriod).currentServicePeriod
      = st.currentServicePeriod := by
  unfold deferUpdate
  cases ht : st.throttleTimeout with
  | none => simp [ht]
  | some id => simp [ht]

theorem fireTimer_currentServicePeriod (st : State) (clock : Clock) (id : Nat) (p : Pending)
    (hq : ∃ t ∈ st.timers, t.id = id) (hp : st.pendingArrivalData = some p) :
    (fireTimer st clock id).currentServicePeriod =
      if truthy p.servicePeriod then propKey p.servicePeriod else st.currentServicePeriod := by
  rw [fireTimer_of_queued st clock id hq]
  unfold throttleCallback
  simp [hp, updateArrivalsDOM_currentServicePeriod]

theorem clearStaleLoop_period (ids : List String) (tracked : List String) (st : State) :
    (clearStaleLoop ids st tracked).currentServicePeriod = st.currentServicePeriod ∧
    (clearStaleLoop ids st tracked).pendingArrivalData = st.pendingArrivalData := by
  induction tracked generalizing st with
  | nil => exact ⟨rfl, rfl⟩
  | cons t rest ih =>
    by_cases hmem : t ∈ ids
    · simp only [clearStaleLoop, hmem, if_true]
      exact ih st
    · simp only [clearStaleLoop, hmem, if_false]
      exact ih (removeInvalidTrain st (some t))

theorem offpeakInv_of_eq (st st2 : State) (h : OffpeakInv st)
    (h1 : st2.currentServicePeriod = st.currentServicePeriod)
    (h2 : st2.pendingArrivalData = st.pendingArrivalData)
    (h3 : st2.arrivalsList = st.arrivalsList) : OffpeakInv st2 := by
  obtain ⟨a, b, c⟩ := h
  exact ⟨h1.trans a, fun p hp => b p (h2 ▸ hp), fun row hrow => c row (h3 ▸ hrow)⟩

theorem offpeakInv_updateArrivalsDOM (st : State) (clock : Clock) (arrivals : Snapshot)
    (h : OffpeakInv st) : OffpeakInv (updateArrivalsDOM st clock arrivals none) := by
  refine ⟨?_, ?_, updateArrivalsDOM_rows_offpeak st clock arrivals h.1⟩
  · rw [updateArrivalsDOM_currentServicePeriod]
    simpa [truthy] using h.1
  · intro p hp
    rw [(updateArrivalsDOM_frame st clock arrivals none).2.1] at hp
    exact h.2.1 p hp

theorem offpeakInv_step (st : State) (e : Event) (h : OffpeakInv st) :
    OffpeakInv (step st e) := by
  cases e with
  | updateArrivals clock arrivals =>
    by_cases hr : RendersNow st clock arrivals
    · simp only [step, throttledUpdateArrivals_of_rendersNow st clock arrivals none hr]
      have hdom := offpeakInv_updateArrivalsDOM st clock arrivals h
      refine ⟨(renderNow_currentServicePeriod st clock arrivals none).trans hdom.1, ?_, ?_⟩
      · intro p hp
        rw [(renderNow_spec st clock arrivals none).2.2.2.2.2.1] at hp
        cases hp
      · rw [(renderNow_spec st clock arrivals none).2.1]
        exact hdom.2.2
    · simp only [step, throttledUpdateArrivals_of_not_rendersNow st clock arrivals none hr]
      refine ⟨(deferUpdate_currentServicePeriod st clock arrivals none).trans h.1, ?_, ?_⟩
      · intro p hp
        rw [(deferUpdate_spec st clock arrivals none).2.2.2.2.2.2.1] at hp
        cases hp
        rfl
      · rw [(deferUpdate_spec st clock arrivals none).2.1]
        exact h.2.2
  | timerFired clock id =>
    simp only [step]
    by_cases hq : ∃ t ∈ st.timers, t.id = id
    · cases hp : st.pendingArrivalData with
      | some p =>
        have hnone : p.servicePeriod = none := h.2.1 p hp
        obtain ⟨_, c2, _, _, _, c6, _⟩ := fireTimer_pending st clock id p hq hp
        refine ⟨?_, ?_, ?_⟩
        · rw [fireTimer_currentServicePeriod st clock id p hq hp, hnone]
          simpa [truthy] using h.1
        · intro p2 hp2
          rw [c6] at hp2
          cases hp2
        · rw [c2, hnone]
          exact updateArrivalsDOM_rows_offpeak st clock p.arrivals h.1
      | none =>
        rw [fireTimer_not_pending st clock id hq hp]
        exact offpeakInv_of_eq st _ h rfl rfl rfl
    · rw [fireTimer_of_not_queued st clock id hq]
      exact h

theorem offpeakInv_stepInbound (st : State) (e : Inbound) (h : OffpeakInv st) :
    OffpeakInv (stepInbound st e) := by
  cases e with
  | coalescer e => exact offpeakInv_step st e h
  | showSchedule clock station arrivals => exact offpeakInv_updateArrivalsDOM st clock arrivals h
  | trainHeldStatus clock trainId isHeld isCaution reason segmentName =>
    refine offpeakInv_of_eq st _ h ?_ ?_ ?_ <;>
    · simp only [stepInbound, updateTrainHeldStatus]
      split_ifs <;> rfl
  | trainRemoved trainId => exact offpeakInv_of_eq st _ h rfl rfl rfl
  | clearStaleTrains validIds =>
    cases validIds with
    | none => exact h
    | some ids =>
      exact offpeakInv_of_eq st _ h (clearStaleLoop_period ids st.validTrainIds st).1
        (clearStaleLoop_period ids st.validTrainIds st).2
        (clearStaleLoop_frame ids st.validTrainIds st).2

theorem offpeakInv_runInbound (events : List Inbound) (st : State) (h : OffpeakInv st) :
    OffpeakInv (runInbound st events) := by
  induction events generalizing st with
  | nil => exact h
  | cons e rest ih =>
    simp only [runInbound, List.foldl_cons]
    exact ih (stepInbound st e) (offpeakInv_stepInbound st e h)

/-- C30: over every sequence of inbound events (`updateArrivals`, the
coalescing timer, `showSchedule`, `trainHeldStatus`, `trainRemoved`,
`clearStaleTrains`) from the initial state, `currentServicePeriod` keeps its
initial value "offpeak" and a pending payload carries no service period: no
row of the list is one of the empty states "Service Starting", "Service
Suspended" or "Searching for Trains..." / "Please wait", and `showEmptyState`
would build none of them at any time. -/
theorem servicePeriod_stays_offpeak (events : List Inbound) :
    (runInbound initialState events).currentServicePeriod = "offpeak"
    ∧ (∀ p, (runInbound initialState events).pendingArrivalData = some p →
        p.servicePeriod = none)
    ∧ (∀ row ∈ (runInbound initialState events).arrivalsList, isServicePeriodRow row = false)
    ∧ (∀ clock, isServicePeriodRow (emptyStateRow (runInbound initialState events) clock)
        = false) := by
  have hinit : OffpeakInv initialState := by
    refine ⟨rfl, ?_, ?_⟩
    · intro p hp
      cases hp
    · intro row hrow
      simp [initialState] at hrow
  obtain ⟨h1, h2, h3⟩ := offpeakInv_runInbound events initialState hinit
  exact ⟨h1, h2, h3, fun clock => emptyStateRow_offpeak _ clock h1⟩

theorem servicePeriod_stays_offpeak_witness :
    (runInbound initialState scheduleEvents).currentServicePeriod = "offpeak" :=
  (servicePeriod_stays_offpeak scheduleEvents).1

end DpsTransit
